import Mathlib

/-!
The console front end of sidplayfp: argument parser and configuration store.

A shallow embedding of `src/args.cpp` and `src/IniConfig.cpp`.

Conventions of the embedding:

* a C string is the `List Char` of the characters in front of its terminating
  NUL;
* integer widths are those of an LP64 platform: `int` is 32 bits wide and wraps
  in two's complement, `long` is 64 bits wide, `uint_least8_t`,
  `uint_least16_t` and `uint_least32_t` are exactly 8, 16 and 32 bits wide;
* `atoi` is `(int) strtol (s, NULL, 10)`, as in glibc; `strtol` clamps to the
  range of `long`.
-/

namespace Sidplayfp

/-! ## Machine integers -/

/-- Conversion to a 32 bit unsigned integer. -/
def toU32 (x : Int) : Nat := (x % 4294967296).toNat

/-- Conversion to a 16 bit unsigned integer. -/
def toU16 (x : Int) : Nat := (x % 65536).toNat

/-- Conversion to an 8 bit unsigned integer. -/
def toU8 (x : Int) : Nat := (x % 256).toNat

/-- Conversion to a 32 bit two's complement `int`. -/
def toI32 (x : Int) : Int := (x + 2147483648) % 4294967296 - 2147483648

/-- Clamp to the range of a 64 bit `long`, as `strtol` does on overflow. -/
def clampLong (x : Int) : Int :=
  if x < -9223372036854775808 then -9223372036854775808
  else if 9223372036854775807 < x then 9223372036854775807
  else x

/-! ## C library string functions -/

/-- The `isspace` class of the C locale. -/
def isspace (c : Char) : Bool :=
  c = ' ' || c = Char.ofNat 9 || c = Char.ofNat 10 || c = Char.ofNat 11 ||
    c = Char.ofNat 12 || c = Char.ofNat 13

/-- Value of a character as a digit of `strtol`; 99 for a character that is no digit
in any base. -/
def digitValue (c : Char) : Nat :=
  if 48 ≤ c.toNat ∧ c.toNat ≤ 57 then c.toNat - 48
  else if 97 ≤ c.toNat ∧ c.toNat ≤ 122 then c.toNat - 97 + 10
  else if 65 ≤ c.toNat ∧ c.toNat ≤ 90 then c.toNat - 65 + 10
  else 99

/-- Whether `c` is a digit of base `b`. -/
def isDigitIn (b : Nat) (c : Char) : Bool := decide (digitValue c < b)

/-- Value of a run of digits in base `b`, most significant digit first. -/
def digitsVal (b : Nat) (ds : List Char) : Nat :=
  ds.foldl (fun a c => a * b + digitValue c) 0

/-- Value of a run of decimal digits. -/
def decVal (ds : List Char) : Nat := digitsVal 10 ds

/-- The sign `strtol` reads: whether it is negative, how many characters it takes,
and the text after it. -/
def readSign : List Char → Bool × Nat × List Char
  | '-' :: t => (true, 1, t)
  | '+' :: t => (false, 1, t)
  | s => (false, 0, s)

/-- Base detection of `strtol`: the base in use, the length of the `0x` prefix that is
skipped, and the text the digits are read from. -/
def readBase (base : Nat) (s : List Char) : Nat × Nat × List Char :=
  if base = 0 ∨ base = 16 then
    match s with
    | '0' :: x :: h :: t =>
      if (x = 'x' ∨ x = 'X') ∧ isDigitIn 16 h = true then (16, 2, h :: t)
      else if base = 0 then (8, 0, s) else (16, 0, s)
    | '0' :: _ => if base = 0 then (8, 0, s) else (16, 0, s)
    | _ => if base = 0 then (10, 0, s) else (16, 0, s)
  else (base, 0, s)

/-- The C function `strtol (s, &end, base)`: the value and `end - s`. Without a digit there
is no conversion: the value is 0 and `end` is `s`. -/
def strtol (s : List Char) (base : Nat) : Int × Nat :=
  let sp := (s.takeWhile isspace).length
  let sg := readSign (s.dropWhile isspace)
  let bs := readBase base sg.2.2
  let ds := bs.2.2.takeWhile (isDigitIn bs.1)
  if ds.isEmpty then (0, 0)
  else
    let v : Int := digitsVal bs.1 ds
    (clampLong (if sg.1 then -v else v), sp + sg.2.1 + bs.2.1 + ds.length)

/-- The C function `atoi`. -/
def atoi (s : List Char) : Int := toI32 (strtol s 10).1

/-- The C call `strstr (s, c)` for a needle of one character: the text in front of the first
`c` and the text behind it, or `none` when `c` does not occur. -/
def splitFirst (c : Char) (s : List Char) : Option (List Char × List Char) :=
  match s.dropWhile (fun x => x != c) with
  | [] => none
  | _ :: rest => some (s.takeWhile (fun x => x != c), rest)

/-- The call `std::string::find_first_of (c)`: `none` is `npos`. -/
def findFirstOf (c : Char) : List Char → Option Nat
  | [] => none
  | x :: xs => if x = c then some 0 else (findFirstOf c xs).map (fun n => n + 1)

/-- The call `std::string::substr (pos, count)` for `pos` within the string. -/
def substr (s : List Char) (pos count : Nat) : List Char := (s.drop pos).take count

/-! ## args.cpp: parseTime and parseAddress -/

/-- Result of `parseTime`: the return value, the caller's time variable after the call, and
the C string at `str` after the call (the function writes a NUL over the first colon). -/
structure TimeResult where
  ok : Bool
  time : Nat
  str : List Char
deriving DecidableEq, Repr

/-- Fractional part of `parseTime`: given the text behind the colon, `none` when the function
returns false, else the milliseconds and the text the seconds are read from. -/
def parseMillis (afterSep : List Char) : Option (Nat × List Char) :=
  match splitFirst '.' afterSep with
  | none => some (0, afterSep)
  | some (secTxt, start) =>
    let r := strtol start 10
    let milliseconds := toU32 r.1
    let scaled : Option Nat :=
      match r.2 with
      | 1 => some (toU32 (milliseconds * 100))
      | 2 => some (toU32 (milliseconds * 10))
      | 3 => some milliseconds
      | _ => none
    match scaled with
    | none => none
    | some ms => if ms > 999 then none else some (ms, secTxt)

/-- The function `parseTime (const char *str, uint_least32_t &time)` of args.cpp. -/
def parseTime (str : List Char) (time : Nat) : TimeResult :=
  if str.isEmpty then ⟨false, time, str⟩
  else
    match splitFirst ':' str with
    | none => ⟨true, toU32 ((toU32 (atoi str) : Int) * 1000 + 0), str⟩
    | some (minTxt, afterSep) =>
      let val := atoi minTxt
      if val < 0 ∨ val > 99 then ⟨false, time, minTxt⟩
      else
        let t0 := toU32 ((toU32 val : Int) * 60)
        match parseMillis afterSep with
        | none => ⟨false, time, minTxt⟩
        | some (milliseconds, secTxt) =>
          let val2 := atoi secTxt
          if val2 < 0 ∨ val2 > 59 then ⟨false, time, minTxt⟩
          else
            let t1 := toU32 ((t0 : Int) + (toU32 val2 : Int))
            ⟨true, toU32 ((t1 : Int) * 1000 + (milliseconds : Int)), minTxt⟩

/-- The function `parseAddress (const char *str, uint_least16_t &address)` of args.cpp: the
return value and the caller's address variable after the call. -/
def parseAddress (str : List Char) (address : Nat) : Bool × Nat :=
  if str.isEmpty then (false, address)
  else (true, toU16 (strtol str 0).1)

/-! ## IniConfig.cpp: readTime -/

/-- Modelled from the spec: `dataParser::parseInt` (ini/dataParser.h is not among the
sources), decimal integer parsing into an `int` in the manner of formatted stream
extraction: leading white space is skipped, an optional sign and the longest run of decimal
digits are read, the text behind them is ignored; `none` stands for `parseError`, raised when
there is no digit or the value does not fit an `int`. -/
def parseInt (s : List Char) : Option Int :=
  let sg := readSign (s.dropWhile isspace)
  let ds := sg.2.2.takeWhile (isDigitIn 10)
  if ds.isEmpty then none
  else
    let v : Int := if sg.1 then -(decVal ds : Int) else (decVal ds : Int)
    if v < -2147483648 ∨ 2147483647 < v then none else some v

/-- The `count` argument `dot - sep` of `substr`, computed in 64 bit `size_t`. -/
def sizeSub (dot sep : Nat) : Nat :=
  if sep ≤ dot then dot - sep else 18446744073709551616 - (sep - dot)

/-- Seconds and milliseconds of `readTime` in the `MM:SS[.mmm]` branch; `none` when a parse
error is raised or the jump to the error label is taken. -/
def readSecMillis (parseInt : List Char → Option Int) (str : List Char) (sep : Nat) :
    Option (Int × Int) :=
  match findFirstOf '.' str with
  | none =>
    match parseInt (str.drop (sep + 1)) with
    | none => none
    | some sec => some (sec, 0)
  | some dot =>
    match parseInt (substr str (sep + 1) (sizeSub dot sep)) with
    | none => none
    | some sec =>
      let msec := str.drop (dot + 1)
      match parseInt msec with
      | none => none
      | some m =>
        match msec.length with
        | 1 => some (sec, toI32 (m * 100))
        | 2 => some (sec, toI32 (m * 10))
        | 3 => some (sec, m)
        | _ => none

/-- The function `readTime (iniHandler &ini, const TCHAR *key, int &value)` of IniConfig.cpp,
on the string `readString` returns for the key (empty when the key is absent): the return value
and the caller's variable after the call. -/
def readTime (parseInt : List Char → Option Int) (str : List Char) (value : Int) :
    Bool × Int :=
  if str.isEmpty then (false, value)
  else
    match findFirstOf ':' str with
    | none =>
      match parseInt str with
      | none => (false, value)
      | some time => (true, toI32 (toI32 (time * 1000) + 0))
    | some sep =>
      match parseInt (str.take sep) with
      | none => (false, value)
      | some min =>
        if min < 0 ∨ min > 99 then (false, value)
        else
          match readSecMillis parseInt str sep with
          | none => (false, value)
          | some (sec, milliseconds) =>
            if sec < 0 ∨ sec > 59 then (false, value)
            else (true, toI32 (toI32 (toI32 (toI32 (min * 60) + sec) * 1000) + milliseconds))

/-! ## Vocabulary of the statements -/

/-- A text that does not go on with a decimal digit. -/
def noDigitHead (rest : List Char) : Prop := ∀ c ∈ rest.head?, c.isDigit = false

instance (rest : List Char) : Decidable (noDigitHead rest) := by
  unfold noDigitHead; infer_instance

/-- Milliseconds denoted by one to three fractional digits: tenths, hundredths or
thousandths. -/
def fracMillis (frac : List Char) : Nat := decVal frac * 10 ^ (3 - frac.length)

/-- A time text that `parseTime` is to refuse: the empty text, or a text with a colon whose
minutes or seconds are decimal numbers that fit an `int` and lie outside 0..99 or 0..59, or
whose fraction behind the `.` has no digit or more than three digits. -/
def RejectedTime (s : List Char) : Prop :=
  s = [] ∨
  (∃ mm rest, s = mm ++ ':' :: rest ∧ (∀ c ∈ mm, c.isDigit = true) ∧
    99 < decVal mm ∧ decVal mm < 2147483648) ∨
  (∃ mm rest, s = '-' :: mm ++ ':' :: rest ∧ (∀ c ∈ mm, c.isDigit = true) ∧
    0 < decVal mm ∧ decVal mm ≤ 2147483648) ∨
  (∃ m ss tail, s = m ++ ':' :: (ss ++ tail) ∧ ':' ∉ m ∧ (∀ c ∈ ss, c.isDigit = true) ∧
    59 < decVal ss ∧ decVal ss < 2147483648 ∧ (tail = [] ∨ ∃ fr, tail = '.' :: fr)) ∨
  (∃ m ss tail, s = m ++ ':' :: ('-' :: ss ++ tail) ∧ ':' ∉ m ∧ (∀ c ∈ ss, c.isDigit = true) ∧
    0 < decVal ss ∧ decVal ss ≤ 2147483648 ∧ (tail = [] ∨ ∃ fr, tail = '.' :: fr)) ∨
  (∃ m sec frac, s = m ++ ':' :: (sec ++ '.' :: frac) ∧ ':' ∉ m ∧ '.' ∉ sec ∧
    (∀ c ∈ frac, c.isDigit = true) ∧ (frac.length = 0 ∨ 3 < frac.length))

/-- The time texts of the digit grammar on which the two parsers are compared: `SS` with at
most 2147483 seconds, `MM:SS` and `MM:SS.f` with any run `f` of digits, the numbers below
2147483648. -/
inductive TimeText : List Char → Prop
  | seconds (ss : List Char) (hne : ss ≠ []) (hs : ∀ c ∈ ss, c.isDigit = true)
      (hv : decVal ss ≤ 2147483) : TimeText ss
  | minSec (mm ss : List Char) (hm0 : mm ≠ []) (hs0 : ss ≠ [])
      (hm : ∀ c ∈ mm, c.isDigit = true) (hs : ∀ c ∈ ss, c.isDigit = true)
      (hmv : decVal mm < 2147483648) (hsv : decVal ss < 2147483648) :
      TimeText (mm ++ ':' :: ss)
  | minSecFrac (mm ss frac : List Char) (hm0 : mm ≠ []) (hs0 : ss ≠ [])
      (hm : ∀ c ∈ mm, c.isDigit = true) (hs : ∀ c ∈ ss, c.isDigit = true)
      (hf : ∀ c ∈ frac, c.isDigit = true)
      (hmv : decVal mm < 2147483648) (hsv : decVal ss < 2147483648) :
      TimeText (mm ++ ':' :: (ss ++ '.' :: frac))

/-- The time a call of `parseTime` accepts, `none` when it returns false. -/
def TimeResult.accepted (r : TimeResult) : Option Int :=
  if r.ok = true then some (r.time : Int) else none

/-- The time a call of `readTime` accepts, `none` when it returns false. -/
def acceptedTime (r : Bool × Int) : Option Int :=
  if r.1 = true then some r.2 else none

/-! ## SidConfig and player.h enumerations -/

/-- Clock regions of `SidConfig::c64_model_t` named in the sources. -/
inductive C64Model
  | PAL | NTSC | OLD_NTSC | DREAN
deriving DecidableEq, Repr

/-- Chip models of `SidConfig::sid_model_t`. -/
inductive SidModel
  | MOS6581 | MOS8580
deriving DecidableEq, Repr

/-- CIA models of `SidConfig::cia_model_t`. -/
inductive CiaModel
  | MOS6526 | MOS8521
deriving DecidableEq, Repr

/-- Resampling methods of `SidConfig::sampling_method_t`. -/
inductive SamplingMethod
  | INTERPOLATE | RESAMPLE_INTERPOLATE
deriving DecidableEq, Repr

/-- Modelled from the spec: the enumeration `OUTPUTS` of player.h, which is not among the
sources; the output modes are the null output, the live audio device, a WAV file and an AU
file. -/
inductive Output
  | OUT_NULL | OUT_SOUNDCARD | OUT_WAV | OUT_AU
deriving DecidableEq, Repr

/-- Modelled from the spec: the integer value of an `OUTPUTS` enumerator, numbered from 0 in
the order null, sound card, WAV, AU, so that the file outputs are the ones above
`OUT_SOUNDCARD`. -/
def Output.code : Output → Nat
  | .OUT_NULL => 0
  | .OUT_SOUNDCARD => 1
  | .OUT_WAV => 2
  | .OUT_AU => 3

/-- Modelled from the spec: the enumeration `SIDEMUS` of player.h, which is not among the
sources: no emulation, the default, the two software emulations and the two hardware
devices. -/
inductive SidEmu
  | EMU_NONE | EMU_DEFAULT | EMU_RESIDFP | EMU_RESID | EMU_HARDSID | EMU_EXSID
deriving DecidableEq, Repr

/-- Modelled from the spec: the integer value of a `SIDEMUS` enumerator, numbered from 0, the
hardware devices last. -/
def SidEmu.code : SidEmu → Nat
  | .EMU_NONE => 0
  | .EMU_DEFAULT => 1
  | .EMU_RESIDFP => 2
  | .EMU_RESID => 3
  | .EMU_HARDSID => 4
  | .EMU_EXSID => 5

/-! ## IniConfig.cpp: the settings records and clear -/

/-- The record `sidplayfp_s`. -/
structure SidplayfpSection where
  version : Int
  playLength : Int
  recordLength : Int
  verboseLevel : Int
  database : List Char
  kernalRom : List Char
  basicRom : List Char
  chargenRom : List Char
deriving DecidableEq, Repr

/-- The record `console_s`. -/
structure ConsoleSection where
  ansi : Bool
  topLeft : Char
  topRight : Char
  bottomLeft : Char
  bottomRight : Char
  vertical : Char
  horizontal : Char
  junctionLeft : Char
  junctionRight : Char
deriving DecidableEq, Repr

/-- The record `audio_s`. -/
structure AudioSection where
  frequency : Int
  channels : Int
  precision : Int
deriving DecidableEq, Repr

/-- The record `emulation_s`; the doubles only ever hold values that are assigned, and are
kept as rationals. -/
structure EmulationSection where
  modelDefault : C64Model
  modelForced : Bool
  sidModel : SidModel
  forceModel : Bool
  digiboost : Bool
  ciaModel : CiaModel
  filter : Bool
  engine : List Char
  bias : Rat
  filterCurve6581 : Rat
  filterCurve8580 : Rat
  powerOnDelay : Int
  samplingMethod : SamplingMethod
  fastSampling : Bool
deriving DecidableEq

/-- The four settings records of an `IniConfig`. -/
structure IniConfig where
  sidplayfp_s : SidplayfpSection
  console_s : ConsoleSection
  audio_s : AudioSection
  emulation_s : EmulationSection
deriving DecidableEq

/-- Compile time switches of the sources. -/
structure Build where
  FEAT_THIRD_SID : Bool
  FEAT_DIGIBOOST : Bool
  FEAT_CONFIG_CIAMODEL : Bool
  HAVE_RESIDFP : Bool
  HAVE_RESID : Bool
  HAVE_HARDSID : Bool
  HAVE_EXSID : Bool
  HAVE_TSID : Bool
deriving DecidableEq, Repr

/-- The method `IniConfig::clear`; `defaultSamplingFreq` is the library constant
`SidConfig::DEFAULT_SAMPLING_FREQ`. -/
def IniConfig.clear (b : Build) (defaultSamplingFreq : Int) (c : IniConfig) : IniConfig :=
  { sidplayfp_s :=
      { version := 2
        playLength := 0
        recordLength := (5 * 60) * 1000
        verboseLevel := 0
        database := []
        kernalRom := []
        basicRom := []
        chargenRom := [] }
    console_s :=
      { ansi := false
        topLeft := '+'
        topRight := '+'
        bottomLeft := '+'
        bottomRight := '+'
        vertical := '|'
        horizontal := '-'
        junctionLeft := ':'
        junctionRight := ':' }
    audio_s :=
      { frequency := defaultSamplingFreq
        channels := 0
        precision := 16 }
    emulation_s :=
      { c.emulation_s with
        modelDefault := C64Model.PAL
        modelForced := false
        sidModel := SidModel.MOS6581
        forceModel := false
        ciaModel := if b.FEAT_CONFIG_CIAMODEL then CiaModel.MOS6526 else c.emulation_s.ciaModel
        filter := true
        engine := []
        bias := 1 / 2
        filterCurve6581 := 1 / 2
        filterCurve8580 := 1 / 2
        powerOnDelay := -1
        samplingMethod := SamplingMethod.RESAMPLE_INTERPOLATE
        fastSampling := false } }

/-! ## args.cpp: the player state -/

/-- The record `m_driver`. -/
structure Driver where
  output : Output
  sid : SidEmu
  file : Bool
  info : Bool
deriving DecidableEq, Repr

/-- The fields of `m_timer` that `args` uses. -/
structure Timer where
  start : Nat
  length : Nat
  valid : Bool
deriving DecidableEq, Repr

/-- The record `m_track`; the track numbers hold the `int` that is assigned. -/
structure Track where
  first : Int
  selected : Int
  songs : Int
  loop : Bool
  single : Bool
deriving DecidableEq, Repr

/-- The fields of the engine configuration `m_engCfg` that `args` sets. -/
structure EngCfg where
  secondSidAddress : Nat
  thirdSidAddress : Nat
  frequency : Nat
  samplingMethod : SamplingMethod
  fastSampling : Bool
  defaultSidModel : SidModel
  forceSidModel : Bool
  digiBoost : Bool
  defaultC64Model : C64Model
  forceC64Model : Bool
  powerOnDelay : Nat
deriving DecidableEq, Repr

/-- The state of a `ConsolePlayer` that `args` reads and writes. The integer fields whose
declarations are in player.h hold the `int` that is assigned. `m_outfile` is `none` for the
null pointer. -/
structure Player where
  m_driver : Driver
  vMute : List Bool
  m_timer : Timer
  m_engCfg : EngCfg
  m_filterEnabled : Bool
  m_track : Track
  m_precision : Int
  m_quietLevel : Int
  m_verboseLevel : Int
  m_channels : Int
  m_cpudebug : Bool
  m_outfile : Option (List Char)
  m_filename : List Char
  newSonglengthDB : Bool
  m_iniCfg : IniConfig
deriving DecidableEq

/-- The collaborators of `args` outside the sources, and the memory behind the tokens. -/
structure Env where
  /-- The byte at position `k` of token `i`, for `k` behind the terminating NUL. -/
  oob : Nat → Nat → Char
  /-- The environment variable `HVSC_BASE`. -/
  hvscBase : Option (List Char)
  /-- Result of `m_tune.getStatus ()` after `m_tune.load` of a file name. -/
  tuneStatus : List Char → Bool
  /-- Result of `m_tune.selectSong` for the tune loaded from a file name. -/
  selectSong : List Char → Int → Int
  /-- Result of `m_database.open` of a file name. -/
  dbOpen : List Char → Bool
  /-- Result of `m_tsid.setBaseDir (true)`. -/
  tsidSetBaseDir : Bool
  /-- Result of `m_engine.config`. -/
  engineConfig : EngCfg → Bool

/-- The character `argv[i][k]` of the token `tok` at index `i`. -/
def charAt (env : Env) (i : Nat) (tok : List Char) (k : Nat) : Char :=
  match tok[k]? with
  | some c => c
  | none => if k = tok.length then Char.ofNat 0 else env.oob i k

/-- What the scan does with one token. -/
inductive TokenOutcome
  /-- One of the help options: `args` returns 0. -/
  | help
  /-- The player after the token, the token after it, and the error flag `err`. -/
  | cont (p : Player) (tok : List Char) (err : Bool)

/-- Set the flag `vMute[k]`. -/
def setMute (v : List Bool) (k : Nat) : List Bool := v.set k true

/-- The branches of the option chain of the scan loop, in the order of the source. -/
inductive OptKind
  | help | helpDbg | start | secondSid | thirdSid | frequency | noFilter | track | precision
  | quiet | length | resample | stereo | mono | digiboost | verbose | delay | wav | au | info
  | residfp | resid | hardsid | exsid | none | nosid | noaudio | cpuDebug | unknown
deriving DecidableEq, Repr

/-- The conditions of the `if` / `else if` chain of the scan loop, tried in the order of the
source: the branch taken for a token whose second character is `c1` and whose text from the
second character on is `t1`. -/
def optKind (b : Build) (c1 : Char) (t1 : List Char) : OptKind :=
  if c1 = 'h' ∨ t1 = ['-', 'h', 'e', 'l', 'p'] then .help
  else if t1 = ['-', 'h', 'e', 'l', 'p', '-', 'd', 'b', 'g'] then .helpDbg
  else if c1 = 'b' then .start
  else if t1.take 2 = ['d', 's'] then .secondSid
  else if b.FEAT_THIRD_SID = true ∧ t1.take 2 = ['t', 's'] then .thirdSid
  else if c1 = 'f' then .frequency
  else if t1.take 2 = ['n', 'f'] then .noFilter
  else if c1 = 'o' then .track
  else if c1 = 'p' then .precision
  else if c1 = 'q' then .quiet
  else if c1 = 't' then .length
  else if c1 = 'r' then .resample
  else if c1 = 's' then .stereo
  else if c1 = 'm' then .mono
  else if b.FEAT_DIGIBOOST = true ∧
      t1 = ['-', 'd', 'i', 'g', 'i', 'b', 'o', 'o', 's', 't'] then .digiboost
  else if c1 = 'v' then .verbose
  else if t1.take 7 = ['-', 'd', 'e', 'l', 'a', 'y', '='] then .delay
  else if c1 = 'w' ∨ t1.take 4 = ['-', 'w', 'a', 'v'] then .wav
  else if t1.take 3 = ['-', 'a', 'u'] then .au
  else if t1.take 5 = ['-', 'i', 'n', 'f', 'o'] then .info
  else if b.HAVE_RESIDFP = true ∧ t1 = ['-', 'r', 'e', 's', 'i', 'd', 'f', 'p'] then .residfp
  else if b.HAVE_RESID = true ∧ t1 = ['-', 'r', 'e', 's', 'i', 'd'] then .resid
  else if b.HAVE_HARDSID = true ∧ t1 = ['-', 'h', 'a', 'r', 'd', 's', 'i', 'd'] then .hardsid
  else if b.HAVE_EXSID = true ∧ t1 = ['-', 'e', 'x', 's', 'i', 'd'] then .exsid
  else if t1 = ['-', 'n', 'o', 'n', 'e'] then .none
  else if t1 = ['-', 'n', 'o', 's', 'i', 'd'] then .nosid
  else if t1 = ['-', 'n', 'o', 'a', 'u', 'd', 'i', 'o'] then .noaudio
  else if t1 = ['-', 'c', 'p', 'u', '-', 'd', 'e', 'b', 'u', 'g'] then .cpuDebug
  else .unknown

/-- The bodies of the branches of the option chain: what the branch `k` does with the token
`tok` at index `i`. -/
def optionBody (env : Env) (i : Nat) (tok : List Char) (p : Player) : OptKind → TokenOutcome
  | .help => .help
  | .helpDbg => .help
  | .start =>
    let r := parseTime (tok.drop 2) p.m_timer.start
    .cont { p with m_timer := { p.m_timer with start := r.time } } (tok.take 2 ++ r.str) (!r.ok)
  | .secondSid =>
    let r := parseAddress (tok.drop 3) p.m_engCfg.secondSidAddress
    .cont { p with m_engCfg := { p.m_engCfg with secondSidAddress := r.2 } } tok (!r.1)
  | .thirdSid =>
    let r := parseAddress (tok.drop 3) p.m_engCfg.thirdSidAddress
    .cont { p with m_engCfg := { p.m_engCfg with thirdSidAddress := r.2 } } tok (!r.1)
  | .frequency =>
    .cont { p with m_engCfg := { p.m_engCfg with frequency := toU32 (atoi (tok.drop 2)) } } tok
      (decide (charAt env i tok 2 = Char.ofNat 0))
  | .noFilter =>
    .cont (if charAt env i tok 3 = Char.ofNat 0 then { p with m_filterEnabled := false } else p)
      tok false
  | .track =>
    if charAt env i tok 2 = 'l' then
      .cont { p with m_track := { p.m_track with
                loop := true
                single := decide (charAt env i tok 3 = 's')
                first := atoi (tok.drop (if charAt env i tok 3 = 's' then 4 else 3)) } } tok false
    else if charAt env i tok 2 = 's' then
      .cont { p with m_track := { p.m_track with
                loop := decide (charAt env i tok 3 = 'l')
                single := true
                first := atoi (tok.drop (if charAt env i tok 3 = 'l' then 4 else 3)) } } tok false
    else
      .cont { p with m_track := { p.m_track with first := atoi (tok.drop 2) } } tok false
  | .precision =>
    .cont { p with m_precision := if toU8 (atoi (tok.drop 2)) ≤ 16 then 16 else 32 } tok
      (decide (charAt env i tok 2 = Char.ofNat 0))
  | .quiet =>
    .cont { p with m_quietLevel :=
              if charAt env i tok 2 = Char.ofNat 0 then 1 else atoi (tok.drop 2) } tok false
  | .length =>
    let r := parseTime (tok.drop 2) p.m_timer.length
    .cont { p with m_timer := { p.m_timer with length := r.time, valid := true } }
      (tok.take 2 ++ r.str) (!r.ok)
  | .resample =>
    let cfg : EngCfg :=
      if charAt env i tok 2 = 'i' then
        { p.m_engCfg with samplingMethod := SamplingMethod.INTERPOLATE }
      else if charAt env i tok 2 = 'r' then
        { p.m_engCfg with samplingMethod := SamplingMethod.RESAMPLE_INTERPOLATE }
      else p.m_engCfg
    .cont { p with m_engCfg := { cfg with fastSampling := decide (charAt env i tok 3 = 'f') } }
      tok (decide (charAt env i tok 2 ≠ 'i' ∧ charAt env i tok 2 ≠ 'r'))
  | .stereo => .cont { p with m_channels := 2 } tok false
  | .mono =>
    let p1 : Player :=
      if charAt env i tok 2 = Char.ofNat 0 then { p with m_channels := 1 }
      else if charAt env i tok 2 = 'o' then
        { p with m_engCfg := { p.m_engCfg with defaultSidModel := SidModel.MOS6581 } }
      else if charAt env i tok 2 = 'n' then
        { p with m_engCfg := { p.m_engCfg with defaultSidModel := SidModel.MOS8580 } }
      else if atoi (tok.drop 2) > 0 ∧ atoi (tok.drop 2) ≤ 9 then
        { p with vMute := setMute p.vMute (atoi (tok.drop 2) - 1).toNat }
      else p
    .cont { p1 with m_engCfg := { p1.m_engCfg with
              forceSidModel := decide (charAt env i tok 3 = 'f') } } tok false
  | .digiboost => .cont { p with m_engCfg := { p.m_engCfg with digiBoost := true } } tok false
  | .verbose =>
    let p1 : Player :=
      if charAt env i tok 2 = Char.ofNat 0 then { p with m_verboseLevel := 1 }
      else if charAt env i tok 2 = 'f' then
        { p with m_engCfg := { p.m_engCfg with forceC64Model := true } }
      else if charAt env i tok 2 = 'n' then
        { p with m_engCfg := { p.m_engCfg with defaultC64Model := C64Model.NTSC } }
      else if charAt env i tok 2 = 'p' then
        { p with m_engCfg := { p.m_engCfg with defaultC64Model := C64Model.PAL } }
      else { p with m_verboseLevel := atoi (tok.drop 2) }
    .cont { p1 with m_engCfg := { p1.m_engCfg with
              forceC64Model :=
                decide (charAt env i tok (if charAt env i tok 2 = 'f' then 2 else 3) = 'f') } }
      tok false
  | .delay =>
    .cont { p with m_engCfg := { p.m_engCfg with powerOnDelay := toU16 (atoi (tok.drop 8)) } }
      tok false
  | .wav =>
    let k := if charAt env i tok 1 = 'w' then 2 else 5
    .cont { p with
            m_driver := { p.m_driver with output := Output.OUT_WAV, file := true }
            m_outfile := if charAt env i tok k ≠ Char.ofNat 0 then some (tok.drop k)
                         else p.m_outfile } tok false
  | .au =>
    .cont { p with
            m_driver := { p.m_driver with output := Output.OUT_AU, file := true }
            m_outfile := if charAt env i tok 4 ≠ Char.ofNat 0 then some (tok.drop 4)
                         else p.m_outfile } tok false
  | .info => .cont { p with m_driver := { p.m_driver with info := true } } tok false
  | .residfp =>
    .cont { p with m_driver := { p.m_driver with sid := SidEmu.EMU_RESIDFP } } tok false
  | .resid => .cont { p with m_driver := { p.m_driver with sid := SidEmu.EMU_RESID } } tok false
  | .hardsid =>
    .cont { p with m_driver := { p.m_driver with
              sid := SidEmu.EMU_HARDSID, output := Output.OUT_NULL } } tok false
  | .exsid =>
    .cont { p with m_driver := { p.m_driver with
              sid := SidEmu.EMU_EXSID, output := Output.OUT_NULL } } tok false
  | .none =>
    .cont { p with m_driver := { p.m_driver with
              sid := SidEmu.EMU_NONE, output := Output.OUT_NULL } } tok false
  | .nosid => .cont { p with m_driver := { p.m_driver with sid := SidEmu.EMU_NONE } } tok false
  | .noaudio =>
    .cont { p with m_driver := { p.m_driver with output := Output.OUT_NULL } } tok false
  | .cpuDebug => .cont { p with m_cpudebug := true } tok false
  | .unknown => .cont p tok true

/-- The body of the scan loop for a token that starts with `-` and has a second character:
the branch of the option chain that the token selects, and what it does. -/
def optionToken (b : Build) (env : Env) (i : Nat) (tok : List Char) (p : Player) :
    TokenOutcome :=
  optionBody env i tok p (optKind b (charAt env i tok 1) (tok.drop 1))

/-- Whether the scan treats a token as an option: `argv[i][0] == '-' && argv[i][1] != 0`. -/
def isOption (tok : List Char) : Bool :=
  match tok with
  | '-' :: _ :: _ => true
  | _ => false

/-- The variables of the scan loop apart from the index: the player, the token array (the
time parser writes into its tokens) and `infile`. -/
structure ScanState where
  p : Player
  argv : List (List Char)
  infile : Nat

/-- How the scan loop ends. -/
inductive ScanResult
  /-- A help option was met: `args` returns 0. -/
  | help (s : ScanState)
  /-- The flag `err` was set by the token at index `i`: `args` returns -1. -/
  | syntaxError (s : ScanState) (i : Nat)
  /-- The loop condition failed. -/
  | done (s : ScanState)

/-- One pass through the body of the scan loop at index `i`, for the token `tok` found
there: the result of the scan when it ends here, else the state for the next pass. -/
def scanToken (b : Build) (env : Env) (i : Nat) (tok : List Char) (s : ScanState) :
    ScanResult ⊕ ScanState :=
  if isOption tok = true then
    match optionToken b env i tok s.p with
    | .help => .inl (.help s)
    | .cont p tok1 err =>
      let s1 : ScanState := { p := p, argv := s.argv.set i tok1, infile := s.infile }
      if err = true then .inl (.syntaxError s1 i) else .inr s1
  else if s.infile = 0 then .inr { s with infile := i }
  else .inl (.syntaxError s i)

/-- The scan loop of `args`, run for at most `fuel` passes from index `i`. The index is a
`uint8_t`: `i++` wraps from 255 to 0. The count `argc` is the number of tokens, none of which
is a null pointer. `none`: the loop has not ended within `fuel` passes. -/
def scanLoop (b : Build) (env : Env) : Nat → Nat → ScanState → Option ScanResult
  | 0, _, _ => none
  | fuel + 1, i, s =>
    if i < s.argv.length then
      match s.argv[i]? with
      | none => some (.done s)
      | some tok =>
        match scanToken b env i tok s with
        | .inl r => some r
        | .inr s1 => scanLoop b env fuel ((i + 1) % 256) s1
    else some (.done s)

/-- The separator of file names. -/
def SEPARATOR : List Char := ['/']

/-- The method `tryOpenDatabase`. -/
def tryOpenDatabase (env : Env) (hvscBase suffix : List Char) : Bool :=
  env.dbOpen (hvscBase ++ SEPARATOR ++ ['D', 'O', 'C', 'U', 'M', 'E', 'N', 'T', 'S'] ++ SEPARATOR
    ++ ['S', 'o', 'n', 'g', 'l', 'e', 'n', 'g', 't', 'h', 's', '.'] ++ suffix)

/-- Whether `needle` occurs in `s`: `s.find (needle) != npos`. -/
def containsStr (needle : List Char) : List Char → Bool
  | [] => needle.isEmpty
  | c :: cs => needle.isPrefixOf (c :: cs) || containsStr needle cs

/-- The method `tryOpenTune`: whether the tune loads from below `hvscBase`, and the file name
`m_filename` holds afterwards. -/
def tryOpenTune (env : Env) (m_filename hvscBase : List Char) : Bool × List Char :=
  if env.tuneStatus (hvscBase ++ SEPARATOR ++ m_filename) = true then
    (true, hvscBase ++ SEPARATOR ++ m_filename)
  else (false, m_filename)

/-- Loading of the tune in `args`: the file name `m_filename` ends with, and whether a tune
is loaded. -/
def loadTune (env : Env) (name : List Char) : List Char × Bool :=
  if env.tuneStatus name = true then (name, true)
  else
    match env.hvscBase with
    | none => (name, false)
    | some base => ((tryOpenTune env name base).2, (tryOpenTune env name base).1)

/-- The songlength database block of `args`, entered when the user gave no play length:
`none` when `args` returns -1 there, else the flag `newSonglengthDB`. -/
def openDatabase (env : Env) (p : Player) : Option Bool :=
  let viaBase : Option Bool :=
    match env.hvscBase with
    | none => none
    | some base =>
      if tryOpenDatabase env base ['m', 'd', '5'] = true then some true
      else if tryOpenDatabase env base ['t', 'x', 't'] = true then some p.newSonglengthDB
      else none
  match viaBase with
  | some n => some n
  | none =>
    let database := p.m_iniCfg.sidplayfp_s.database
    if database.length ≠ 0 then
      if env.dbOpen database = true then
        some (if containsStr ['.', 'm', 'd', '5'] database = true then true
              else p.newSonglengthDB)
      else none
    else some p.newSonglengthDB

/-- The step "if filename specified we can only convert one song". -/
def forceSingle (p : Player) : Player :=
  if p.m_outfile.isSome = true then { p with m_track := { p.m_track with single := true } }
  else p

/-- The step "can only loop if not creating audio files". -/
def dropLoop (p : Player) : Player :=
  if p.m_driver.output.code > Output.OUT_SOUNDCARD.code then
    { p with m_track := { p.m_track with loop := false } }
  else p

/-- The step "select the desired track" for the tune loaded from `name`. -/
def selectTrack (env : Env) (name : List Char) (p : Player) : Player :=
  { p with m_track := { p.m_track with
             first := env.selectSong name p.m_track.first
             selected := env.selectSong name p.m_track.first
             songs := if p.m_track.single = true then 1 else p.m_track.songs } }

/-- The default play length taken from the settings when the user gave none. -/
def defaultLength (p : Player) : Player :=
  { p with m_timer := { p.m_timer with
             length := toU32 (if p.m_driver.file = true then p.m_iniCfg.sidplayfp_s.recordLength
                              else p.m_iniCfg.sidplayfp_s.playLength) } }

/-- The end of `args`: the TSID base directory and the configuration of the engine. -/
def finishEngine (b : Build) (env : Env) (p : Player) : Int × Player :=
  if b.HAVE_TSID = true ∧ env.tsidSetBaseDir = false then (-1, p)
  else if env.engineConfig p.m_engCfg = false then (-1, p)
  else (1, p)

/-- The play length block of `args` and what follows it. -/
def finishTimer (b : Build) (env : Env) (p : Player) : Int × Player :=
  if p.m_driver.file = true ∧ p.m_timer.valid = true ∧ p.m_timer.length = 0 then (-1, p)
  else if p.m_timer.valid = false then
    match openDatabase env (defaultLength p) with
    | none => (-1, defaultLength p)
    | some n => finishEngine b env { defaultLength p with newSonglengthDB := n }
  else finishEngine b env p

/-- The part of `args` behind the loading of the tune, whose file name is `name`. -/
def finishLoaded (b : Build) (env : Env) (name : List Char) (p : Player) : Int × Player :=
  if (dropLoop (forceSingle p)).m_driver.file = true ∧
      (dropLoop (forceSingle p)).m_driver.sid.code ≥ SidEmu.EMU_HARDSID.code then
    (-1, dropLoop (forceSingle p))
  else finishTimer b env (selectTrack env name (dropLoop (forceSingle p)))

/-- The part of `args` behind the scan loop: the return value and the player. -/
def finish (b : Build) (env : Env) (s : ScanState) : Int × Player :=
  if (loadTune env (s.argv.getD s.infile [])).2 = false then
    (-1, { s.p with m_filename := (loadTune env (s.argv.getD s.infile [])).1 })
  else
    finishLoaded b env (loadTune env (s.argv.getD s.infile [])).1
      { s.p with m_filename := (loadTune env (s.argv.getD s.infile [])).1 }

/-- The defaults `args` sets in front of the scan loop. -/
def argDefaults (p : Player) : Player :=
  { p with
    m_driver := { p.m_driver with output := Output.OUT_SOUNDCARD, file := false, info := false }
    vMute := List.replicate 9 false }

/-- The method `ConsolePlayer::args (argc, argv)` with `argc` the number of tokens of `argv`:
the return value and the player after the call, or `none` when the scan loop has not ended
within `fuel` passes. -/
def args (b : Build) (env : Env) (fuel : Nat) (argv : List (List Char)) (p : Player) :
    Option (Int × Player) :=
  if argv.length = 0 then some (-1, p)
  else
    match scanLoop b env fuel 0 { p := argDefaults p, argv := argv, infile := 0 } with
    | none => none
    | some (.help s) => some (0, s.p)
    | some (.syntaxError s _) => some (-1, s.p)
    | some (.done s) => some (finish b env s)

/-! ## IniConfig.cpp: the typed readers and the sections -/

/-- Modelled from the spec: the section and key reader `iniHandler` (ini/iniHandler.h is not
among the sources), a hierarchical key and value text: the value of a key of a section, `none`
for a key or a section that does not exist. A key that is looked up and does not exist is
created with an empty value; every key is looked up once, so this does not show in a load. -/
abbrev Ini := String → String → Option (List Char)

/-- The collaborators of the loader outside the sources. `none` stands for `parseError`. -/
structure IniEnv where
  /-- The function `dataParser::parseInt`. -/
  parseInt : List Char → Option Int
  /-- The function `dataParser::parseDouble`; the doubles are kept as rationals. -/
  parseDouble : List Char → Option Rat
  /-- The function `dataParser::parseBool`. -/
  parseBool : List Char → Option Bool
  /-- What `str[2]` yields for a value `str` of one character, a read behind the
  terminating NUL of the string. -/
  oob : Char
  /-- The file `PKGDATADIR "Songlengths.txt"` when the build has unistd.h, is not for Windows
  and the file is readable; `none` otherwise. -/
  defaultDatabase : Option (List Char)

/-- The function `readKey`, on the result `value` of `ini.getValue (key)`: `none` is the null
pointer. -/
def readKey (value : Option (List Char)) : Option (List Char) :=
  match value with
  | none => none
  | some v => if v.isEmpty = true then none else some v

/-- The function `readDouble`: the target after the call. -/
def readDouble (parseDouble : List Char → Option Rat) (value : Option (List Char))
    (result : Rat) : Rat :=
  match readKey value with
  | none => result
  | some v =>
    match parseDouble v with
    | some x => x
    | none => result

/-- The function `readInt`: the target after the call. -/
def readInt (parseInt : List Char → Option Int) (value : Option (List Char)) (result : Int) :
    Int :=
  match readKey value with
  | none => result
  | some v =>
    match parseInt v with
    | some n => n
    | none => result

/-- The function `readBool`: the target after the call. -/
def readBool (parseBool : List Char → Option Bool) (value : Option (List Char))
    (result : Bool) : Bool :=
  match readKey value with
  | none => result
  | some v =>
    match parseBool v with
    | some x => x
    | none => result

/-- The function `readString`, on the result `value` of `ini.getValue (key)`. -/
def readString (value : Option (List Char)) : List Char :=
  match value with
  | none => []
  | some v => v

/-- The character `str[k]` of a `std::string`: the terminating NUL at `k = str.length ()`,
and `oob` behind it. -/
def strAt (oob : Char) (str : List Char) (k : Nat) : Char :=
  match str[k]? with
  | some c => c
  | none => if k = str.length then Char.ofNat 0 else oob

/-- The function `readChar`: the target `ch` after the call. The character `c` is a byte, for
which `(unsigned) c >= 32` says that the byte is at least 32. -/
def readChar (parseInt : List Char → Option Int) (oob : Char) (value : Option (List Char))
    (ch : Char) : Char :=
  let str := readString value
  if str.isEmpty = true then ch
  else if strAt oob str 0 = Char.ofNat 39 then
    if strAt oob str 2 ≠ Char.ofNat 39 then ch
    else if (strAt oob str 1).toNat ≥ 32 then strAt oob str 1 else ch
  else
    let c : Nat :=
      match parseInt str with
      | some n => toU8 n
      | none => 0
    if c ≥ 32 then Char.ofNat c else ch

/-- The block of `readEmulation` for the key `C64 model`, on the string read. -/
def readC64Model (str : List Char) (modelDefault : C64Model) : C64Model :=
  if str.isEmpty = true then modelDefault
  else if str = ['P', 'A', 'L'] then C64Model.PAL
  else if str = ['N', 'T', 'S', 'C'] then C64Model.NTSC
  else if str = ['O', 'L', 'D', '_', 'N', 'T', 'S', 'C'] then C64Model.OLD_NTSC
  else if str = ['D', 'R', 'E', 'A', 'N'] then C64Model.DREAN
  else modelDefault

/-- The block of `readEmulation` for the key `CIA model`, on the string read. -/
def readCiaModel (str : List Char) (ciaModel : CiaModel) : CiaModel :=
  if str.isEmpty = true then ciaModel
  else if str = ['M', 'O', 'S', '6', '5', '2', '6'] then CiaModel.MOS6526
  else if str = ['M', 'O', 'S', '8', '5', '2', '1'] then CiaModel.MOS8521
  else ciaModel

/-- The block of `readEmulation` for the key `SID model`, on the string read. -/
def readSidModel (str : List Char) (sidModel : SidModel) : SidModel :=
  if str.isEmpty = true then sidModel
  else if str = ['M', 'O', 'S', '6', '5', '8', '1'] then SidModel.MOS6581
  else if str = ['M', 'O', 'S', '8', '5', '8', '0'] then SidModel.MOS8580
  else sidModel

/-- The block of `readEmulation` for the key `Sampling`, on the string read. -/
def readSampling (str : List Char) (samplingMethod : SamplingMethod) : SamplingMethod :=
  if str.isEmpty = true then samplingMethod
  else if str = ['I', 'N', 'T', 'E', 'R', 'P', 'O', 'L', 'A', 'T', 'E'] then
    SamplingMethod.INTERPOLATE
  else if str = ['R', 'E', 'S', 'A', 'M', 'P', 'L', 'E'] then
    SamplingMethod.RESAMPLE_INTERPOLATE
  else samplingMethod

/-- The method `IniConfig::readSidplayfp`. The local `time` is not initialised; it is read
only after a call of `readTime` that has set it. -/
def readSidplayfp (E : IniEnv) (ini : Ini) (s : SidplayfpSection) : SidplayfpSection :=
  { version :=
      if readInt E.parseInt (ini "SIDPlayFP" "Version") s.version > 0 then
        readInt E.parseInt (ini "SIDPlayFP" "Version") s.version
      else s.version
    database :=
      if (readString (ini "SIDPlayFP" "Songlength DB path")).isEmpty = true then
        match E.defaultDatabase with
        | some path => path
        | none => readString (ini "SIDPlayFP" "Songlength DB path")
      else readString (ini "SIDPlayFP" "Songlength DB path")
    playLength :=
      if (readTime E.parseInt (readString (ini "SIDPlayFP" "Play length")) 0).1 = true then
        (readTime E.parseInt (readString (ini "SIDPlayFP" "Play length")) 0).2
      else s.playLength
    recordLength :=
      if (readTime E.parseInt (readString (ini "SIDPlayFP" "Record length")) 0).1 = true then
        (readTime E.parseInt (readString (ini "SIDPlayFP" "Record length")) 0).2
      else s.recordLength
    kernalRom := readString (ini "SIDPlayFP" "Kernal ROM")
    basicRom := readString (ini "SIDPlayFP" "BASIC ROM")
    chargenRom := readString (ini "SIDPlayFP" "Chargen ROM")
    verboseLevel := readInt E.parseInt (ini "SIDPlayFP" "Verbosity level") s.verboseLevel }

/-- The method `IniConfig::readConsole`. -/
def readConsole (E : IniEnv) (ini : Ini) (s : ConsoleSection) : ConsoleSection :=
  { ansi := readBool E.parseBool (ini "Console" "ANSI") s.ansi
    topLeft := readChar E.parseInt E.oob (ini "Console" "Top left char") s.topLeft
    topRight := readChar E.parseInt E.oob (ini "Console" "Top right char") s.topRight
    bottomLeft := readChar E.parseInt E.oob (ini "Console" "Bottom left char") s.bottomLeft
    bottomRight := readChar E.parseInt E.oob (ini "Console" "Bottom right char") s.bottomRight
    vertical := readChar E.parseInt E.oob (ini "Console" "Vertical char") s.vertical
    horizontal := readChar E.parseInt E.oob (ini "Console" "Horizontal char") s.horizontal
    junctionLeft :=
      readChar E.parseInt E.oob (ini "Console" "Junction left char") s.junctionLeft
    junctionRight :=
      readChar E.parseInt E.oob (ini "Console" "Junction right char") s.junctionRight }

/-- The method `IniConfig::readAudio`. -/
def readAudio (E : IniEnv) (ini : Ini) (s : AudioSection) : AudioSection :=
  { frequency := readInt E.parseInt (ini "Audio" "Sample rate") s.frequency
    channels := readInt E.parseInt (ini "Audio" "Channels") s.channels
    precision := readInt E.parseInt (ini "Audio" "Bit depth") s.precision }

/-- The method `IniConfig::readEmulation`. -/
def readEmulation (b : Build) (E : IniEnv) (ini : Ini) (s : EmulationSection) :
    EmulationSection :=
  { engine := readString (ini "Emulation" "Engine")
    modelDefault := readC64Model (readString (ini "Emulation" "C64 model")) s.modelDefault
    modelForced := readBool E.parseBool (ini "Emulation" "Force C64 model") s.modelForced
    digiboost := readBool E.parseBool (ini "Emulation" "DigiBoost") s.digiboost
    ciaModel :=
      if b.FEAT_CONFIG_CIAMODEL = true then
        readCiaModel (readString (ini "Emulation" "CIA model")) s.ciaModel
      else s.ciaModel
    sidModel := readSidModel (readString (ini "Emulation" "SID model")) s.sidModel
    forceModel := readBool E.parseBool (ini "Emulation" "Force SID model") s.forceModel
    filter := readBool E.parseBool (ini "Emulation" "Filter") s.filter
    bias := readDouble E.parseDouble (ini "Emulation" "Filter bias") s.bias
    filterCurve6581 :=
      readDouble E.parseDouble (ini "Emulation" "6581 filter curve") s.filterCurve6581
    filterCurve8580 :=
      readDouble E.parseDouble (ini "Emulation" "8580 filter curve") s.filterCurve8580
    powerOnDelay := readInt E.parseInt (ini "Emulation" "Power-on delay") s.powerOnDelay
    samplingMethod := readSampling (readString (ini "Emulation" "Sampling")) s.samplingMethod
    fastSampling := readBool E.parseBool (ini "Emulation" "Fast resampling") s.fastSampling }

/-- The four section readers of `IniConfig::read`, in its order. -/
def readSections (b : Build) (E : IniEnv) (ini : Ini) (c : IniConfig) : IniConfig :=
  { sidplayfp_s := readSidplayfp E ini c.sidplayfp_s
    console_s := readConsole E ini c.console_s
    audio_s := readAudio E ini c.audio_s
    emulation_s := readEmulation b E ini c.emulation_s }

/-- The method `IniConfig::read`: the settings after the load. `ini` is `none` when the
configuration file cannot be located, created or opened; the load then ends behind
`clear ()`. -/
def IniConfig.read (b : Build) (defaultSamplingFreq : Int) (E : IniEnv) (ini : Option Ini)
    (c : IniConfig) : IniConfig :=
  match ini with
  | none => IniConfig.clear b defaultSamplingFreq c
  | some i => readSections b E i (IniConfig.clear b defaultSamplingFreq c)

/-! ## menu.cpp: the display helpers -/

/-- The table `noteName`: the entry `---` and the names of the 96 notes. -/
def noteName : List String :=
  ["---",
    "C-0", "C#0", "D-0", "D#0", "E-0", "F-0", "F#0", "G-0", "G#0", "A-0", "A#0", "B-0",
    "C-1", "C#1", "D-1", "D#1", "E-1", "F-1", "F#1", "G-1", "G#1", "A-1", "A#1", "B-1",
    "C-2", "C#2", "D-2", "D#2", "E-2", "F-2", "F#2", "G-2", "G#2", "A-2", "A#2", "B-2",
    "C-3", "C#3", "D-3", "D#3", "E-3", "F-3", "F#3", "G-3", "G#3", "A-3", "A#3", "B-3",
    "C-4", "C#4", "D-4", "D#4", "E-4", "F-4", "F#4", "G-4", "G#4", "A-4", "A#4", "B-4",
    "C-5", "C#5", "D-5", "D#5", "E-5", "F-5", "F#5", "G-5", "G#5", "A-5", "A#5", "B-5",
    "C-6", "C#6", "D-6", "D#6", "E-6", "F-6", "F#6", "G-6", "G#6", "A-6", "A#6", "B-6",
    "C-7", "C#7", "D-7", "D#7", "E-7", "F-7", "F#7", "G-7", "G#7", "A-7", "A#7", "B-7"]

/-- The function `trimString (const char* str, uint8_t maxLen)`. The count `maxLen - 3` is
computed as an `int` and converted to `size_t`: for `maxLen` below 3 it is above the largest
size of a string and `data.resize` raises `std::length_error`, for which `none` stands. -/
def trimString (str : List Char) (maxLen : Nat) : Option (List Char) :=
  if str.length > maxLen then
    if maxLen < 3 then none
    else some (str.take (maxLen - 3) ++ ['.', '.', '.'])
  else some str

/-- The loop of `ConsolePlayer::getNote` with `n` passes left in front of index `i`: the
index into `noteName` of the name that is returned. The table `m_freqTable` is declared in
player.h; an entry is read with `getD`. -/
def getNoteLoop (m_freqTable : List Nat) (freq : Nat) : Nat → Nat → Nat → Nat
  | 0, _, _ => 96
  | n + 1, i, distance =>
    if ((freq : Int) - (m_freqTable.getD i 0 : Int)).natAbs < distance then
      getNoteLoop m_freqTable freq n (i + 1) ((freq : Int) - (m_freqTable.getD i 0 : Int)).natAbs
    else i

/-- The method `ConsolePlayer::getNote (uint16_t freq)`: the name returned, `none` for a read
outside the table `noteName`. -/
def getNote (m_freqTable : List Nat) (freq : Nat) : Option String :=
  if freq ≠ 0 then noteName[getNoteLoop m_freqTable freq 96 0 65535]?
  else noteName[0]?

/-! ## Vocabulary of the statements about args -/

/-- The token has a character other than the terminating NUL at position `k`. -/
def hasCharAt (tok : List Char) (k : Nat) : Prop :=
  match tok[k]? with
  | some c => c ≠ Char.ofNat 0
  | none => False

instance (tok : List Char) (k : Nat) : Decidable (hasCharAt tok k) := by
  unfold hasCharAt; split <;> infer_instance

/-- A file output flag: a token `-w...`, `--wav...` or `--au...`. -/
def IsFileFlag (tok : List Char) : Prop :=
  tok.take 2 = ['-', 'w'] ∨ tok.take 5 = ['-', '-', 'w', 'a', 'v'] ∨
    tok.take 4 = ['-', '-', 'a', 'u']

instance (tok : List Char) : Decidable (IsFileFlag tok) := by
  unfold IsFileFlag; infer_instance

/-- A file output flag with an attached non-empty name: `-w<name>`, `--wav<name>` or
`--au<name>`. -/
def IsNamedFileFlag (tok : List Char) : Prop :=
  (tok.take 2 = ['-', 'w'] ∧ hasCharAt tok 2) ∨
    (tok.take 5 = ['-', '-', 'w', 'a', 'v'] ∧ hasCharAt tok 5) ∨
    (tok.take 4 = ['-', '-', 'a', 'u'] ∧ hasCharAt tok 4)

instance (tok : List Char) : Decidable (IsNamedFileFlag tok) := by
  unfold IsNamedFileFlag; infer_instance

/-- A flag that selects the null output: `--none`, `--noaudio` and, where the build has them,
the hardware flags `--hardsid` and `--exsid`. -/
def IsNullOutputFlag (b : Build) (tok : List Char) : Prop :=
  tok = ['-', '-', 'n', 'o', 'n', 'e'] ∨ tok = ['-', '-', 'n', 'o', 'a', 'u', 'd', 'i', 'o'] ∨
    (b.HAVE_HARDSID = true ∧ tok = ['-', '-', 'h', 'a', 'r', 'd', 's', 'i', 'd']) ∨
    (b.HAVE_EXSID = true ∧ tok = ['-', '-', 'e', 'x', 's', 'i', 'd'])

instance (b : Build) (tok : List Char) : Decidable (IsNullOutputFlag b tok) := by
  unfold IsNullOutputFlag; infer_instance

/-- The text of a play length flag `-t<time>`; a build with a third SID reads `-ts...` as an
address instead. -/
def lengthArg (b : Build) (tok : List Char) : Option (List Char) :=
  if tok.take 2 = ['-', 't'] ∧ ¬ (b.FEAT_THIRD_SID = true ∧ tok.take 3 = ['-', 't', 's']) then
    some (tok.drop 2)
  else none

/-- The play length the tokens give: the time the last `-t<time>` token parses to, `none`
without such a token or when the last one does not parse. -/
def playLengthGiven (b : Build) (argv : List (List Char)) : Option Nat :=
  argv.foldl (fun acc tok =>
    match lengthArg b tok with
    | some z => if (parseTime z 0).ok = true then some (parseTime z 0).time else none
    | none => acc) none

/-- The scan of the tokens ends without a syntax error and without a help option, and the
tune then loads. -/
def scansAndLoads (b : Build) (env : Env) (fuel : Nat) (argv : List (List Char)) (p : Player) :
    Bool :=
  match scanLoop b env fuel 0 { p := argDefaults p, argv := argv, infile := 0 } with
  | some (.done r) => (loadTune env (r.argv.getD r.infile [])).2
  | _ => false

/-- A build with the two software emulations and no optional feature. -/
def buildStd : Build :=
  { FEAT_THIRD_SID := false
    FEAT_DIGIBOOST := false
    FEAT_CONFIG_CIAMODEL := false
    HAVE_RESIDFP := true
    HAVE_RESID := true
    HAVE_HARDSID := false
    HAVE_EXSID := false
    HAVE_TSID := false }

/-- An environment without `HVSC_BASE` in which every tune loads, the start song is kept and
the engine accepts every configuration; the memory behind the tokens holds NUL. -/
def envAccept : Env :=
  { oob := fun _ _ => Char.ofNat 0
    hvscBase := none
    tuneStatus := fun _ => true
    selectSong := fun _ n => n
    dbOpen := fun _ => true
    tsidSetBaseDir := true
    engineConfig := fun _ => true }

/-- Settings with every field at zero, false or empty. -/
def iniZero : IniConfig :=
  { sidplayfp_s :=
      { version := 0, playLength := 0, recordLength := 0, verboseLevel := 0, database := [],
        kernalRom := [], basicRom := [], chargenRom := [] }
    console_s :=
      { ansi := false, topLeft := ' ', topRight := ' ', bottomLeft := ' ', bottomRight := ' ',
        vertical := ' ', horizontal := ' ', junctionLeft := ' ', junctionRight := ' ' }
    audio_s := { frequency := 0, channels := 0, precision := 0 }
    emulation_s :=
      { modelDefault := C64Model.PAL, modelForced := false, sidModel := SidModel.MOS6581,
        forceModel := false, digiboost := false, ciaModel := CiaModel.MOS6526, filter := false,
        engine := [], bias := 0, filterCurve6581 := 0, filterCurve8580 := 0, powerOnDelay := 0,
        samplingMethod := SamplingMethod.INTERPOLATE, fastSampling := false } }

/-- A player in front of its first call of `args`: the settings are the cleared ones, no
output file is named and the timer is not marked valid. -/
def playerInit : Player :=
  { m_driver := { output := Output.OUT_SOUNDCARD, sid := SidEmu.EMU_DEFAULT, file := false,
                  info := false }
    vMute := List.replicate 9 false
    m_timer := { start := 0, length := 0, valid := false }
    m_engCfg :=
      { secondSidAddress := 0, thirdSidAddress := 0, frequency := 48000,
        samplingMethod := SamplingMethod.RESAMPLE_INTERPOLATE, fastSampling := false,
        defaultSidModel := SidModel.MOS6581, forceSidModel := false, digiBoost := false,
        defaultC64Model := C64Model.PAL, forceC64Model := false, powerOnDelay := 0 }
    m_filterEnabled := true
    m_track := { first := 0, selected := 0, songs := 0, loop := false, single := false }
    m_precision := 16
    m_quietLevel := 0
    m_verboseLevel := 0
    m_channels := 0
    m_cpudebug := false
    m_outfile := none
    m_filename := []
    newSonglengthDB := false
    m_iniCfg := IniConfig.clear buildStd 48000 iniZero }

/-! ## Vocabulary of the statements about the configuration file -/

/-- The configuration text `ini` with the value of one key of one section replaced. -/
def Ini.set (ini : Ini) (sec key : String) (v : Option (List Char)) : Ini :=
  fun s k => if s = sec ∧ k = key then v else ini s k

/-- The keys of the configuration file that have a typed reader or an enumerated
vocabulary, named by their target field. -/
inductive Setting
  | version | playLength | recordLength | verboseLevel
  | ansi | topLeft | topRight | bottomLeft | bottomRight | vertical | horizontal
  | junctionLeft | junctionRight
  | frequency | channels | precision
  | modelDefault | modelForced | digiboost | ciaModel | sidModel | forceModel | filter
  | bias | filterCurve6581 | filterCurve8580 | powerOnDelay | samplingMethod | fastSampling
  deriving DecidableEq, Repr

/-- The value of a settings field. -/
inductive FieldVal
  | int (n : Int)
  | real (x : Rat)
  | flag (v : Bool)
  | glyph (c : Char)
  | clock (m : C64Model)
  | cia (m : CiaModel)
  | chip (m : SidModel)
  | sampling (m : SamplingMethod)
  deriving DecidableEq

/-- The readers of `IniConfig.cpp`. -/
inductive Reader
  | int | double | bool | char | time | enumerated
  deriving DecidableEq, Repr

/-- The section a key is read from. -/
def Setting.sect : Setting → String
  | .version | .playLength | .recordLength | .verboseLevel => "SIDPlayFP"
  | .ansi | .topLeft | .topRight | .bottomLeft | .bottomRight | .vertical | .horizontal
  | .junctionLeft | .junctionRight => "Console"
  | .frequency | .channels | .precision => "Audio"
  | _ => "Emulation"

/-- The name of a key in the configuration file. -/
def Setting.key : Setting → String
  | .version => "Version"
  | .playLength => "Play length"
  | .recordLength => "Record length"
  | .verboseLevel => "Verbosity level"
  | .ansi => "ANSI"
  | .topLeft => "Top left char"
  | .topRight => "Top right char"
  | .bottomLeft => "Bottom left char"
  | .bottomRight => "Bottom right char"
  | .vertical => "Vertical char"
  | .horizontal => "Horizontal char"
  | .junctionLeft => "Junction left char"
  | .junctionRight => "Junction right char"
  | .frequency => "Sample rate"
  | .channels => "Channels"
  | .precision => "Bit depth"
  | .modelDefault => "C64 model"
  | .modelForced => "Force C64 model"
  | .digiboost => "DigiBoost"
  | .ciaModel => "CIA model"
  | .sidModel => "SID model"
  | .forceModel => "Force SID model"
  | .filter => "Filter"
  | .bias => "Filter bias"
  | .filterCurve6581 => "6581 filter curve"
  | .filterCurve8580 => "8580 filter curve"
  | .powerOnDelay => "Power-on delay"
  | .samplingMethod => "Sampling"
  | .fastSampling => "Fast resampling"

/-- The reader that a key is read with. -/
def Setting.reader : Setting → Reader
  | .version | .verboseLevel | .frequency | .channels | .precision | .powerOnDelay => .int
  | .playLength | .recordLength => .time
  | .ansi | .modelForced | .digiboost | .forceModel | .filter | .fastSampling => .bool
  | .topLeft | .topRight | .bottomLeft | .bottomRight | .vertical | .horizontal
  | .junctionLeft | .junctionRight => .char
  | .bias | .filterCurve6581 | .filterCurve8580 => .double
  | .modelDefault | .ciaModel | .sidModel | .samplingMethod => .enumerated

/-- The target field of a key in the settings. -/
def Setting.get : Setting → IniConfig → FieldVal
  | .version, c => .int c.sidplayfp_s.version
  | .playLength, c => .int c.sidplayfp_s.playLength
  | .recordLength, c => .int c.sidplayfp_s.recordLength
  | .verboseLevel, c => .int c.sidplayfp_s.verboseLevel
  | .ansi, c => .flag c.console_s.ansi
  | .topLeft, c => .glyph c.console_s.topLeft
  | .topRight, c => .glyph c.console_s.topRight
  | .bottomLeft, c => .glyph c.console_s.bottomLeft
  | .bottomRight, c => .glyph c.console_s.bottomRight
  | .vertical, c => .glyph c.console_s.vertical
  | .horizontal, c => .glyph c.console_s.horizontal
  | .junctionLeft, c => .glyph c.console_s.junctionLeft
  | .junctionRight, c => .glyph c.console_s.junctionRight
  | .frequency, c => .int c.audio_s.frequency
  | .channels, c => .int c.audio_s.channels
  | .precision, c => .int c.audio_s.precision
  | .modelDefault, c => .clock c.emulation_s.modelDefault
  | .modelForced, c => .flag c.emulation_s.modelForced
  | .digiboost, c => .flag c.emulation_s.digiboost
  | .ciaModel, c => .cia c.emulation_s.ciaModel
  | .sidModel, c => .chip c.emulation_s.sidModel
  | .forceModel, c => .flag c.emulation_s.forceModel
  | .filter, c => .flag c.emulation_s.filter
  | .bias, c => .real c.emulation_s.bias
  | .filterCurve6581, c => .real c.emulation_s.filterCurve6581
  | .filterCurve8580, c => .real c.emulation_s.filterCurve8580
  | .powerOnDelay, c => .int c.emulation_s.powerOnDelay
  | .samplingMethod, c => .sampling c.emulation_s.samplingMethod
  | .fastSampling, c => .flag c.emulation_s.fastSampling

/-- The value `v` fails to parse with the reader of the key: the parser of an
integer, a double or a boolean raises `parseError`, a character code that does not begin with
a quote does not parse as a number, or `readTime` returns false. -/
def Setting.rejects (E : IniEnv) (k : Setting) (v : List Char) : Prop :=
  match k.reader with
  | .int => E.parseInt v = none
  | .double => E.parseDouble v = none
  | .bool => E.parseBool v = none
  | .char => v.head? ≠ some (Char.ofNat 39) ∧ E.parseInt v = none
  | .time => (readTime E.parseInt v 0).1 = false
  | .enumerated => False

instance (E : IniEnv) (k : Setting) (v : List Char) : Decidable (k.rejects E v) := by
  unfold Setting.rejects; split <;> infer_instance

/-- An environment of the loader for the examples: integers as `parseInt` reads them, the
doubles restricted to integers, the booleans `true` and `false`, and no default database. -/
def iniEnvStd : IniEnv :=
  { parseInt := parseInt
    parseDouble := fun s => (parseInt s).map (fun n => (n : Rat))
    parseBool := fun s =>
      if s = "true".toList then some true else if s = "false".toList then some false else none
    oob := Char.ofNat 0
    defaultDatabase := none }

/-- A configuration text in which every key is present with an empty value. -/
def iniEmpty : Ini := fun _ _ => some []

/-! ## Vocabulary of the statements about the errors of args -/

/-- The scan loop run for `n` passes from index `i`, none of which ends it: the index and the
state in front of the next pass; `none` when the scan ends within the `n` passes. -/
def scanSteps (b : Build) (env : Env) : Nat → Nat → ScanState → Option (Nat × ScanState)
  | 0, i, s => some (i, s)
  | n + 1, i, s =>
    if i < s.argv.length then
      match s.argv[i]? with
      | none => none
      | some tok =>
        match scanToken b env i tok s with
        | .inl _ => none
        | .inr s1 => scanSteps b env n ((i + 1) % 256) s1
    else none

/-- The state in which the scan of `args` reaches the token at index `i`, after one pass for
each of the tokens in front of it; `none` when the scan ends before or `i` is above 255. -/
def stateAt (b : Build) (env : Env) (argv : List (List Char)) (p : Player) (i : Nat) :
    Option ScanState :=
  match scanSteps b env i 0 { p := argDefaults p, argv := argv, infile := 0 } with
  | some (j, s) => if j = i then some s else none
  | none => none

/-- The beginnings, behind the `-`, by which the option chain knows an option. -/
def optionPrefixes : List (List Char) :=
  ["h", "b", "f", "o", "p", "q", "t", "r", "s", "m", "v", "w", "ds", "nf", "-delay=", "-wav",
    "-au", "-info"].map String.toList

/-- The texts, behind the first `-`, of the options that the option chain compares in
full. -/
def optionNames (b : Build) : List (List Char) :=
  ["-help", "-help-dbg", "-none", "-nosid", "-noaudio", "-cpu-debug"].map String.toList ++
    (if b.FEAT_DIGIBOOST = true then ["-digiboost".toList] else []) ++
    (if b.HAVE_RESIDFP = true then ["-residfp".toList] else []) ++
    (if b.HAVE_RESID = true then ["-resid".toList] else []) ++
    (if b.HAVE_HARDSID = true then ["-hardsid".toList] else []) ++
    (if b.HAVE_EXSID = true then ["-exsid".toList] else [])

/-- A token `-x...` that no condition of the option chain matches: behind the `-` it begins
with none of the option beginnings and is none of the option names. -/
def IsUnknownOption (b : Build) (tok : List Char) : Prop :=
  isOption tok = true ∧ (∀ pre ∈ optionPrefixes, ¬ pre <+: tok.drop 1) ∧
    tok.drop 1 ∉ optionNames b

instance (b : Build) (tok : List Char) : Decidable (IsUnknownOption b tok) := by
  unfold IsUnknownOption; infer_instance

/-- A token `-r...` whose third character is neither `i` nor `r`. -/
def IsResampleWithoutMethod (tok : List Char) : Prop :=
  tok.take 2 = ['-', 'r'] ∧ tok[2]? ≠ some 'i' ∧ tok[2]? ≠ some 'r'

instance (tok : List Char) : Decidable (IsResampleWithoutMethod tok) := by
  unfold IsResampleWithoutMethod; infer_instance

/-- A flag with a value that the scan refuses: `-f`, `-p`, `-ds` (and `-ts` in a build with a
third SID) with nothing attached, and `-b<time>` or `-t<time>` with a time that is empty, has
minutes outside 0..99 or seconds outside 0..59 in front of resp. behind a colon, or has a
fraction of no or more than three digits. -/
def IsRefusedValue (b : Build) (tok : List Char) : Prop :=
  tok = ['-', 'f'] ∨ tok = ['-', 'p'] ∨ tok = ['-', 'd', 's'] ∨
    (b.FEAT_THIRD_SID = true ∧ tok = ['-', 't', 's']) ∨
    (tok.take 2 = ['-', 'b'] ∧ RejectedTime (tok.drop 2)) ∨
    (∃ z, lengthArg b tok = some z ∧ RejectedTime z)

/-- The fields of the player that the scan of the tokens never writes: the file name, the
settings, the flag of the song length database, the selected track and the count of songs. -/
def sameBehindScan (q p : Player) : Prop :=
  q.m_filename = p.m_filename ∧ q.m_iniCfg = p.m_iniCfg ∧
    q.newSonglengthDB = p.newSonglengthDB ∧ q.m_track.selected = p.m_track.selected ∧
    q.m_track.songs = p.m_track.songs

instance (q p : Player) : Decidable (sameBehindScan q p) := by
  unfold sameBehindScan; infer_instance

/-- The environment `envAccept` with the character `c` in the memory behind every token. -/
def envBehind (c : Char) : Env := { envAccept with oob := fun _ _ => c }

/-- The distance of the frequency `f` from entry `k` of the table. -/
def noteDistance (tbl : List Nat) (f k : Nat) : Nat :=
  ((f : Int) - (tbl.getD k 0 : Int)).natAbs

/-- A table of 96 frequencies from 268 on in steps of 100, for the examples. -/
def freqTableStd : List Nat := (List.range 96).map (fun i => 268 + 100 * i)

/-! ## Lemmas on the C library functions -/

theorem toNat_of_isDigit {c : Char} (h : c.isDigit = true) : 48 ≤ c.toNat ∧ c.toNat ≤ 57 := by
  simp only [Char.isDigit, Bool.and_eq_true, decide_eq_true_eq] at h
  exact ⟨UInt32.le_def.mp h.1, UInt32.le_def.mp h.2⟩

theorem digitValue_of_isDigit {c : Char} (h : c.isDigit = true) : digitValue c = c.toNat - 48 := by
  have := toNat_of_isDigit h
  simp [digitValue, this]

theorem digitValue_lt_of_isDigit {c : Char} (h : c.isDigit = true) : digitValue c < 10 := by
  have := toNat_of_isDigit h
  rw [digitValue_of_isDigit h]; omega

theorem isDigitIn_of_isDigit {c : Char} (h : c.isDigit = true) : isDigitIn 10 c = true := by
  simp [isDigitIn, digitValue_lt_of_isDigit h]

theorem isDigit_of_isDigitIn {c : Char} (h : isDigitIn 10 c = true) : c.isDigit = true := by
  simp only [isDigitIn, decide_eq_true_eq, digitValue] at h
  simp only [Char.isDigit, Bool.and_eq_true, decide_eq_true_eq]
  have e : c.toNat = c.val.toNat := rfl
  split_ifs at h with h1 h2 h3
  · exact ⟨UInt32.le_def.mpr (by simpa [e] using h1.1), UInt32.le_def.mpr (by simpa [e] using h1.2)⟩
  · omega
  · omega
  · omega

theorem isDigitIn_ten (c : Char) : isDigitIn 10 c = c.isDigit := by
  cases h : c.isDigit
  · cases h2 : isDigitIn 10 c
    · rfl
    · rw [isDigit_of_isDigitIn h2] at h; exact absurd h (by decide)
  · exact isDigitIn_of_isDigit h

theorem toNat_of_isspace {c : Char} (h : isspace c = true) : c.toNat < 33 := by
  simp only [isspace, Bool.or_eq_true, decide_eq_true_eq] at h
  rcases h with ((((h | h) | h) | h) | h) | h <;> subst h <;> decide

theorem not_isspace_of_isDigit {c : Char} (h : c.isDigit = true) : isspace c = false := by
  have h1 := toNat_of_isDigit h
  cases h2 : isspace c
  · rfl
  · have := toNat_of_isspace h2; omega

theorem takeWhile_append_of_all {p : Char → Bool} (ds rest : List Char)
    (hds : ∀ c ∈ ds, p c = true) (hrest : ∀ c ∈ rest.head?, p c = false) :
    (ds ++ rest).takeWhile p = ds := by
  induction ds with
  | nil =>
    cases rest with
    | nil => rfl
    | cons r rs =>
      have := hrest r (by simp)
      simp [List.takeWhile, this]
  | cons d ds ih =>
    have hd := hds d (by simp)
    simp only [List.cons_append, List.takeWhile_cons, hd, if_true]
    rw [ih (fun c hc => hds c (by simp [hc]))]

theorem dropWhile_append_of_all {p : Char → Bool} (ds rest : List Char)
    (hds : ∀ c ∈ ds, p c = true) (hrest : ∀ c ∈ rest.head?, p c = false) :
    (ds ++ rest).dropWhile p = rest := by
  induction ds with
  | nil =>
    cases rest with
    | nil => rfl
    | cons r rs =>
      have := hrest r (by simp)
      simp [List.dropWhile, this]
  | cons d ds ih =>
    have hd := hds d (by simp)
    simp only [List.cons_append, List.dropWhile_cons, hd, if_true]
    rw [ih (fun c hc => hds c (by simp [hc]))]

theorem splitFirst_append (c : Char) (pre post : List Char) (h : c ∉ pre) :
    splitFirst c (pre ++ c :: post) = some (pre, post) := by
  have hp : ∀ x ∈ pre, (fun x => x != c) x = true := by
    intro x hx
    simp only [bne_iff_ne, ne_eq]
    rintro rfl; exact h hx
  have hr : ∀ x ∈ (c :: post).head?, (fun x => x != c) x = false := by
    intro x hx
    simp only [List.head?_cons, Option.mem_def, Option.some.injEq] at hx
    simp [hx]
  simp only [splitFirst, dropWhile_append_of_all pre (c :: post) hp hr,
    takeWhile_append_of_all pre (c :: post) hp hr]

theorem splitFirst_none (c : Char) (s : List Char) (h : c ∉ s) : splitFirst c s = none := by
  have hp : ∀ x ∈ s, (fun x => x != c) x = true := by
    intro x hx
    simp only [bne_iff_ne, ne_eq]
    rintro rfl; exact h hx
  have := dropWhile_append_of_all s [] hp (by simp)
  simp only [List.append_nil] at this
  simp only [splitFirst, this]

theorem findFirstOf_append (c : Char) (pre post : List Char) (h : c ∉ pre) :
    findFirstOf c (pre ++ c :: post) = some pre.length := by
  induction pre with
  | nil => simp [findFirstOf]
  | cons p ps ih =>
    have hne : p ≠ c := by rintro rfl; exact h (by simp)
    have := ih (fun hc => h (by simp [hc]))
    simp [findFirstOf, hne, this]

theorem findFirstOf_none (c : Char) (s : List Char) (h : c ∉ s) : findFirstOf c s = none := by
  induction s with
  | nil => rfl
  | cons p ps ih =>
    have hne : p ≠ c := by rintro rfl; exact h (by simp)
    have := ih (fun hc => h (by simp [hc]))
    simp [findFirstOf, hne, this]

theorem readSign_digits (ds rest : List Char) (hne : ds ≠ []) (hds : ∀ c ∈ ds, c.isDigit = true) :
    readSign (ds ++ rest) = (false, 0, ds ++ rest) := by
  cases ds with
  | nil => exact absurd rfl hne
  | cons d ds =>
    have hd := toNat_of_isDigit (hds d (by simp))
    have h1 : d ≠ '-' := by rintro rfl; revert hd; decide
    have h2 : d ≠ '+' := by rintro rfl; revert hd; decide
    simp only [List.cons_append]
    unfold readSign
    split
    · rename_i heq; simp only [List.cons.injEq] at heq; exact absurd heq.1 h1
    · rename_i heq; simp only [List.cons.injEq] at heq; exact absurd heq.1 h2
    · rfl

theorem dropWhile_isspace_digits (ds rest : List Char) (hne : ds ≠ [])
    (hds : ∀ c ∈ ds, c.isDigit = true) : (ds ++ rest).dropWhile isspace = ds ++ rest := by
  cases ds with
  | nil => exact absurd rfl hne
  | cons d ds =>
    have := not_isspace_of_isDigit (hds d (by simp))
    simp [List.dropWhile, this]

theorem takeWhile_isspace_digits (ds rest : List Char) (hne : ds ≠ [])
    (hds : ∀ c ∈ ds, c.isDigit = true) : (ds ++ rest).takeWhile isspace = [] := by
  cases ds with
  | nil => exact absurd rfl hne
  | cons d ds =>
    have := not_isspace_of_isDigit (hds d (by simp))
    simp [List.takeWhile, this]

theorem takeWhile_isDigitIn_digits (ds rest : List Char)
    (hds : ∀ c ∈ ds, c.isDigit = true) (hrest : noDigitHead rest) :
    (ds ++ rest).takeWhile (isDigitIn 10) = ds := by
  apply takeWhile_append_of_all
  · intro c hc; exact isDigitIn_of_isDigit (hds c hc)
  · intro c hc; rw [isDigitIn_ten]; exact hrest c hc

/-- The function `strtol` in base 10 on a run of digits followed by something else. -/
theorem strtol_digits (ds rest : List Char) (hne : ds ≠ [])
    (hds : ∀ c ∈ ds, c.isDigit = true) (hrest : noDigitHead rest) :
    strtol (ds ++ rest) 10 = (clampLong (decVal ds), ds.length) := by
  have hemp : ds.isEmpty = false := by cases ds <;> simp_all
  simp [strtol, dropWhile_isspace_digits ds rest hne hds, takeWhile_isspace_digits ds rest hne hds,
    readSign_digits ds rest hne hds, readBase, takeWhile_isDigitIn_digits ds rest hds hrest,
    hemp, decVal]

theorem toU32_natCast (n : Nat) (h : n < 4294967296) : toU32 (n : Int) = n := by
  unfold toU32
  rw [Int.emod_eq_of_lt (by omega) (by omega)]
  simp

theorem toI32_of_range (x : Int) (h1 : -2147483648 ≤ x) (h2 : x < 2147483648) : toI32 x = x := by
  unfold toI32
  rw [Int.emod_eq_of_lt (by omega) (by omega)]
  omega

theorem clampLong_of_range (x : Int) (h1 : -9223372036854775808 ≤ x)
    (h2 : x ≤ 9223372036854775807) : clampLong x = x := by
  unfold clampLong
  split_ifs <;> omega

theorem digitsVal_snoc (b : Nat) (ds : List Char) (c : Char) :
    digitsVal b (ds ++ [c]) = digitsVal b ds * b + digitValue c := by
  simp [digitsVal, List.foldl_append]

theorem decVal_lt_pow (ds : List Char) (hds : ∀ c ∈ ds, c.isDigit = true) :
    decVal ds < 10 ^ ds.length := by
  induction ds using List.reverseRecOn with
  | nil => simp [decVal, digitsVal]
  | append_singleton ds c ih =>
    have h1 := ih (fun x hx => hds x (by simp [hx]))
    have h2 := digitValue_lt_of_isDigit (hds c (by simp))
    simp only [decVal] at h1 ⊢
    rw [digitsVal_snoc, List.length_append, List.length_singleton, pow_succ]
    omega

theorem atoi_digits (ds rest : List Char) (hne : ds ≠ []) (hds : ∀ c ∈ ds, c.isDigit = true)
    (hrest : noDigitHead rest) (hv : decVal ds < 2147483648) :
    atoi (ds ++ rest) = (decVal ds : Int) := by
  unfold atoi
  rw [strtol_digits ds rest hne hds hrest]
  simp only
  rw [clampLong_of_range _ (by omega) (by omega), toI32_of_range _ (by omega) (by omega)]

theorem parseInt_digits (ds rest : List Char) (hne : ds ≠ []) (hds : ∀ c ∈ ds, c.isDigit = true)
    (hrest : noDigitHead rest) :
    parseInt (ds ++ rest) = if decVal ds ≤ 2147483647 then some (decVal ds : Int) else none := by
  have hemp : ds.isEmpty = false := by cases ds <;> simp_all
  simp only [parseInt, dropWhile_isspace_digits ds rest hne hds, readSign_digits ds rest hne hds,
    takeWhile_isDigitIn_digits ds rest hds hrest, hemp]
  simp only [Bool.false_eq_true, if_false]
  by_cases h : decVal ds ≤ 2147483647
  · rw [if_neg (by omega), if_pos h]
  · rw [if_pos (by omega), if_neg h]

theorem noDigitHead_nil : noDigitHead [] := by
  intro c hc; simp at hc

theorem noDigitHead_cons (c : Char) (rest : List Char) (h : c.isDigit = false) :
    noDigitHead (c :: rest) := by
  intro x hx
  simp only [List.head?_cons, Option.mem_def, Option.some.injEq] at hx
  rw [← hx]; exact h

theorem not_mem_of_digits (c : Char) (hc : c.isDigit = false) (ds : List Char)
    (hds : ∀ x ∈ ds, x.isDigit = true) : c ∉ ds := by
  intro h
  rw [hds c h] at hc
  exact absurd hc (by decide)

/-! ## Evaluation of parseTime on the digit grammar -/

theorem parseTime_colon (m after : List Char) (t : Nat) (h : ':' ∉ m) :
    parseTime (m ++ ':' :: after) t =
      if atoi m < 0 ∨ atoi m > 99 then ⟨false, t, m⟩
      else
        match parseMillis after with
        | none => ⟨false, t, m⟩
        | some (milliseconds, secTxt) =>
          if atoi secTxt < 0 ∨ atoi secTxt > 59 then ⟨false, t, m⟩
          else ⟨true, toU32 ((toU32 ((toU32 ((toU32 (atoi m) : Int) * 60) : Int) +
            (toU32 (atoi secTxt) : Int)) : Int) * 1000 + (milliseconds : Int)), m⟩ := by
  have hne : (m ++ ':' :: after).isEmpty = false := by cases m <;> simp
  simp only [parseTime, hne, splitFirst_append ':' m after h]
  rfl

theorem parseMillis_no_dot (ss : List Char) (h : '.' ∉ ss) : parseMillis ss = some (0, ss) := by
  simp [parseMillis, splitFirst_none '.' ss h]

theorem strtol_nil : strtol [] 10 = (0, 0) := by decide

theorem strtol_frac (frac : List Char) (hne : frac ≠ []) (hf : ∀ c ∈ frac, c.isDigit = true)
    (hl : frac.length ≤ 3) :
    strtol frac 10 = ((decVal frac : Int), frac.length) ∧ decVal frac < 10 ^ frac.length := by
  have hb := decVal_lt_pow frac hf
  have hp : 10 ^ frac.length ≤ 10 ^ 3 := Nat.pow_le_pow_right (by decide) hl
  have := strtol_digits frac [] hne hf noDigitHead_nil
  simp only [List.append_nil] at this
  rw [this, clampLong_of_range _ (by omega) (by omega)]
  exact ⟨rfl, hb⟩

theorem parseMillis_frac (ss frac : List Char) (h : '.' ∉ ss)
    (hf : ∀ c ∈ frac, c.isDigit = true) :
    parseMillis (ss ++ '.' :: frac) =
      if 1 ≤ frac.length ∧ frac.length ≤ 3 then some (fracMillis frac, ss) else none := by
  simp only [parseMillis, splitFirst_append '.' ss frac h]
  rcases frac with _ | ⟨a, _ | ⟨b, _ | ⟨c, _ | ⟨d, rest⟩⟩⟩⟩
  · simp [strtol_nil]
  · obtain ⟨h1, h2⟩ := strtol_frac [a] (by simp) hf (by simp)
    simp only [List.length_singleton, pow_one] at h2
    rw [h1]
    simp only [List.length_singleton, toU32_natCast _ (show decVal [a] < 4294967296 by omega)]
    have e : toU32 ((decVal [a] : Int) * 100) = decVal [a] * 100 := by
      have := toU32_natCast (decVal [a] * 100) (by omega)
      simpa using this
    simp only [e, fracMillis, List.length_singleton]
    rw [if_neg (by omega), if_pos (by omega)]
    norm_num
  · obtain ⟨h1, h2⟩ := strtol_frac [a, b] (by simp) hf (by simp)
    simp only [List.length_cons, List.length_singleton, List.length_nil] at h2
    rw [h1]
    simp only [List.length_cons, List.length_singleton, List.length_nil,
      toU32_natCast _ (show decVal [a, b] < 4294967296 by omega)]
    have e : toU32 ((decVal [a, b] : Int) * 10) = decVal [a, b] * 10 := by
      have := toU32_natCast (decVal [a, b] * 10) (by omega)
      simpa using this
    simp only [e, fracMillis, List.length_cons, List.length_nil]
    rw [if_neg (by omega), if_pos (by omega)]
    norm_num
  · obtain ⟨h1, h2⟩ := strtol_frac [a, b, c] (by simp) hf (by simp)
    simp only [List.length_cons, List.length_singleton, List.length_nil] at h2
    rw [h1]
    simp only [List.length_cons, List.length_singleton, List.length_nil,
      toU32_natCast _ (show decVal [a, b, c] < 4294967296 by omega)]
    simp only [fracMillis, List.length_cons, List.length_nil]
    rw [if_neg (by omega), if_pos (by omega)]
    simp
  · have := strtol_digits (a :: b :: c :: d :: rest) [] (by simp) hf noDigitHead_nil
    simp only [List.append_nil] at this
    rw [this]
    simp only [List.length_cons]
    rw [if_neg (by omega)]

theorem atoi_digits_nil (ds : List Char) (hne : ds ≠ []) (hds : ∀ c ∈ ds, c.isDigit = true)
    (hv : decVal ds < 2147483648) : atoi ds = (decVal ds : Int) := by
  have := atoi_digits ds [] hne hds noDigitHead_nil hv
  simpa using this

theorem parseTime_seconds (ss : List Char) (t : Nat) (hne : ss ≠ [])
    (hs : ∀ c ∈ ss, c.isDigit = true) (hv : decVal ss ≤ 2147483) :
    parseTime ss t = ⟨true, decVal ss * 1000, ss⟩ := by
  have hemp : ss.isEmpty = false := by cases ss <;> simp_all
  have hc : ':' ∉ ss := not_mem_of_digits ':' (by decide) ss hs
  simp only [parseTime, hemp, splitFirst_none ':' ss hc, atoi_digits_nil ss hne hs (by omega)]
  simp only [Bool.false_eq_true, if_false, toU32_natCast _ (show decVal ss < 4294967296 by omega)]
  have := toU32_natCast (decVal ss * 1000) (by omega)
  simp only [Nat.cast_mul, Nat.cast_ofNat] at this
  simp [this]

theorem toU32_eq (x : Int) (n : Nat) (h : x = (n : Int)) (hn : n < 4294967296) : toU32 x = n := by
  rw [h]; exact toU32_natCast n hn

theorem time_value (m s ms : Nat) (hm : m ≤ 99) (hs : s ≤ 59) (hms : ms ≤ 999) :
    toU32 ((toU32 ((toU32 ((toU32 (m : Int) : Int) * 60) : Int) + (toU32 (s : Int) : Int)) : Int)
      * 1000 + (ms : Int)) = m * 60000 + s * 1000 + ms := by
  rw [toU32_natCast m (by omega), toU32_natCast s (by omega),
    toU32_eq ((m : Int) * 60) (m * 60) (by push_cast; rfl) (by omega),
    toU32_eq (((m * 60 : Nat) : Int) + (s : Int)) (m * 60 + s) (by push_cast; rfl) (by omega),
    toU32_eq _ (m * 60000 + s * 1000 + ms) (by push_cast; ring) (by omega)]

theorem parseTime_min_sec (mm ss : List Char) (t : Nat) (hm0 : mm ≠ []) (hs0 : ss ≠ [])
    (hm : ∀ c ∈ mm, c.isDigit = true) (hs : ∀ c ∈ ss, c.isDigit = true)
    (hmv : decVal mm < 2147483648) (hsv : decVal ss < 2147483648) :
    parseTime (mm ++ ':' :: ss) t =
      if decVal mm ≤ 99 ∧ decVal ss ≤ 59 then
        ⟨true, decVal mm * 60000 + decVal ss * 1000, mm⟩
      else ⟨false, t, mm⟩ := by
  rw [parseTime_colon mm ss t (not_mem_of_digits ':' (by decide) mm hm),
    parseMillis_no_dot ss (not_mem_of_digits '.' (by decide) ss hs),
    atoi_digits_nil mm hm0 hm hmv]
  simp only [atoi_digits_nil ss hs0 hs hsv]
  by_cases h1 : decVal mm ≤ 99
  · by_cases h2 : decVal ss ≤ 59
    · rw [if_neg (by omega), if_neg (by omega), if_pos ⟨h1, h2⟩]
      rw [time_value (decVal mm) (decVal ss) 0 h1 h2 (by omega), Nat.add_zero]
    · rw [if_neg (by omega), if_pos (by omega), if_neg (by omega)]
  · rw [if_pos (by omega), if_neg (by omega)]

theorem parseTime_min_sec_frac (mm ss frac : List Char) (t : Nat) (hm0 : mm ≠ [])
    (hs0 : ss ≠ []) (hm : ∀ c ∈ mm, c.isDigit = true) (hs : ∀ c ∈ ss, c.isDigit = true)
    (hf : ∀ c ∈ frac, c.isDigit = true)
    (hmv : decVal mm < 2147483648) (hsv : decVal ss < 2147483648) :
    parseTime (mm ++ ':' :: (ss ++ '.' :: frac)) t =
      if decVal mm ≤ 99 ∧ decVal ss ≤ 59 ∧ 1 ≤ frac.length ∧ frac.length ≤ 3 then
        ⟨true, decVal mm * 60000 + decVal ss * 1000 + fracMillis frac, mm⟩
      else ⟨false, t, mm⟩ := by
  rw [parseTime_colon mm _ t (not_mem_of_digits ':' (by decide) mm hm),
    parseMillis_frac ss frac (not_mem_of_digits '.' (by decide) ss hs) hf,
    atoi_digits_nil mm hm0 hm hmv]
  by_cases h1 : decVal mm ≤ 99
  · rw [if_neg (by omega)]
    by_cases h3 : 1 ≤ frac.length ∧ frac.length ≤ 3
    · rw [if_pos h3]
      simp only [atoi_digits_nil ss hs0 hs hsv]
      have hfm : fracMillis frac ≤ 999 := by
        have hb := decVal_lt_pow frac hf
        obtain ⟨h31, h32⟩ := h3
        have : frac.length = 1 ∨ frac.length = 2 ∨ frac.length = 3 := by omega
        unfold fracMillis
        rcases this with e | e | e <;> rw [e] at hb ⊢ <;> norm_num at hb ⊢ <;> omega
      by_cases h2 : decVal ss ≤ 59
      · rw [if_neg (by omega), if_pos ⟨h1, h2, h3⟩, time_value _ _ _ h1 h2 hfm]
      · rw [if_pos (by omega), if_neg (by omega)]
    · rw [if_neg h3, if_neg (by tauto)]
  · rw [if_pos (by omega), if_neg (by omega)]

/-! ## Evaluation of readTime on the digit grammar -/

theorem toI32_eq (x : Int) (n : Nat) (h : x = (n : Int)) (hn : n < 2147483648) :
    toI32 x = (n : Int) := by
  rw [h]; exact toI32_of_range _ (by omega) (by omega)

theorem parseInt_digits_nil (ds : List Char) (hne : ds ≠ []) (hds : ∀ c ∈ ds, c.isDigit = true) :
    parseInt ds = if decVal ds ≤ 2147483647 then some (decVal ds : Int) else none := by
  have := parseInt_digits ds [] hne hds noDigitHead_nil
  simpa using this

theorem parseInt_nil : parseInt [] = none := by decide

theorem readTime_seconds (ss : List Char) (v : Int) (hne : ss ≠ [])
    (hs : ∀ c ∈ ss, c.isDigit = true) (hv : decVal ss ≤ 2147483) :
    readTime parseInt ss v = (true, ((decVal ss * 1000 : Nat) : Int)) := by
  have hemp : ss.isEmpty = false := by cases ss <;> simp_all
  have hc : ':' ∉ ss := not_mem_of_digits ':' (by decide) ss hs
  simp only [readTime, hemp, findFirstOf_none ':' ss hc, parseInt_digits_nil ss hne hs]
  simp only [Bool.false_eq_true, if_false]
  rw [if_pos (by omega)]
  simp only
  have e1 : toI32 ((decVal ss : Int) * 1000) = ((decVal ss * 1000 : Nat) : Int) :=
    toI32_eq _ _ (by push_cast; ring) (by omega)
  rw [add_zero, e1, toI32_of_range _ (by omega) (by omega)]

theorem readTime_colon (mm rest : List Char) (v : Int) (hm0 : mm ≠ [])
    (hm : ∀ c ∈ mm, c.isDigit = true) :
    readTime parseInt (mm ++ ':' :: rest) v =
      if decVal mm ≤ 99 then
        match readSecMillis parseInt (mm ++ ':' :: rest) mm.length with
        | none => (false, v)
        | some (sec, milliseconds) =>
          if sec < 0 ∨ sec > 59 then (false, v)
          else (true, toI32 (toI32 (toI32 (toI32 ((decVal mm : Int) * 60) + sec) * 1000)
            + milliseconds))
      else (false, v) := by
  have hne : (mm ++ ':' :: rest).isEmpty = false := by cases mm <;> simp
  have hc : ':' ∉ mm := not_mem_of_digits ':' (by decide) mm hm
  have hp : parseInt (mm ++ [])
      = if decVal mm ≤ 2147483647 then some (decVal mm : Int) else none :=
    parseInt_digits mm [] hm0 hm noDigitHead_nil
  simp only [List.append_nil] at hp
  simp only [readTime, hne, findFirstOf_append ':' mm rest hc, List.take_left', hp,
    Bool.false_eq_true, if_false]
  by_cases h1 : decVal mm ≤ 99
  · rw [if_pos (show decVal mm ≤ 2147483647 by omega), if_pos h1]
    simp only
    rw [if_neg (by omega)]
  · rw [if_neg h1]
    by_cases h2 : decVal mm ≤ 2147483647
    · rw [if_pos h2]
      simp only
      rw [if_pos (by omega)]
    · rw [if_neg h2]

theorem drop_succ_append (pre : List Char) (c : Char) (post : List Char) :
    (pre ++ c :: post).drop (pre.length + 1) = post := by
  induction pre with
  | nil => rfl
  | cons p ps ih => simp [ih]

theorem take_succ_append (pre : List Char) (c : Char) (post : List Char) :
    (pre ++ c :: post).take (pre.length + 1) = pre ++ [c] := by
  induction pre with
  | nil => rfl
  | cons p ps ih => simpa using ih

theorem readSecMillis_no_dot (mm ss : List Char) (hs0 : ss ≠ [])
    (hm : ∀ c ∈ mm, c.isDigit = true) (hs : ∀ c ∈ ss, c.isDigit = true) :
    readSecMillis parseInt (mm ++ ':' :: ss) mm.length =
      if decVal ss ≤ 2147483647 then some ((decVal ss : Int), 0) else none := by
  have hd : '.' ∉ mm ++ ':' :: ss := by
    intro h
    rcases List.mem_append.mp h with h | h
    · exact not_mem_of_digits '.' (by decide) mm hm h
    · rcases List.mem_cons.mp h with h | h
      · exact absurd h (by decide)
      · exact not_mem_of_digits '.' (by decide) ss hs h
  simp only [readSecMillis, findFirstOf_none '.' _ hd, drop_succ_append,
    parseInt_digits_nil ss hs0 hs]
  split_ifs <;> rfl

theorem readSecMillis_dot (mm ss frac : List Char) (hs0 : ss ≠ [])
    (hm : ∀ c ∈ mm, c.isDigit = true) (hs : ∀ c ∈ ss, c.isDigit = true)
    (hf : ∀ c ∈ frac, c.isDigit = true) :
    readSecMillis parseInt (mm ++ ':' :: (ss ++ '.' :: frac)) mm.length =
      if decVal ss ≤ 2147483647 ∧ 1 ≤ frac.length ∧ frac.length ≤ 3 then
        some ((decVal ss : Int), (fracMillis frac : Int))
      else none := by
  have hd : '.' ∉ mm ++ ':' :: ss := by
    intro h
    rcases List.mem_append.mp h with h | h
    · exact not_mem_of_digits '.' (by decide) mm hm h
    · rcases List.mem_cons.mp h with h | h
      · exact absurd h (by decide)
      · exact not_mem_of_digits '.' (by decide) ss hs h
  have e : mm ++ ':' :: (ss ++ '.' :: frac) = (mm ++ ':' :: ss) ++ '.' :: frac := by simp
  have hfind := findFirstOf_append '.' (mm ++ ':' :: ss) frac hd
  rw [← e] at hfind
  have hlen : (mm ++ ':' :: ss).length = mm.length + 1 + ss.length := by
    simp; omega
  have hsub : substr (mm ++ ':' :: (ss ++ '.' :: frac)) (mm.length + 1)
      (sizeSub (mm ++ ':' :: ss).length mm.length) = ss ++ ['.'] := by
    have : sizeSub (mm ++ ':' :: ss).length mm.length = ss.length + 1 := by
      unfold sizeSub; rw [hlen, if_pos (by omega)]; omega
    rw [this, substr, drop_succ_append, take_succ_append]
  have hmsec : (mm ++ ':' :: (ss ++ '.' :: frac)).drop ((mm ++ ':' :: ss).length + 1) = frac := by
    rw [e, drop_succ_append]
  simp only [readSecMillis, hfind, hsub, hmsec,
    parseInt_digits ss ['.'] hs0 hs (noDigitHead_cons '.' [] (by decide))]
  by_cases h1 : decVal ss ≤ 2147483647
  · rw [if_pos h1]
    simp only
    rcases frac with _ | ⟨a, _ | ⟨b, _ | ⟨c, _ | ⟨d, rest⟩⟩⟩⟩
    · simp [parseInt_nil]
    · have hb := decVal_lt_pow [a] hf
      simp only [List.length_singleton, pow_one] at hb
      rw [parseInt_digits_nil [a] (by simp) hf, if_pos (by omega)]
      simp only [List.length_singleton]
      rw [if_pos (by omega), toI32_eq _ (decVal [a] * 100) (by push_cast; ring) (by omega)]
      simp [fracMillis]
    · have hb := decVal_lt_pow [a, b] hf
      simp only [List.length_cons, List.length_nil] at hb
      rw [parseInt_digits_nil [a, b] (by simp) hf, if_pos (by omega)]
      simp only [List.length_cons, List.length_nil]
      rw [if_pos (by omega), toI32_eq _ (decVal [a, b] * 10) (by push_cast; ring) (by omega)]
      simp [fracMillis]
    · have hb := decVal_lt_pow [a, b, c] hf
      simp only [List.length_cons, List.length_nil] at hb
      rw [parseInt_digits_nil [a, b, c] (by simp) hf, if_pos (by omega)]
      simp only [List.length_cons, List.length_nil]
      rw [if_pos (by omega)]
      simp [fracMillis]
    · rw [parseInt_digits_nil (a :: b :: c :: d :: rest) (by simp) hf]
      simp only [List.length_cons]
      rw [if_neg (show ¬ (decVal ss ≤ 2147483647 ∧ 1 ≤ rest.length + 1 + 1 + 1 + 1 ∧
        rest.length + 1 + 1 + 1 + 1 ≤ 3) by omega)]
      split_ifs <;> rfl
  · rw [if_neg h1, if_neg (by omega)]

theorem time_value_int (m s ms : Nat) (hm : m ≤ 99) (hs : s ≤ 59) (hms : ms ≤ 999) :
    toI32 (toI32 (toI32 (toI32 ((m : Int) * 60) + (s : Int)) * 1000) + (ms : Int))
      = ((m * 60000 + s * 1000 + ms : Nat) : Int) := by
  have e1 : toI32 ((m : Int) * 60) = ((m * 60 : Nat) : Int) :=
    toI32_eq _ _ (by push_cast; ring) (by omega)
  have e2 : toI32 (((m * 60 : Nat) : Int) + (s : Int)) = ((m * 60 + s : Nat) : Int) :=
    toI32_eq _ _ (by push_cast; ring) (by omega)
  have e3 : toI32 (((m * 60 + s : Nat) : Int) * 1000) = (((m * 60 + s) * 1000 : Nat) : Int) :=
    toI32_eq _ _ (by push_cast; ring) (by omega)
  rw [e1, e2, e3]
  exact toI32_eq _ _ (by push_cast; ring) (by omega)

theorem readTime_min_sec (mm ss : List Char) (v : Int) (hm0 : mm ≠ []) (hs0 : ss ≠ [])
    (hm : ∀ c ∈ mm, c.isDigit = true) (hs : ∀ c ∈ ss, c.isDigit = true) :
    readTime parseInt (mm ++ ':' :: ss) v =
      if decVal mm ≤ 99 ∧ decVal ss ≤ 59 then
        (true, ((decVal mm * 60000 + decVal ss * 1000 : Nat) : Int))
      else (false, v) := by
  rw [readTime_colon mm ss v hm0 hm, readSecMillis_no_dot mm ss hs0 hm hs]
  by_cases h1 : decVal mm ≤ 99
  · rw [if_pos h1]
    by_cases h2 : decVal ss ≤ 59
    · rw [if_pos (show decVal ss ≤ 2147483647 by omega), if_pos ⟨h1, h2⟩]
      simp only
      rw [if_neg (by omega)]
      have := time_value_int (decVal mm) (decVal ss) 0 h1 h2 (by omega)
      rw [Nat.add_zero] at this
      rw [← this]
      rfl
    · rw [if_neg (show ¬ (decVal mm ≤ 99 ∧ decVal ss ≤ 59) by omega)]
      by_cases h3 : decVal ss ≤ 2147483647
      · rw [if_pos h3]
        simp only
        rw [if_pos (by omega)]
      · rw [if_neg h3]
  · rw [if_neg h1, if_neg (by omega)]

theorem readTime_min_sec_frac (mm ss frac : List Char) (v : Int) (hm0 : mm ≠ [])
    (hs0 : ss ≠ []) (hm : ∀ c ∈ mm, c.isDigit = true) (hs : ∀ c ∈ ss, c.isDigit = true)
    (hf : ∀ c ∈ frac, c.isDigit = true) :
    readTime parseInt (mm ++ ':' :: (ss ++ '.' :: frac)) v =
      if decVal mm ≤ 99 ∧ decVal ss ≤ 59 ∧ 1 ≤ frac.length ∧ frac.length ≤ 3 then
        (true, ((decVal mm * 60000 + decVal ss * 1000 + fracMillis frac : Nat) : Int))
      else (false, v) := by
  rw [readTime_colon mm _ v hm0 hm, readSecMillis_dot mm ss frac hs0 hm hs hf]
  by_cases h1 : decVal mm ≤ 99
  · rw [if_pos h1]
    by_cases h3 : 1 ≤ frac.length ∧ frac.length ≤ 3
    · have hfm : fracMillis frac ≤ 999 := by
        have hb := decVal_lt_pow frac hf
        obtain ⟨h31, h32⟩ := h3
        have : frac.length = 1 ∨ frac.length = 2 ∨ frac.length = 3 := by omega
        unfold fracMillis
        rcases this with e | e | e <;> rw [e] at hb ⊢ <;> norm_num at hb ⊢ <;> omega
      by_cases h2 : decVal ss ≤ 59
      · rw [if_pos (show decVal ss ≤ 2147483647 ∧ 1 ≤ frac.length ∧ frac.length ≤ 3 from
          ⟨by omega, h3⟩), if_pos ⟨h1, h2, h3⟩]
        simp only
        rw [if_neg (by omega), time_value_int _ _ _ h1 h2 hfm]
      · rw [if_neg (show ¬ (decVal mm ≤ 99 ∧ decVal ss ≤ 59 ∧ 1 ≤ frac.length ∧
          frac.length ≤ 3) by omega)]
        by_cases h4 : decVal ss ≤ 2147483647
        · rw [if_pos (show decVal ss ≤ 2147483647 ∧ 1 ≤ frac.length ∧ frac.length ≤ 3 from
            ⟨h4, h3⟩)]
          simp only
          rw [if_pos (by omega)]
        · rw [if_neg (by omega)]
    · rw [if_neg (show ¬ (decVal ss ≤ 2147483647 ∧ 1 ≤ frac.length ∧ frac.length ≤ 3) by tauto),
        if_neg (by tauto)]
  · rw [if_neg h1, if_neg (by omega)]

/-! ## Rejections of parseTime -/

theorem readBase_ten (s : List Char) : readBase 10 s = (10, 0, s) := by
  unfold readBase
  rw [if_neg (by decide)]

theorem atoi_neg_digits (ds rest : List Char) (hne : ds ≠ []) (hds : ∀ c ∈ ds, c.isDigit = true)
    (hrest : noDigitHead rest) (hv : decVal ds ≤ 2147483648) :
    atoi ('-' :: ds ++ rest) = -(decVal ds : Int) := by
  have hemp : ds.isEmpty = false := by cases ds <;> simp_all
  have hsp : isspace '-' = false := by decide
  have hst : strtol ('-' :: ds ++ rest) 10 = (clampLong (-(decVal ds : Int)), 1 + ds.length) := by
    have e1 : List.takeWhile isspace ('-' :: (ds ++ rest)) = [] := by
      simp [List.takeWhile, hsp]
    have e2 : List.dropWhile isspace ('-' :: (ds ++ rest)) = '-' :: (ds ++ rest) := by
      simp [List.dropWhile, hsp]
    have e3 : readSign ('-' :: (ds ++ rest)) = (true, 1, ds ++ rest) := rfl
    unfold strtol
    simp only [List.cons_append, e1, e2, e3, readBase_ten,
      takeWhile_isDigitIn_digits ds rest hds hrest, hemp]
    simp [decVal]
  unfold atoi
  rw [hst]
  simp only
  rw [clampLong_of_range _ (by omega) (by omega), toI32_of_range _ (by omega) (by omega)]

theorem parseTime_colon_ok (m after : List Char) (t : Nat) (h : ':' ∉ m)
    (hok : (parseTime (m ++ ':' :: after) t).ok = true) :
    ¬ (atoi m < 0 ∨ atoi m > 99) ∧
      ∃ ms st, parseMillis after = some (ms, st) ∧ ¬ (atoi st < 0 ∨ atoi st > 59) := by
  rw [parseTime_colon m after t h] at hok
  by_cases h1 : atoi m < 0 ∨ atoi m > 99
  · rw [if_pos h1] at hok; simp at hok
  · rw [if_neg h1] at hok
    refine ⟨h1, ?_⟩
    cases hm : parseMillis after with
    | none => rw [hm] at hok; simp at hok
    | some r =>
      obtain ⟨ms, st⟩ := r
      rw [hm] at hok
      simp only at hok
      by_cases h2 : atoi st < 0 ∨ atoi st > 59
      · rw [if_pos h2] at hok; simp at hok
      · exact ⟨ms, st, rfl, h2⟩

theorem parseMillis_secTxt (ss fr : List Char) (ms : Nat) (st : List Char) (h : '.' ∉ ss)
    (hp : parseMillis (ss ++ '.' :: fr) = some (ms, st)) : st = ss := by
  simp only [parseMillis, splitFirst_append '.' ss fr h] at hp
  split at hp
  · simp at hp
  · split_ifs at hp
    simp only [Option.some.injEq, Prod.mk.injEq] at hp
    exact hp.2.symm

theorem parseTime_frame (s : List Char) (t : Nat) (h : (parseTime s t).ok = false) :
    (parseTime s t).time = t := by
  unfold parseTime at h ⊢
  by_cases h1 : s.isEmpty = true
  · simp [h1]
  · simp only [h1, Bool.false_eq_true, if_false] at h ⊢
    cases hs : splitFirst ':' s with
    | none => simp [hs] at h
    | some ma =>
      obtain ⟨m, a⟩ := ma
      simp only [hs] at h ⊢
      by_cases h2 : atoi m < 0 ∨ atoi m > 99
      · simp only [h2, if_true]
      · simp only [h2, if_false] at h ⊢
        cases hm : parseMillis a with
        | none => simp only
        | some ms =>
          obtain ⟨ms, st⟩ := ms
          simp only [hm] at h ⊢
          by_cases h3 : atoi st < 0 ∨ atoi st > 59
          · simp only [h3, if_true]
          · simp [h3] at h

theorem seconds_text (ss tail : List Char) (ms : Nat) (st : List Char)
    (hs : ∀ c ∈ ss, c.isDigit = true) (ht : tail = [] ∨ ∃ fr, tail = '.' :: fr)
    (pre : List Char) (hpre : '.' ∉ pre)
    (hp : parseMillis (pre ++ ss ++ tail) = some (ms, st)) : st = pre ++ ss := by
  have hd : '.' ∉ pre ++ ss := by
    intro h
    rcases List.mem_append.mp h with h | h
    · exact hpre h
    · exact not_mem_of_digits '.' (by decide) ss hs h
  rcases ht with rfl | ⟨fr, rfl⟩
  · rw [List.append_nil, parseMillis_no_dot _ hd] at hp
    simp only [Option.some.injEq, Prod.mk.injEq] at hp
    exact hp.2.symm
  · exact parseMillis_secTxt _ fr ms st hd hp

/-! ## The digits of a number and strtol with base detection -/

theorem digitValue_digitChar (d : Nat) (h : d < 16) : digitValue (Nat.digitChar d) = d := by
  interval_cases d <;> decide

theorem digitValue_ge (c : Char) (h : digitValue c < 99) : 48 ≤ c.toNat := by
  unfold digitValue at h
  split_ifs at h <;> omega

theorem toDigitsCore_spec (b : Nat) (hb : 2 ≤ b) (hb16 : b ≤ 16) :
    ∀ fuel n acc, n < fuel →
      ∃ ds, Nat.toDigitsCore b fuel n acc = ds ++ acc ∧ ds ≠ [] ∧
        (∀ c ∈ ds, digitValue c < b) ∧ digitsVal b ds = n ∧
        (0 < n → ∀ c ∈ ds.head?, digitValue c ≠ 0) := by
  intro fuel
  induction fuel with
  | zero => intro n acc h; exact absurd h (Nat.not_lt_zero _)
  | succ fuel ih =>
    intro n acc hn
    have hmod : n % b < b := Nat.mod_lt _ (by omega)
    have hdv : digitValue (Nat.digitChar (n % b)) = n % b :=
      digitValue_digitChar _ (by omega)
    unfold Nat.toDigitsCore
    simp only
    by_cases hz : n / b = 0
    · rw [if_pos hz]
      have hlt : n < b := by
        by_contra hge
        have := Nat.div_pos (Nat.le_of_not_lt hge) (by omega : 0 < b)
        omega
      have hdv1 : digitValue (Nat.digitChar n) = n := by
        rw [Nat.mod_eq_of_lt hlt] at hdv; exact hdv
      refine ⟨[Nat.digitChar (n % b)], rfl, by simp, ?_, ?_, ?_⟩
      · intro c hc
        rw [List.mem_singleton] at hc
        rw [hc, hdv]; exact hmod
      · simp [digitsVal, hdv1, Nat.mod_eq_of_lt hlt]
      · intro hpos c hc
        simp only [List.head?_cons, Option.mem_def, Option.some.injEq] at hc
        rw [← hc, hdv, Nat.mod_eq_of_lt hlt]; omega
    · rw [if_neg hz]
      have hdiv : n / b < fuel := by
        have : n / b < n := Nat.div_lt_self (by
          rcases Nat.eq_zero_or_pos n with h | h
          · rw [h] at hz; simp at hz
          · exact h) (by omega)
        omega
      obtain ⟨ds, hds, hne, hdig, hval, hhead⟩ := ih (n / b) (Nat.digitChar (n % b) :: acc) hdiv
      refine ⟨ds ++ [Nat.digitChar (n % b)], by rw [hds]; simp, by simp, ?_, ?_, ?_⟩
      · intro c hc
        rcases List.mem_append.mp hc with hc | hc
        · exact hdig c hc
        · rw [List.mem_singleton] at hc
          rw [hc, hdv]; exact hmod
      · rw [digitsVal_snoc, hval, hdv]
        exact Nat.div_add_mod' n b
      · intro _ c hc
        have hpos : 0 < n / b := Nat.pos_of_ne_zero hz
        cases ds with
        | nil => exact absurd rfl hne
        | cons d ds' =>
          simp only [List.cons_append, List.head?_cons, Option.mem_def,
            Option.some.injEq] at hc
          exact hhead hpos c (by simp [hc])

theorem toDigits_spec (b : Nat) (hb : 2 ≤ b) (hb16 : b ≤ 16) (n : Nat) :
    Nat.toDigits b n ≠ [] ∧ (∀ c ∈ Nat.toDigits b n, digitValue c < b) ∧
      digitsVal b (Nat.toDigits b n) = n ∧
      (0 < n → ∀ c ∈ (Nat.toDigits b n).head?, digitValue c ≠ 0) := by
  obtain ⟨ds, hds, hne, hdig, hval, hhead⟩ :=
    toDigitsCore_spec b hb hb16 (n + 1) n [] (Nat.lt_succ_self n)
  rw [List.append_nil] at hds
  unfold Nat.toDigits
  rw [hds]
  exact ⟨hne, hdig, hval, hhead⟩

theorem strtol_of_alnum (c : Char) (rest : List Char) (base : Nat) (hc : 48 ≤ c.toNat) :
    strtol (c :: rest) base =
      if ((readBase base (c :: rest)).2.2.takeWhile
          (isDigitIn (readBase base (c :: rest)).1)).isEmpty = true then (0, 0)
      else
        (clampLong ((digitsVal (readBase base (c :: rest)).1
          ((readBase base (c :: rest)).2.2.takeWhile
            (isDigitIn (readBase base (c :: rest)).1)) : Nat) : Int),
          (readBase base (c :: rest)).2.1 +
            ((readBase base (c :: rest)).2.2.takeWhile
              (isDigitIn (readBase base (c :: rest)).1)).length) := by
  have hsp : isspace c = false := by
    cases h : isspace c
    · rfl
    · have := toNat_of_isspace h; omega
  have h1 : c ≠ '-' := by rintro rfl; revert hc; decide
  have h2 : c ≠ '+' := by rintro rfl; revert hc; decide
  have e1 : List.takeWhile isspace (c :: rest) = [] := by simp [List.takeWhile, hsp]
  have e2 : List.dropWhile isspace (c :: rest) = c :: rest := by simp [List.dropWhile, hsp]
  have e3 : readSign (c :: rest) = (false, 0, c :: rest) := by
    unfold readSign
    split
    · rename_i heq; simp only [List.cons.injEq] at heq; exact absurd heq.1 h1
    · rename_i heq; simp only [List.cons.injEq] at heq; exact absurd heq.1 h2
    · rfl
  unfold strtol
  simp only [e1, e2, e3, List.length_nil, Nat.zero_add, Bool.false_eq_true, if_false]

theorem readBase_hex (h : Char) (t : List Char) (hh : digitValue h < 16) :
    readBase 0 ('0' :: 'x' :: h :: t) = (16, 2, h :: t) := by
  simp [readBase, isDigitIn, hh]

theorem readBase_oct (ds : List Char) (hds : ∀ c ∈ ds, digitValue c < 8) :
    readBase 0 ('0' :: ds) = (8, 0, '0' :: ds) := by
  rcases ds with _ | ⟨d, _ | ⟨h, t⟩⟩
  · simp [readBase]
  · simp [readBase]
  · have hd := hds d (by simp)
    have h1 : d ≠ 'x' := by rintro rfl; revert hd; decide
    have h2 : d ≠ 'X' := by rintro rfl; revert hd; decide
    simp [readBase, h1, h2]

theorem readBase_dec (d : Char) (rest : List Char) (hd : digitValue d ≠ 0) :
    readBase 0 (d :: rest) = (10, 0, d :: rest) := by
  have h0 : d ≠ '0' := by rintro rfl; exact hd (by decide)
  unfold readBase
  rw [if_pos (Or.inl rfl)]
  split
  · rename_i heq; simp only [List.cons.injEq] at heq; exact absurd heq.1 h0
  · rename_i heq; simp only [List.cons.injEq] at heq; exact absurd heq.1 h0
  · simp

theorem takeWhile_all (p : Char → Bool) (ds : List Char) (h : ∀ c ∈ ds, p c = true) :
    ds.takeWhile p = ds := by
  have := takeWhile_append_of_all (p := p) ds [] h (by simp)
  simpa using this

theorem toU16_natCast (n : Nat) (h : n ≤ 65535) : toU16 (clampLong (n : Int)) = n := by
  rw [clampLong_of_range _ (by omega) (by omega)]
  unfold toU16
  rw [Int.emod_eq_of_lt (by omega) (by omega)]
  simp

theorem digitsVal_zero_cons (b : Nat) (c : Char) (ds : List Char) (hc : digitValue c = 0) :
    digitsVal b (c :: ds) = digitsVal b ds := by
  simp [digitsVal, hc]

/-- The function `parseAddress` on the text `0x` and hexadecimal digits. -/
theorem parseAddress_hex (ds : List Char) (a : Nat) (hne : ds ≠ [])
    (hds : ∀ c ∈ ds, digitValue c < 16) (hv : digitsVal 16 ds ≤ 65535) :
    parseAddress ('0' :: 'x' :: ds) a = (true, digitsVal 16 ds) := by
  cases ds with
  | nil => exact absurd rfl hne
  | cons h t =>
    have hemp : (h :: t).isEmpty = false := rfl
    have htw : List.takeWhile (isDigitIn 16) (h :: t) = h :: t :=
      takeWhile_all _ _ (fun c hc => by simp [isDigitIn, hds c hc])
    unfold parseAddress
    rw [strtol_of_alnum '0' _ 0 (by decide), readBase_hex h t (hds h (by simp))]
    simp only [htw, hemp, List.isEmpty_cons, Bool.false_eq_true, if_false]
    rw [toU16_natCast _ hv]

/-- The function `parseAddress` on the text `0` and octal digits. -/
theorem parseAddress_oct (ds : List Char) (a : Nat)
    (hds : ∀ c ∈ ds, digitValue c < 8) (hv : digitsVal 8 ds ≤ 65535) :
    parseAddress ('0' :: ds) a = (true, digitsVal 8 ds) := by
  have htw : List.takeWhile (isDigitIn 8) ('0' :: ds) = '0' :: ds :=
    takeWhile_all _ _ (fun c hc => by
      rcases List.mem_cons.mp hc with rfl | hc
      · decide
      · simp [isDigitIn, hds c hc])
  unfold parseAddress
  rw [strtol_of_alnum '0' _ 0 (by decide), readBase_oct ds hds]
  simp only [htw, List.isEmpty_cons, Bool.false_eq_true, if_false]
  rw [digitsVal_zero_cons 8 '0' ds (by decide), toU16_natCast _ hv]

/-- The function `parseAddress` on decimal digits without a leading zero. -/
theorem parseAddress_dec (d : Char) (ds : List Char) (a : Nat)
    (hds : ∀ c ∈ d :: ds, digitValue c < 10) (hd : digitValue d ≠ 0)
    (hv : digitsVal 10 (d :: ds) ≤ 65535) :
    parseAddress (d :: ds) a = (true, digitsVal 10 (d :: ds)) := by
  have htw : List.takeWhile (isDigitIn 10) (d :: ds) = d :: ds :=
    takeWhile_all _ _ (fun c hc => by simp [isDigitIn, hds c hc])
  unfold parseAddress
  rw [strtol_of_alnum d _ 0 (digitValue_ge d (by have := hds d (by simp); omega)),
    readBase_dec d ds hd]
  simp only [htw, List.isEmpty_cons, Bool.false_eq_true, if_false]
  rw [toU16_natCast _ hv]

/-! ## The defaults of clear -/

/-- Apart from the digiboost flag and, in a build without `FEAT_CONFIG_CIAMODEL`, the CIA
model, `clear` sets every field to its default. -/
theorem clear_defaults (b : Build) (f : Int) (c : IniConfig) :
    (IniConfig.clear b f c).sidplayfp_s =
        { version := 2, playLength := 0, recordLength := 300000, verboseLevel := 0,
          database := [], kernalRom := [], basicRom := [], chargenRom := [] } ∧
      (IniConfig.clear b f c).console_s =
        { ansi := false, topLeft := '+', topRight := '+', bottomLeft := '+', bottomRight := '+',
          vertical := '|', horizontal := '-', junctionLeft := ':', junctionRight := ':' } ∧
      (IniConfig.clear b f c).audio_s = { frequency := f, channels := 0, precision := 16 } ∧
      (IniConfig.clear b f c).emulation_s =
        { modelDefault := C64Model.PAL, modelForced := false, sidModel := SidModel.MOS6581,
          forceModel := false, digiboost := c.emulation_s.digiboost,
          ciaModel := if b.FEAT_CONFIG_CIAMODEL then CiaModel.MOS6526
                      else c.emulation_s.ciaModel,
          filter := true, engine := [], bias := 1 / 2, filterCurve6581 := 1 / 2,
          filterCurve8580 := 1 / 2, powerOnDelay := -1,
          samplingMethod := SamplingMethod.RESAMPLE_INTERPOLATE, fastSampling := false } :=
  ⟨rfl, rfl, rfl, rfl⟩

/-! ## Lemmas on the option chain -/

theorem optKind_length (b : Build) (c1 : Char) (rest : List Char)
    (h : optKind b c1 (c1 :: rest) = .length) :
    c1 = 't' ∧ ¬ (b.FEAT_THIRD_SID = true ∧ List.take 2 (c1 :: rest) = ['t', 's']) := by
  unfold optKind at h
  by_cases h1 : c1 = 'h' ∨ c1 :: rest = ['-', 'h', 'e', 'l', 'p']
  · rw [if_pos h1] at h; cases h
  rw [if_neg h1] at h
  by_cases h2 : c1 :: rest = ['-', 'h', 'e', 'l', 'p', '-', 'd', 'b', 'g']
  · rw [if_pos h2] at h; cases h
  rw [if_neg h2] at h
  by_cases h3 : c1 = 'b'
  · rw [if_pos h3] at h; cases h
  rw [if_neg h3] at h
  by_cases h4 : List.take 2 (c1 :: rest) = ['d', 's']
  · rw [if_pos h4] at h; cases h
  rw [if_neg h4] at h
  by_cases h5 : b.FEAT_THIRD_SID = true ∧ List.take 2 (c1 :: rest) = ['t', 's']
  · rw [if_pos h5] at h; cases h
  rw [if_neg h5] at h
  by_cases h6 : c1 = 'f'
  · rw [if_pos h6] at h; cases h
  rw [if_neg h6] at h
  by_cases h7 : List.take 2 (c1 :: rest) = ['n', 'f']
  · rw [if_pos h7] at h; cases h
  rw [if_neg h7] at h
  by_cases h8 : c1 = 'o'
  · rw [if_pos h8] at h; cases h
  rw [if_neg h8] at h
  by_cases h9 : c1 = 'p'
  · rw [if_pos h9] at h; cases h
  rw [if_neg h9] at h
  by_cases h10 : c1 = 'q'
  · rw [if_pos h10] at h; cases h
  rw [if_neg h10] at h
  by_cases h11 : c1 = 't'
  · rw [if_pos h11] at h
    exact ⟨h11, h5⟩
  rw [if_neg h11] at h
  by_cases h12 : c1 = 'r'
  · rw [if_pos h12] at h; cases h
  rw [if_neg h12] at h
  by_cases h13 : c1 = 's'
  · rw [if_pos h13] at h; cases h
  rw [if_neg h13] at h
  by_cases h14 : c1 = 'm'
  · rw [if_pos h14] at h; cases h
  rw [if_neg h14] at h
  by_cases h15 : b.FEAT_DIGIBOOST = true ∧ c1 :: rest = ['-', 'd', 'i', 'g', 'i', 'b', 'o', 'o', 's', 't']
  · rw [if_pos h15] at h; cases h
  rw [if_neg h15] at h
  by_cases h16 : c1 = 'v'
  · rw [if_pos h16] at h; cases h
  rw [if_neg h16] at h
  by_cases h17 : List.take 7 (c1 :: rest) = ['-', 'd', 'e', 'l', 'a', 'y', '=']
  · rw [if_pos h17] at h; cases h
  rw [if_neg h17] at h
  by_cases h18 : c1 = 'w' ∨ List.take 4 (c1 :: rest) = ['-', 'w', 'a', 'v']
  · rw [if_pos h18] at h; cases h
  rw [if_neg h18] at h
  by_cases h19 : List.take 3 (c1 :: rest) = ['-', 'a', 'u']
  · rw [if_pos h19] at h; cases h
  rw [if_neg h19] at h
  by_cases h20 : List.take 5 (c1 :: rest) = ['-', 'i', 'n', 'f', 'o']
  · rw [if_pos h20] at h; cases h
  rw [if_neg h20] at h
  by_cases h21 : b.HAVE_RESIDFP = true ∧ c1 :: rest = ['-', 'r', 'e', 's', 'i', 'd', 'f', 'p']
  · rw [if_pos h21] at h; cases h
  rw [if_neg h21] at h
  by_cases h22 : b.HAVE_RESID = true ∧ c1 :: rest = ['-', 'r', 'e', 's', 'i', 'd']
  · rw [if_pos h22] at h; cases h
  rw [if_neg h22] at h
  by_cases h23 : b.HAVE_HARDSID = true ∧ c1 :: rest = ['-', 'h', 'a', 'r', 'd', 's', 'i', 'd']
  · rw [if_pos h23] at h; cases h
  rw [if_neg h23] at h
  by_cases h24 : b.HAVE_EXSID = true ∧ c1 :: rest = ['-', 'e', 'x', 's', 'i', 'd']
  · rw [if_pos h24] at h; cases h
  rw [if_neg h24] at h
  by_cases h25 : c1 :: rest = ['-', 'n', 'o', 'n', 'e']
  · rw [if_pos h25] at h; cases h
  rw [if_neg h25] at h
  by_cases h26 : c1 :: rest = ['-', 'n', 'o', 's', 'i', 'd']
  · rw [if_pos h26] at h; cases h
  rw [if_neg h26] at h
  by_cases h27 : c1 :: rest = ['-', 'n', 'o', 'a', 'u', 'd', 'i', 'o']
  · rw [if_pos h27] at h; cases h
  rw [if_neg h27] at h
  by_cases h28 : c1 :: rest = ['-', 'c', 'p', 'u', '-', 'd', 'e', 'b', 'u', 'g']
  · rw [if_pos h28] at h; cases h
  rw [if_neg h28] at h
  cases h

theorem optKind_of_length (b : Build) (rest : List Char)
    (h5 : ¬ (b.FEAT_THIRD_SID = true ∧ List.take 2 ('t' :: rest) = ['t', 's'])) :
    optKind b 't' ('t' :: rest) = .length := by
  unfold optKind
  rw [if_neg (by simp), if_neg (by simp), if_neg (by simp), if_neg (by simp), if_neg h5,
    if_neg (by simp), if_neg (by simp), if_neg (by simp), if_neg (by simp), if_neg (by simp),
    if_pos rfl]

theorem optKind_w (b : Build) (rest : List Char) : optKind b 'w' ('w' :: rest) = .wav := by
  unfold optKind
  rw [if_neg (by simp), if_neg (by simp), if_neg (by simp), if_neg (by simp), if_neg (by simp),
    if_neg (by simp), if_neg (by simp), if_neg (by simp), if_neg (by simp), if_neg (by simp),
    if_neg (by simp), if_neg (by simp), if_neg (by simp), if_neg (by simp), if_neg (by simp),
    if_neg (by simp), if_neg (by simp), if_pos (by simp)]

theorem optKind_wav (b : Build) (rest : List Char) :
    optKind b '-' ('-' :: 'w' :: 'a' :: 'v' :: rest) = .wav := by
  unfold optKind
  rw [if_neg (by simp), if_neg (by simp), if_neg (by simp), if_neg (by simp), if_neg (by simp),
    if_neg (by simp), if_neg (by simp), if_neg (by simp), if_neg (by simp), if_neg (by simp),
    if_neg (by simp), if_neg (by simp), if_neg (by simp), if_neg (by simp), if_neg (by simp),
    if_neg (by simp), if_neg (by simp), if_pos (by simp)]

theorem optKind_au (b : Build) (rest : List Char) :
    optKind b '-' ('-' :: 'a' :: 'u' :: rest) = .au := by
  unfold optKind
  rw [if_neg (by simp), if_neg (by simp), if_neg (by simp), if_neg (by simp), if_neg (by simp),
    if_neg (by simp), if_neg (by simp), if_neg (by simp), if_neg (by simp), if_neg (by simp),
    if_neg (by simp), if_neg (by simp), if_neg (by simp), if_neg (by simp), if_neg (by simp),
    if_neg (by simp), if_neg (by simp), if_neg (by simp), if_pos (by simp)]

theorem isOption_iff (tok : List Char) :
    isOption tok = true ↔ ∃ c1 rest, tok = '-' :: c1 :: rest := by
  constructor
  · intro h
    unfold isOption at h
    split at h
    · exact ⟨_, _, rfl⟩
    · exact absurd h (by decide)
  · rintro ⟨c1, rest, rfl⟩
    rfl

theorem charAt_zero (env : Env) (i : Nat) (c0 : Char) (rest : List Char) :
    charAt env i (c0 :: rest) 0 = c0 := by
  simp [charAt]

theorem charAt_one (env : Env) (i : Nat) (c0 c1 : Char) (rest : List Char) :
    charAt env i (c0 :: c1 :: rest) 1 = c1 := by
  simp [charAt]

theorem charAt_of_get (env : Env) (i : Nat) (tok : List Char) (k : Nat) (c : Char)
    (h : tok[k]? = some c) : charAt env i tok k = c := by
  simp [charAt, h]

theorem hasCharAt_charAt (env : Env) (i : Nat) (tok : List Char) (k : Nat)
    (h : hasCharAt tok k) : charAt env i tok k ≠ Char.ofNat 0 := by
  unfold hasCharAt at h
  split at h
  · rename_i c hc
    rw [charAt_of_get env i tok k c hc]; exact h
  · exact absurd h id

/-! ## Lemmas on the scan loop -/

theorem scanToken_inl_ne_done (b : Build) (env : Env) (i : Nat) (tok : List Char)
    (s r : ScanState) : scanToken b env i tok s ≠ .inl (.done r) := by
  unfold scanToken
  intro h
  split_ifs at h with h1 h2
  · split at h
    · cases h
    · split_ifs at h
      cases h
  · cases h

/-- What a pass of the loop body that does not end the scan has done. -/
theorem scanToken_inr (b : Build) (env : Env) (i : Nat) (tok : List Char) (s s1 : ScanState)
    (h : scanToken b env i tok s = .inr s1) :
    s1.argv.length = s.argv.length ∧ (∀ j, j ≠ i → s1.argv[j]? = s.argv[j]?) ∧
      ((isOption tok = false ∧ s1.p = s.p ∧ s.infile = 0 ∧ s1.infile = i) ∨
       (isOption tok = true ∧ s1.infile = s.infile ∧
         ∃ tok1, optionToken b env i tok s.p = .cont s1.p tok1 false)) := by
  unfold scanToken at h
  split_ifs at h with h1 h2
  · split at h
    · cases h
    · rename_i p tok1 err heq
      split_ifs at h with h3
      cases h
      refine ⟨by simp, ?_, Or.inr ⟨h1, rfl, tok1, ?_⟩⟩
      · intro j hj
        simp [List.getElem?_set, Ne.symm hj]
      · simp only [Bool.not_eq_true] at h3
        rw [heq, h3]
  · cases h
    refine ⟨rfl, fun j _ => rfl, Or.inl ⟨by simpa using h1, rfl, h2, rfl⟩⟩

/-- Invariants of a scan that comes to its end: for at most 255 tokens the loop visits the
indices in increasing order, each token as it was given. -/
theorem scanLoop_done_inv (b : Build) (env : Env) (argv0 : List (List Char))
    (Inv : Nat → ScanState → Prop) (hlen : argv0.length ≤ 255)
    (hstep : ∀ i tok s s1, argv0[i]? = some tok → Inv i s →
      scanToken b env i tok s = .inr s1 → Inv (i + 1) s1) :
    ∀ fuel i s r, (∀ j, i ≤ j → s.argv[j]? = argv0[j]?) → s.argv.length = argv0.length →
      i ≤ argv0.length → Inv i s → scanLoop b env fuel i s = some (.done r) →
      Inv argv0.length r := by
  intro fuel
  induction fuel with
  | zero => intro i s r _ _ _ _ h; simp [scanLoop] at h
  | succ fuel ih =>
    intro i s r hargv hl hi hinv h
    unfold scanLoop at h
    by_cases hlt : i < s.argv.length
    · rw [if_pos hlt] at h
      have hget : s.argv[i]? = some (s.argv[i]) := List.getElem?_eq_getElem hlt
      rw [hget] at h
      simp only at h
      have h0 : argv0[i]? = some (s.argv[i]) := by rw [← hargv i (le_refl i)]; exact hget
      cases hst : scanToken b env i (s.argv[i]) s with
      | inl r1 =>
        rw [hst] at h
        simp only [Option.some.injEq] at h
        exact absurd (h ▸ hst) (scanToken_inl_ne_done b env i _ s r)
      | inr s1 =>
        rw [hst] at h
        simp only at h
        obtain ⟨hl1, hne, _⟩ := scanToken_inr b env i _ s s1 hst
        have hmod : (i + 1) % 256 = i + 1 := Nat.mod_eq_of_lt (by omega)
        rw [hmod] at h
        refine ih (i + 1) s1 r ?_ (by omega) (by omega) (hstep i _ s s1 h0 hinv hst) h
        intro j hj
        rw [hne j (by omega)]
        exact hargv j (by omega)
    · rw [if_neg hlt] at h
      simp only [Option.some.injEq, ScanResult.done.injEq] at h
      have : i = argv0.length := by omega
      rw [← h, ← this]; exact hinv

/-- With more than 255 tokens the loop condition never fails. -/
theorem scanLoop_ne_done_of_long (b : Build) (env : Env) :
    ∀ fuel i s r, 256 ≤ s.argv.length → i < 256 → scanLoop b env fuel i s ≠ some (.done r) := by
  intro fuel
  induction fuel with
  | zero => intro i s r _ _ h; simp [scanLoop] at h
  | succ fuel ih =>
    intro i s r hl hi h
    unfold scanLoop at h
    have hlt : i < s.argv.length := by omega
    rw [if_pos hlt] at h
    have hget : s.argv[i]? = some (s.argv[i]) := List.getElem?_eq_getElem hlt
    rw [hget] at h
    simp only at h
    cases hst : scanToken b env i (s.argv[i]) s with
    | inl r1 =>
      rw [hst] at h
      simp only [Option.some.injEq] at h
      exact absurd (h ▸ hst) (scanToken_inl_ne_done b env i _ s r)
    | inr s1 =>
      rw [hst] at h
      simp only at h
      obtain ⟨hl1, _, _⟩ := scanToken_inr b env i _ s s1 hst
      exact ih ((i + 1) % 256) s1 r (by omega) (Nat.mod_lt _ (by decide)) h

/-- With at most 255 tokens the scan loop ends: one pass per token that is left and one for
the loop condition are enough. -/
theorem scanLoop_terminates (b : Build) (env : Env) :
    ∀ fuel i s, s.argv.length ≤ 255 → i ≤ s.argv.length → s.argv.length - i < fuel →
      (scanLoop b env fuel i s).isSome = true := by
  intro fuel
  induction fuel with
  | zero => intro i s _ _ h; exact absurd h (Nat.not_lt_zero _)
  | succ fuel ih =>
    intro i s hl hi hf
    unfold scanLoop
    by_cases hlt : i < s.argv.length
    · rw [if_pos hlt]
      have hget : s.argv[i]? = some (s.argv[i]) := List.getElem?_eq_getElem hlt
      rw [hget]
      simp only
      cases hst : scanToken b env i (s.argv[i]) s with
      | inl r1 => rfl
      | inr s1 =>
        simp only
        obtain ⟨hl1, _, _⟩ := scanToken_inr b env i _ s s1 hst
        have hmod : (i + 1) % 256 = i + 1 := Nat.mod_eq_of_lt (by omega)
        rw [hmod]
        exact ih (i + 1) s1 (by omega) (by omega) (by omega)
    · rw [if_neg hlt]; rfl

/-- A scan from index 0 that comes to its end has visited every token once, in order. -/
theorem scan_done_inv (b : Build) (env : Env) (argv : List (List Char)) (p : Player)
    (Inv : Nat → ScanState → Prop) (fuel : Nat) (r : ScanState)
    (h0 : Inv 0 { p := p, argv := argv, infile := 0 })
    (hstep : ∀ i tok s s1, argv[i]? = some tok → Inv i s →
      scanToken b env i tok s = .inr s1 → Inv (i + 1) s1)
    (h : scanLoop b env fuel 0 { p := p, argv := argv, infile := 0 } = some (.done r)) :
    Inv argv.length r ∧ argv.length ≤ 255 := by
  by_cases hlen : argv.length ≤ 255
  · exact ⟨scanLoop_done_inv b env argv Inv hlen hstep fuel 0 _ r (fun _ _ => rfl) rfl
      (Nat.zero_le _) h0 h, hlen⟩
  · exact absurd h (scanLoop_ne_done_of_long b env fuel 0 _ r (by simp only; omega) (by decide))

/-! ## Effect of one option on the player -/

theorem optionBody_file_mono (env : Env) (i : Nat) (tok : List Char) (p p1 : Player)
    (k : OptKind) (tok1 : List Char) (err : Bool)
    (h : optionBody env i tok p k = .cont p1 tok1 err)
    (hf : p.m_driver.file = true) : p1.m_driver.file = true := by
  cases k <;> simp only [optionBody] at h <;>
    first
    | (cases h; done)
    | (injection h with h1 h2 h3; subst h1; simp [hf]; done)
    | (injection h with h1 h2 h3; subst h1; split_ifs <;> simp [hf])
    | (split_ifs at h <;> injection h with h1 h2 h3 <;> subst h1 <;> simp [hf])

theorem optionBody_outfile_mono (env : Env) (i : Nat) (tok : List Char) (p p1 : Player)
    (k : OptKind) (tok1 : List Char) (err : Bool)
    (h : optionBody env i tok p k = .cont p1 tok1 err)
    (hf : p.m_outfile.isSome = true) : p1.m_outfile.isSome = true := by
  cases k <;> simp only [optionBody] at h <;>
    first
    | (cases h; done)
    | (injection h with h1 h2 h3; subst h1; simp [hf]; done)
    | (injection h with h1 h2 h3; subst h1; split_ifs <;> simp [hf])
    | (split_ifs at h <;> injection h with h1 h2 h3 <;> subst h1 <;> simp [hf])

theorem optionBody_timer_frame (env : Env) (i : Nat) (tok : List Char) (p p1 : Player)
    (k : OptKind) (tok1 : List Char) (err : Bool)
    (h : optionBody env i tok p k = .cont p1 tok1 err) (hk : k ≠ .length) :
    p1.m_timer.length = p.m_timer.length ∧ p1.m_timer.valid = p.m_timer.valid := by
  cases k <;> simp only [optionBody] at h <;>
    first
    | (cases h; done)
    | (exact absurd rfl hk)
    | (injection h with h1 h2 h3; subst h1; simp; done)
    | (injection h with h1 h2 h3; subst h1; split_ifs <;> simp)
    | (split_ifs at h <;> injection h with h1 h2 h3 <;> subst h1 <;> simp)

theorem parseTime_time_indep (z : List Char) (t t0 : Nat) (h : (parseTime z t).ok = true) :
    (parseTime z t).time = (parseTime z t0).time := by
  unfold parseTime at h ⊢
  by_cases h1 : z.isEmpty = true
  · simp [h1] at h
  · simp only [h1, Bool.false_eq_true, if_false] at h ⊢
    cases hs : splitFirst ':' z with
    | none => simp only [hs]
    | some ma =>
      obtain ⟨m, a⟩ := ma
      simp only [hs] at h ⊢
      by_cases h2 : atoi m < 0 ∨ atoi m > 99
      · simp [h2] at h
      · simp only [h2, if_false] at h ⊢
        cases hm : parseMillis a with
        | none => simp [hm] at h
        | some ms =>
          obtain ⟨ms, st⟩ := ms
          simp only [hm] at h ⊢
          by_cases h3 : atoi st < 0 ∨ atoi st > 59
          · simp [h3] at h
          · simp only [h3, if_false]

theorem optionBody_length (env : Env) (i : Nat) (tok : List Char) (p p1 : Player)
    (tok1 : List Char) (h : optionBody env i tok p .length = .cont p1 tok1 false) :
    p1.m_timer.valid = true ∧ p1.m_timer.length = (parseTime (tok.drop 2) 0).time := by
  simp only [optionBody] at h
  injection h with h1 h2 h3
  subst h1
  simp only [Bool.not_eq_false'] at h3
  exact ⟨rfl, parseTime_time_indep _ _ _ h3⟩

theorem optionBody_wav (env : Env) (i : Nat) (tok : List Char) (p p1 : Player)
    (tok1 : List Char) (err : Bool) (h : optionBody env i tok p .wav = .cont p1 tok1 err) :
    p1.m_driver.file = true ∧
      (charAt env i tok (if charAt env i tok 1 = 'w' then 2 else 5) ≠ Char.ofNat 0 →
        p1.m_outfile.isSome = true) := by
  simp only [optionBody] at h
  injection h with h1 h2 h3
  subst h1
  refine ⟨rfl, fun hc => ?_⟩
  simp [hc]

theorem optionBody_au (env : Env) (i : Nat) (tok : List Char) (p p1 : Player)
    (tok1 : List Char) (err : Bool) (h : optionBody env i tok p .au = .cont p1 tok1 err) :
    p1.m_driver.file = true ∧
      (charAt env i tok 4 ≠ Char.ofNat 0 → p1.m_outfile.isSome = true) := by
  simp only [optionBody] at h
  injection h with h1 h2 h3
  subst h1
  refine ⟨rfl, fun hc => ?_⟩
  simp [hc]

/-! ## Effect of the flags named in the statements -/

theorem eq_append_of_take (tok l : List Char) (n : Nat) (h : tok.take n = l) :
    tok = l ++ tok.drop n := by
  rw [← h, List.take_append_drop]

theorem isOption_fileFlag (tok : List Char) (hf : IsFileFlag tok) : isOption tok = true := by
  rcases hf with h | h | h
  · rw [eq_append_of_take tok _ 2 h]; rfl
  · rw [eq_append_of_take tok _ 5 h]; rfl
  · rw [eq_append_of_take tok _ 4 h]; rfl

theorem optionToken_w (b : Build) (env : Env) (i : Nat) (rest : List Char) (p : Player) :
    optionToken b env i ('-' :: 'w' :: rest) p
      = optionBody env i ('-' :: 'w' :: rest) p .wav := by
  unfold optionToken
  rw [charAt_one]
  simp only [List.drop_succ_cons, List.drop_zero]
  rw [optKind_w]

theorem optionToken_wav (b : Build) (env : Env) (i : Nat) (rest : List Char) (p : Player) :
    optionToken b env i ('-' :: '-' :: 'w' :: 'a' :: 'v' :: rest) p
      = optionBody env i ('-' :: '-' :: 'w' :: 'a' :: 'v' :: rest) p .wav := by
  unfold optionToken
  rw [charAt_one]
  simp only [List.drop_succ_cons, List.drop_zero]
  rw [optKind_wav]

theorem optionToken_au (b : Build) (env : Env) (i : Nat) (rest : List Char) (p : Player) :
    optionToken b env i ('-' :: '-' :: 'a' :: 'u' :: rest) p
      = optionBody env i ('-' :: '-' :: 'a' :: 'u' :: rest) p .au := by
  unfold optionToken
  rw [charAt_one]
  simp only [List.drop_succ_cons, List.drop_zero]
  rw [optKind_au]

theorem optionToken_fileFlag (b : Build) (env : Env) (i : Nat) (tok : List Char)
    (p p1 : Player) (tok1 : List Char) (err : Bool) (hf : IsFileFlag tok)
    (h : optionToken b env i tok p = .cont p1 tok1 err) : p1.m_driver.file = true := by
  rcases hf with hf | hf | hf
  · have e := eq_append_of_take tok _ 2 hf
    simp only [List.cons_append, List.nil_append] at e
    rw [e, optionToken_w] at h
    exact (optionBody_wav env i _ p p1 tok1 err h).1
  · have e := eq_append_of_take tok _ 5 hf
    simp only [List.cons_append, List.nil_append] at e
    rw [e, optionToken_wav] at h
    exact (optionBody_wav env i _ p p1 tok1 err h).1
  · have e := eq_append_of_take tok _ 4 hf
    simp only [List.cons_append, List.nil_append] at e
    rw [e, optionToken_au] at h
    exact (optionBody_au env i _ p p1 tok1 err h).1

theorem isFileFlag_of_named (tok : List Char) (hf : IsNamedFileFlag tok) : IsFileFlag tok := by
  rcases hf with h | h | h
  · exact Or.inl h.1
  · exact Or.inr (Or.inl h.1)
  · exact Or.inr (Or.inr h.1)

theorem optionToken_namedFileFlag (b : Build) (env : Env) (i : Nat) (tok : List Char)
    (p p1 : Player) (tok1 : List Char) (err : Bool) (hf : IsNamedFileFlag tok)
    (h : optionToken b env i tok p = .cont p1 tok1 err) : p1.m_outfile.isSome = true := by
  rcases hf with ⟨hf, hc⟩ | ⟨hf, hc⟩ | ⟨hf, hc⟩
  · have e := eq_append_of_take tok _ 2 hf
    simp only [List.cons_append, List.nil_append] at e
    have hc2 := hasCharAt_charAt env i tok 2 hc
    rw [e] at hc2
    rw [e, optionToken_w] at h
    apply (optionBody_wav env i _ p p1 tok1 err h).2
    rw [charAt_one, if_pos rfl]
    exact hc2
  · have e := eq_append_of_take tok _ 5 hf
    simp only [List.cons_append, List.nil_append] at e
    have hc2 := hasCharAt_charAt env i tok 5 hc
    rw [e] at hc2
    rw [e, optionToken_wav] at h
    apply (optionBody_wav env i _ p p1 tok1 err h).2
    rw [charAt_one, if_neg (by decide)]
    exact hc2
  · have e := eq_append_of_take tok _ 4 hf
    simp only [List.cons_append, List.nil_append] at e
    have hc2 := hasCharAt_charAt env i tok 4 hc
    rw [e] at hc2
    rw [e, optionToken_au] at h
    exact (optionBody_au env i _ p p1 tok1 err h).2 hc2

theorem lengthArg_some (b : Build) (env : Env) (i : Nat) (tok z : List Char) (p : Player)
    (h : lengthArg b tok = some z) :
    isOption tok = true ∧ z = tok.drop 2 ∧
      optionToken b env i tok p = optionBody env i tok p .length := by
  unfold lengthArg at h
  split_ifs at h with hc
  obtain ⟨h2, h3⟩ := hc
  have e := eq_append_of_take tok _ 2 h2
  simp only [List.cons_append, List.nil_append] at e
  simp only [Option.some.injEq] at h
  refine ⟨by rw [e]; rfl, h.symm, ?_⟩
  have h5 : ¬ (b.FEAT_THIRD_SID = true ∧ List.take 2 ('t' :: tok.drop 2) = ['t', 's']) := by
    rintro ⟨hb, hs⟩
    apply h3
    refine ⟨hb, ?_⟩
    rw [e]
    simpa using hs
  unfold optionToken
  rw [e, charAt_one]
  simp only [List.drop_succ_cons, List.drop_zero]
  rw [optKind_of_length b _ h5]

theorem lengthArg_none (b : Build) (env : Env) (i : Nat) (tok : List Char)
    (h : lengthArg b tok = none) (ho : isOption tok = true) :
    optKind b (charAt env i tok 1) (tok.drop 1) ≠ .length := by
  obtain ⟨c1, rest, rfl⟩ := (isOption_iff tok).mp ho
  rw [charAt_one]
  simp only [List.drop_succ_cons, List.drop_zero]
  intro hk
  obtain ⟨h1, h2⟩ := optKind_length b c1 rest hk
  subst h1
  have hc : List.take 2 ('-' :: 't' :: rest) = ['-', 't'] ∧
      ¬ (b.FEAT_THIRD_SID = true ∧ List.take 3 ('-' :: 't' :: rest) = ['-', 't', 's']) := by
    refine ⟨by simp, ?_⟩
    rintro ⟨hb, hs⟩
    apply h2
    exact ⟨hb, by simpa using hs⟩
  unfold lengthArg at h
  rw [if_pos hc] at h
  exact Option.noConfusion h

/-! ## The part of args behind the scan -/

theorem forceSingle_frame (p : Player) :
    (forceSingle p).m_driver = p.m_driver ∧ (forceSingle p).m_timer = p.m_timer ∧
      (forceSingle p).m_track.loop = p.m_track.loop ∧
      (p.m_outfile.isSome = true → (forceSingle p).m_track.single = true) := by
  unfold forceSingle
  split_ifs with h <;> simp [h]

theorem dropLoop_frame (p : Player) :
    (dropLoop p).m_driver = p.m_driver ∧ (dropLoop p).m_timer = p.m_timer ∧
      (dropLoop p).m_track.single = p.m_track.single ∧
      (p.m_driver.output.code > Output.OUT_SOUNDCARD.code → (dropLoop p).m_track.loop = false) := by
  unfold dropLoop
  split_ifs with h <;> simp [h]

theorem selectTrack_frame (env : Env) (name : List Char) (p : Player) :
    (selectTrack env name p).m_driver = p.m_driver ∧ (selectTrack env name p).m_timer = p.m_timer ∧
      (selectTrack env name p).m_track.single = p.m_track.single ∧
      (selectTrack env name p).m_track.loop = p.m_track.loop := by
  simp [selectTrack]

theorem finishEngine_one (b : Build) (env : Env) (p p1 : Player)
    (h : finishEngine b env p = (1, p1)) : p1 = p := by
  unfold finishEngine at h
  split_ifs at h <;> simp_all

theorem finishTimer_one (b : Build) (env : Env) (p p1 : Player)
    (h : finishTimer b env p = (1, p1)) :
    p1.m_driver = p.m_driver ∧ p1.m_track = p.m_track := by
  unfold finishTimer at h
  split_ifs at h with h1 h2
  · simp at h
  · split at h
    · simp at h
    · rw [finishEngine_one b env _ p1 h]
      simp [defaultLength]
  · rw [finishEngine_one b env _ p1 h]
    exact ⟨rfl, rfl⟩

theorem finishTimer_zero_record (b : Build) (env : Env) (p : Player)
    (hfile : p.m_driver.file = true) (hvalid : p.m_timer.valid = true)
    (hlen : p.m_timer.length = 0) : finishTimer b env p = (-1, p) := by
  unfold finishTimer
  rw [if_pos ⟨hfile, hvalid, hlen⟩]

theorem finish_zero_record (b : Build) (env : Env) (s : ScanState)
    (hload : (loadTune env (s.argv.getD s.infile [])).2 = true)
    (hfile : s.p.m_driver.file = true) (hvalid : s.p.m_timer.valid = true)
    (hlen : s.p.m_timer.length = 0) : (finish b env s).1 = -1 := by
  unfold finish
  rw [if_neg (by rw [hload]; decide)]
  unfold finishLoaded
  split_ifs with h
  · rfl
  · rw [finishTimer_zero_record]
    · rw [(selectTrack_frame _ _ _).1, (dropLoop_frame _).1, (forceSingle_frame _).1]
      exact hfile
    · rw [(selectTrack_frame _ _ _).2.1, (dropLoop_frame _).2.1, (forceSingle_frame _).2.1]
      exact hvalid
    · rw [(selectTrack_frame _ _ _).2.1, (dropLoop_frame _).2.1, (forceSingle_frame _).2.1]
      exact hlen

theorem finish_one (b : Build) (env : Env) (s : ScanState) (p1 : Player)
    (h : finish b env s = (1, p1)) :
    p1.m_driver = s.p.m_driver ∧ (s.p.m_outfile.isSome = true → p1.m_track.single = true) ∧
      (s.p.m_driver.output.code > Output.OUT_SOUNDCARD.code → p1.m_track.loop = false) := by
  unfold finish at h
  split_ifs at h with h1
  · simp at h
  · unfold finishLoaded at h
    split_ifs at h with h2
    · simp at h
    · obtain ⟨hd, ht⟩ := finishTimer_one b env _ p1 h
      rw [hd, ht, (selectTrack_frame _ _ _).1, (selectTrack_frame _ _ _).2.2.1,
        (selectTrack_frame _ _ _).2.2.2, (dropLoop_frame _).1, (dropLoop_frame _).2.2.1,
        (forceSingle_frame _).1]
      refine ⟨rfl, fun ho => (forceSingle_frame _).2.2.2 ho, fun hc => ?_⟩
      apply (dropLoop_frame _).2.2.2
      rw [(forceSingle_frame _).1]
      exact hc

theorem optKind_nullOutput (b : Build) (c1 : Char) (rest : List Char) (k : OptKind)
    (hk : k = .hardsid ∨ k = .exsid ∨ k = .none ∨ k = .noaudio)
    (h : optKind b c1 (c1 :: rest) = k) : IsNullOutputFlag b ('-' :: c1 :: rest) := by
  unfold optKind at h
  by_cases h1 : c1 = 'h' ∨ c1 :: rest = ['-', 'h', 'e', 'l', 'p']
  · rw [if_pos h1] at h
    rcases hk with hk | hk | hk | hk <;> rw [hk] at h <;> cases h
  rw [if_neg h1] at h
  by_cases h2 : c1 :: rest = ['-', 'h', 'e', 'l', 'p', '-', 'd', 'b', 'g']
  · rw [if_pos h2] at h
    rcases hk with hk | hk | hk | hk <;> rw [hk] at h <;> cases h
  rw [if_neg h2] at h
  by_cases h3 : c1 = 'b'
  · rw [if_pos h3] at h
    rcases hk with hk | hk | hk | hk <;> rw [hk] at h <;> cases h
  rw [if_neg h3] at h
  by_cases h4 : List.take 2 (c1 :: rest) = ['d', 's']
  · rw [if_pos h4] at h
    rcases hk with hk | hk | hk | hk <;> rw [hk] at h <;> cases h
  rw [if_neg h4] at h
  by_cases h5 : b.FEAT_THIRD_SID = true ∧ List.take 2 (c1 :: rest) = ['t', 's']
  · rw [if_pos h5] at h
    rcases hk with hk | hk | hk | hk <;> rw [hk] at h <;> cases h
  rw [if_neg h5] at h
  by_cases h6 : c1 = 'f'
  · rw [if_pos h6] at h
    rcases hk with hk | hk | hk | hk <;> rw [hk] at h <;> cases h
  rw [if_neg h6] at h
  by_cases h7 : List.take 2 (c1 :: rest) = ['n', 'f']
  · rw [if_pos h7] at h
    rcases hk with hk | hk | hk | hk <;> rw [hk] at h <;> cases h
  rw [if_neg h7] at h
  by_cases h8 : c1 = 'o'
  · rw [if_pos h8] at h
    rcases hk with hk | hk | hk | hk <;> rw [hk] at h <;> cases h
  rw [if_neg h8] at h
  by_cases h9 : c1 = 'p'
  · rw [if_pos h9] at h
    rcases hk with hk | hk | hk | hk <;> rw [hk] at h <;> cases h
  rw [if_neg h9] at h
  by_cases h10 : c1 = 'q'
  · rw [if_pos h10] at h
    rcases hk with hk | hk | hk | hk <;> rw [hk] at h <;> cases h
  rw [if_neg h10] at h
  by_cases h11 : c1 = 't'
  · rw [if_pos h11] at h
    rcases hk with hk | hk | hk | hk <;> rw [hk] at h <;> cases h
  rw [if_neg h11] at h
  by_cases h12 : c1 = 'r'
  · rw [if_pos h12] at h
    rcases hk with hk | hk | hk | hk <;> rw [hk] at h <;> cases h
  rw [if_neg h12] at h
  by_cases h13 : c1 = 's'
  · rw [if_pos h13] at h
    rcases hk with hk | hk | hk | hk <;> rw [hk] at h <;> cases h
  rw [if_neg h13] at h
  by_cases h14 : c1 = 'm'
  · rw [if_pos h14] at h
    rcases hk with hk | hk | hk | hk <;> rw [hk] at h <;> cases h
  rw [if_neg h14] at h
  by_cases h15 : b.FEAT_DIGIBOOST = true ∧ c1 :: rest = ['-', 'd', 'i', 'g', 'i', 'b', 'o', 'o', 's', 't']
  · rw [if_pos h15] at h
    rcases hk with hk | hk | hk | hk <;> rw [hk] at h <;> cases h
  rw [if_neg h15] at h
  by_cases h16 : c1 = 'v'
  · rw [if_pos h16] at h
    rcases hk with hk | hk | hk | hk <;> rw [hk] at h <;> cases h
  rw [if_neg h16] at h
  by_cases h17 : List.take 7 (c1 :: rest) = ['-', 'd', 'e', 'l', 'a', 'y', '=']
  · rw [if_pos h17] at h
    rcases hk with hk | hk | hk | hk <;> rw [hk] at h <;> cases h
  rw [if_neg h17] at h
  by_cases h18 : c1 = 'w' ∨ List.take 4 (c1 :: rest) = ['-', 'w', 'a', 'v']
  · rw [if_pos h18] at h
    rcases hk with hk | hk | hk | hk <;> rw [hk] at h <;> cases h
  rw [if_neg h18] at h
  by_cases h19 : List.take 3 (c1 :: rest) = ['-', 'a', 'u']
  · rw [if_pos h19] at h
    rcases hk with hk | hk | hk | hk <;> rw [hk] at h <;> cases h
  rw [if_neg h19] at h
  by_cases h20 : List.take 5 (c1 :: rest) = ['-', 'i', 'n', 'f', 'o']
  · rw [if_pos h20] at h
    rcases hk with hk | hk | hk | hk <;> rw [hk] at h <;> cases h
  rw [if_neg h20] at h
  by_cases h21 : b.HAVE_RESIDFP = true ∧ c1 :: rest = ['-', 'r', 'e', 's', 'i', 'd', 'f', 'p']
  · rw [if_pos h21] at h
    rcases hk with hk | hk | hk | hk <;> rw [hk] at h <;> cases h
  rw [if_neg h21] at h
  by_cases h22 : b.HAVE_RESID = true ∧ c1 :: rest = ['-', 'r', 'e', 's', 'i', 'd']
  · rw [if_pos h22] at h
    rcases hk with hk | hk | hk | hk <;> rw [hk] at h <;> cases h
  rw [if_neg h22] at h
  by_cases h23 : b.HAVE_HARDSID = true ∧ c1 :: rest = ['-', 'h', 'a', 'r', 'd', 's', 'i', 'd']
  · rw [if_pos h23] at h
    exact Or.inr (Or.inr (Or.inl ⟨h23.1, by rw [h23.2]⟩))
  rw [if_neg h23] at h
  by_cases h24 : b.HAVE_EXSID = true ∧ c1 :: rest = ['-', 'e', 'x', 's', 'i', 'd']
  · rw [if_pos h24] at h
    exact Or.inr (Or.inr (Or.inr ⟨h24.1, by rw [h24.2]⟩))
  rw [if_neg h24] at h
  by_cases h25 : c1 :: rest = ['-', 'n', 'o', 'n', 'e']
  · rw [if_pos h25] at h
    exact Or.inl (by rw [h25])
  rw [if_neg h25] at h
  by_cases h26 : c1 :: rest = ['-', 'n', 'o', 's', 'i', 'd']
  · rw [if_pos h26] at h
    rcases hk with hk | hk | hk | hk <;> rw [hk] at h <;> cases h
  rw [if_neg h26] at h
  by_cases h27 : c1 :: rest = ['-', 'n', 'o', 'a', 'u', 'd', 'i', 'o']
  · rw [if_pos h27] at h
    exact Or.inr (Or.inl (by rw [h27]))
  rw [if_neg h27] at h
  by_cases h28 : c1 :: rest = ['-', 'c', 'p', 'u', '-', 'd', 'e', 'b', 'u', 'g']
  · rw [if_pos h28] at h
    rcases hk with hk | hk | hk | hk <;> rw [hk] at h <;> cases h
  rw [if_neg h28] at h
  rcases hk with hk | hk | hk | hk <;> rw [hk] at h <;> cases h

/-! ## Invariants of the scan -/

theorem take_succ_of_get (argv : List (List Char)) (i : Nat) (tok : List Char)
    (h : argv[i]? = some tok) : argv.take (i + 1) = argv.take i ++ [tok] := by
  rw [List.take_succ, h]; rfl

/-- The player after a pass of the loop body that does not end the scan. -/
theorem scanToken_player (b : Build) (env : Env) (i : Nat) (tok : List Char) (s s1 : ScanState)
    (h : scanToken b env i tok s = .inr s1) :
    (isOption tok = false ∧ s1.p = s.p) ∨
      (isOption tok = true ∧ ∃ tok1, optionBody env i tok s.p
        (optKind b (charAt env i tok 1) (tok.drop 1)) = .cont s1.p tok1 false) := by
  obtain ⟨_, _, h3 | h3⟩ := scanToken_inr b env i tok s s1 h
  · exact Or.inl ⟨h3.1, h3.2.1⟩
  · obtain ⟨ho, _, tok1, ht⟩ := h3
    exact Or.inr ⟨ho, tok1, ht⟩

theorem optionBody_output (env : Env) (i : Nat) (tok : List Char) (p p1 : Player)
    (k : OptKind) (tok1 : List Char) (err : Bool)
    (h : optionBody env i tok p k = .cont p1 tok1 err)
    (hk : ¬ (k = .hardsid ∨ k = .exsid ∨ k = .none ∨ k = .noaudio))
    (ho : p.m_driver.output = Output.OUT_WAV ∨ p.m_driver.output = Output.OUT_AU) :
    p1.m_driver.output = Output.OUT_WAV ∨ p1.m_driver.output = Output.OUT_AU := by
  cases k <;> simp only [optionBody] at h <;>
    first
    | (cases h; done)
    | (exfalso; apply hk; simp; done)
    | (injection h with h1 h2 h3; subst h1; simp [ho]; done)
    | (injection h with h1 h2 h3; subst h1; split_ifs <;> simp [ho])
    | (split_ifs at h <;> injection h with h1 h2 h3 <;> subst h1 <;> simp [ho])

theorem optionToken_fileFlag_output (b : Build) (env : Env) (i : Nat) (tok : List Char)
    (p p1 : Player) (tok1 : List Char) (err : Bool) (hf : IsFileFlag tok)
    (h : optionToken b env i tok p = .cont p1 tok1 err) :
    p1.m_driver.output = Output.OUT_WAV ∨ p1.m_driver.output = Output.OUT_AU := by
  rcases hf with hf | hf | hf
  · have e := eq_append_of_take tok _ 2 hf
    simp only [List.cons_append, List.nil_append] at e
    rw [e, optionToken_w] at h
    simp only [optionBody] at h
    injection h with h1 h2 h3
    subst h1
    exact Or.inl rfl
  · have e := eq_append_of_take tok _ 5 hf
    simp only [List.cons_append, List.nil_append] at e
    rw [e, optionToken_wav] at h
    simp only [optionBody] at h
    injection h with h1 h2 h3
    subst h1
    exact Or.inl rfl
  · have e := eq_append_of_take tok _ 4 hf
    simp only [List.cons_append, List.nil_append] at e
    rw [e, optionToken_au] at h
    simp only [optionBody] at h
    injection h with h1 h2 h3
    subst h1
    exact Or.inr rfl

theorem parseTime_ok_indep (z : List Char) (t t0 : Nat) :
    (parseTime z t).ok = (parseTime z t0).ok := by
  unfold parseTime
  by_cases h1 : z.isEmpty = true
  · simp [h1]
  · simp only [h1, Bool.false_eq_true, if_false]
    cases hs : splitFirst ':' z with
    | none => simp only
    | some ma =>
      obtain ⟨m, a⟩ := ma
      simp only
      by_cases h2 : atoi m < 0 ∨ atoi m > 99
      · simp only [h2, if_true]
      · simp only [h2, if_false]
        cases hm : parseMillis a with
        | none => simp only
        | some ms =>
          obtain ⟨ms, st⟩ := ms
          simp only
          by_cases h3 : atoi st < 0 ∨ atoi st > 59
          · simp only [h3, if_true]
          · simp only [h3, if_false]

theorem playLengthGiven_snoc (b : Build) (l : List (List Char)) (tok : List Char) :
    playLengthGiven b (l ++ [tok]) =
      match lengthArg b tok with
      | some z => if (parseTime z 0).ok = true then some (parseTime z 0).time else none
      | none => playLengthGiven b l := by
  simp only [playLengthGiven, List.foldl_append, List.foldl_cons, List.foldl_nil]

/-- After a file output flag the file flag of the driver is set. -/
theorem scan_file_inv (b : Build) (env : Env) (argv : List (List Char)) (i : Nat)
    (tok : List Char) (s s1 : ScanState) (hget : argv[i]? = some tok)
    (hinv : (∃ t ∈ argv.take i, IsFileFlag t) → s.p.m_driver.file = true)
    (hst : scanToken b env i tok s = .inr s1) :
    (∃ t ∈ argv.take (i + 1), IsFileFlag t) → s1.p.m_driver.file = true := by
  rintro ⟨t, ht, hf⟩
  rw [take_succ_of_get argv i tok hget, List.mem_append, List.mem_singleton] at ht
  rcases scanToken_player b env i tok s s1 hst with ⟨ho, hp⟩ | ⟨ho, tok1, hb⟩
  · rcases ht with ht | ht
    · rw [hp]; exact hinv ⟨t, ht, hf⟩
    · rw [ht] at hf
      rw [isOption_fileFlag tok hf] at ho
      exact absurd ho (by decide)
  · rcases ht with ht | ht
    · exact optionBody_file_mono env i tok s.p s1.p _ tok1 false hb (hinv ⟨t, ht, hf⟩)
    · rw [ht] at hf
      exact optionToken_fileFlag b env i tok s.p s1.p tok1 false hf hb

/-- After a file output flag with a name the output file is set. -/
theorem scan_outfile_inv (b : Build) (env : Env) (argv : List (List Char)) (i : Nat)
    (tok : List Char) (s s1 : ScanState) (hget : argv[i]? = some tok)
    (hinv : (∃ t ∈ argv.take i, IsNamedFileFlag t) → s.p.m_outfile.isSome = true)
    (hst : scanToken b env i tok s = .inr s1) :
    (∃ t ∈ argv.take (i + 1), IsNamedFileFlag t) → s1.p.m_outfile.isSome = true := by
  rintro ⟨t, ht, hf⟩
  rw [take_succ_of_get argv i tok hget, List.mem_append, List.mem_singleton] at ht
  rcases scanToken_player b env i tok s s1 hst with ⟨ho, hp⟩ | ⟨ho, tok1, hb⟩
  · rcases ht with ht | ht
    · rw [hp]; exact hinv ⟨t, ht, hf⟩
    · rw [ht] at hf
      rw [isOption_fileFlag tok (isFileFlag_of_named tok hf)] at ho
      exact absurd ho (by decide)
  · rcases ht with ht | ht
    · exact optionBody_outfile_mono env i tok s.p s1.p _ tok1 false hb (hinv ⟨t, ht, hf⟩)
    · rw [ht] at hf
      exact optionToken_namedFileFlag b env i tok s.p s1.p tok1 false hf hb

/-- The timer holds the play length the tokens visited so far give. -/
theorem scan_length_inv (b : Build) (env : Env) (argv : List (List Char)) (i : Nat)
    (tok : List Char) (s s1 : ScanState) (hget : argv[i]? = some tok)
    (hinv : ∀ v, playLengthGiven b (argv.take i) = some v →
      s.p.m_timer.valid = true ∧ s.p.m_timer.length = v)
    (hst : scanToken b env i tok s = .inr s1) :
    ∀ v, playLengthGiven b (argv.take (i + 1)) = some v →
      s1.p.m_timer.valid = true ∧ s1.p.m_timer.length = v := by
  intro v hv
  rw [take_succ_of_get argv i tok hget, playLengthGiven_snoc] at hv
  rcases scanToken_player b env i tok s s1 hst with ⟨ho, hp⟩ | ⟨ho, tok1, hb⟩
  · cases hl : lengthArg b tok with
    | none => rw [hl] at hv; rw [hp]; exact hinv v hv
    | some z =>
      rw [(lengthArg_some b env i tok z s.p hl).1] at ho
      exact absurd ho (by decide)
  · cases hl : lengthArg b tok with
    | none =>
      rw [hl] at hv
      obtain ⟨h1, h2⟩ := optionBody_timer_frame env i tok s.p s1.p _ tok1 false hb
        (lengthArg_none b env i tok hl ho)
      rw [h1, h2]; exact hinv v hv
    | some z =>
      rw [hl] at hv
      simp only at hv
      obtain ⟨_, hz, hk⟩ := lengthArg_some b env i tok z s.p hl
      have hb2 : optionBody env i tok s.p .length = .cont s1.p tok1 false := by
        rw [← hk]; exact hb
      obtain ⟨h1, h2⟩ := optionBody_length env i tok s.p s1.p tok1 hb2
      split_ifs at hv with hok
      simp only [Option.some.injEq] at hv
      rw [hz] at hv
      exact ⟨h1, by rw [h2, hv]⟩

theorem args_of_done (b : Build) (env : Env) (fuel : Nat) (argv : List (List Char)) (p : Player)
    (r : ScanState) (hne : argv ≠ [])
    (hscan : scanLoop b env fuel 0 { p := argDefaults p, argv := argv, infile := 0 }
      = some (.done r)) :
    args b env fuel argv p = some (finish b env r) := by
  unfold args
  rw [if_neg (by simpa using hne), hscan]

/-- A call of `args` that returns 1 has scanned every token and gone through the part behind
the scan. -/
theorem args_one (b : Build) (env : Env) (fuel : Nat) (argv : List (List Char)) (p : Player)
    (h : (args b env fuel argv p).map Prod.fst = some 1) :
    ∃ r p1, scanLoop b env fuel 0 { p := argDefaults p, argv := argv, infile := 0 }
        = some (.done r) ∧ finish b env r = (1, p1) ∧ args b env fuel argv p = some (1, p1) := by
  unfold args at h ⊢
  split_ifs at h ⊢ with h0
  · simp at h
  · cases hs : scanLoop b env fuel 0 { p := argDefaults p, argv := argv, infile := 0 } with
    | none => rw [hs] at h; simp at h
    | some res =>
      rw [hs] at h
      cases res with
      | help s => simp at h
      | syntaxError s i => simp at h
      | done r =>
        simp only [Option.map_some', Option.some.injEq] at h
        refine ⟨r, (finish b env r).2, rfl, ?_, ?_⟩
        · rw [← h]
        · simp only; rw [← h]

/-- While no null output flag is met, the file output selected by a file output flag
stays. -/
theorem scan_output_inv (b : Build) (env : Env) (pre post : List (List Char)) (ftok : List Char)
    (hf : IsFileFlag ftok) (hpost : ∀ t ∈ post, ¬ IsNullOutputFlag b t) (i : Nat)
    (tok : List Char) (s s1 : ScanState) (hget : (pre ++ ftok :: post)[i]? = some tok)
    (hinv : pre.length < i →
      s.p.m_driver.output = Output.OUT_WAV ∨ s.p.m_driver.output = Output.OUT_AU)
    (hst : scanToken b env i tok s = .inr s1) :
    pre.length < i + 1 →
      s1.p.m_driver.output = Output.OUT_WAV ∨ s1.p.m_driver.output = Output.OUT_AU := by
  intro hi
  by_cases he : i = pre.length
  · subst he
    rw [List.getElem?_append_right (le_refl _)] at hget
    simp only [Nat.sub_self, List.getElem?_cons_zero, Option.some.injEq] at hget
    subst hget
    rcases scanToken_player b env _ ftok s s1 hst with ⟨ho, _⟩ | ⟨_, tok1, hb⟩
    · rw [isOption_fileFlag ftok hf] at ho
      exact absurd ho (by decide)
    · exact optionToken_fileFlag_output b env _ ftok s.p s1.p tok1 false hf hb
  · have hlt : pre.length < i := by omega
    have hmem : tok ∈ post := by
      rw [List.getElem?_append_right (by omega)] at hget
      obtain ⟨k, hk⟩ : ∃ k, i - pre.length = k + 1 := ⟨i - pre.length - 1, by omega⟩
      rw [hk, List.getElem?_cons_succ] at hget
      exact List.getElem?_mem hget
    rcases scanToken_player b env i tok s s1 hst with ⟨_, hp⟩ | ⟨ho, tok1, hb⟩
    · rw [hp]; exact hinv hlt
    · refine optionBody_output env i tok s.p s1.p _ tok1 false hb ?_ (hinv hlt)
      intro hk
      obtain ⟨c1, rest, rfl⟩ := (isOption_iff tok).mp ho
      rw [charAt_one] at hk
      simp only [List.drop_succ_cons, List.drop_zero] at hk
      exact hpost _ hmem (optKind_nullOutput b c1 rest _ hk rfl)

/-! ## Lemmas about the configuration loader -/

theorem readTime_empty (pi : List Char → Option Int) (v : Int) :
    readTime pi [] v = (false, v) := rfl

theorem readInt_rejected (pi : List Char → Option Int) (v : List Char) (r : Int)
    (h : pi v = none) : readInt pi (some v) r = r := by
  unfold readInt readKey
  by_cases hv : v.isEmpty = true
  · simp [hv]
  · simp [hv, h]

theorem readDouble_rejected (pd : List Char → Option Rat) (v : List Char) (r : Rat)
    (h : pd v = none) : readDouble pd (some v) r = r := by
  unfold readDouble readKey
  by_cases hv : v.isEmpty = true
  · simp [hv]
  · simp [hv, h]

theorem readBool_rejected (pb : List Char → Option Bool) (v : List Char) (r : Bool)
    (h : pb v = none) : readBool pb (some v) r = r := by
  unfold readBool readKey
  by_cases hv : v.isEmpty = true
  · simp [hv]
  · simp [hv, h]

theorem readChar_rejected (pi : List Char → Option Int) (oob : Char) (v : List Char)
    (ch : Char) (h1 : v.head? ≠ some (Char.ofNat 39)) (h2 : pi v = none) :
    readChar pi oob (some v) ch = ch := by
  cases v with
  | nil => rfl
  | cons a l =>
    have ha : a ≠ Char.ofNat 39 := by simpa using h1
    simp [readChar, readString, strAt, ha, h2]

theorem readInt_empty (pi : List Char → Option Int) (r : Int) :
    readInt pi (some []) r = r := rfl

theorem readDouble_empty (pd : List Char → Option Rat) (r : Rat) :
    readDouble pd (some []) r = r := rfl

theorem readBool_empty (pb : List Char → Option Bool) (r : Bool) :
    readBool pb (some []) r = r := rfl

theorem readChar_empty (pi : List Char → Option Int) (oob : Char) (ch : Char) :
    readChar pi oob (some []) ch = ch := rfl

set_option maxHeartbeats 4000000 in
theorem read_rejected (b : Build) (f : Int) (E : IniEnv) (ini : Ini) (c : IniConfig)
    (k : Setting) (v : List Char) (h : ini k.sect k.key = some v)
    (hr : k.rejects E v) :
    IniConfig.read b f E (some ini) c =
      IniConfig.read b f E (some (ini.set k.sect k.key (some []))) c := by
  simp only [IniConfig.read, readSections, IniConfig.mk.injEq]
  cases k <;> simp only [Setting.sect, Setting.key] at h <;>
    simp only [Setting.rejects, Setting.reader] at hr <;>
    simp only [Setting.sect, Setting.key] <;>
    refine ⟨?_, ?_, ?_, ?_⟩ <;>
    simp [readSidplayfp, readConsole, readAudio, readEmulation, Ini.set, h, hr,
      readInt_rejected, readBool_rejected, readDouble_rejected, readChar_rejected, 
      readInt_empty, readBool_empty, readDouble_empty, readChar_empty, readTime_empty, readString]

theorem read_empty_field (b : Build) (f : Int) (E : IniEnv) (ini : Ini) (c : IniConfig)
    (k : Setting) (h : ini k.sect k.key = some []) :
    k.get (IniConfig.read b f E (some ini) c) = k.get (IniConfig.clear b f c) := by
  cases k <;> simp only [Setting.sect, Setting.key] at h <;>
    simp [Setting.get, IniConfig.read, readSections, readSidplayfp, readConsole, readAudio,
      readEmulation, h, readInt, readBool, readDouble, readChar, readKey, readString,
      readTime_empty, readC64Model, readCiaModel, readSidModel, readSampling]

theorem Ini.set_same (ini : Ini) (sec key : String) (v : Option (List Char)) :
    ini.set sec key v sec key = v := by
  simp [Ini.set]

theorem Ini.set_other (ini : Ini) (sec key s k : String) (v : Option (List Char))
    (h : ¬ (s = sec ∧ k = key)) : ini.set sec key v s k = ini s k := by
  simp only [Ini.set, if_neg h]

theorem strAt_zero (oob a : Char) (l : List Char) : strAt oob (a :: l) 0 = a := by
  simp [strAt]

theorem strAt_one (oob a x : Char) (l : List Char) : strAt oob (a :: x :: l) 1 = x := by
  simp [strAt]

theorem strAt_two (oob a x y : Char) (l : List Char) : strAt oob (a :: x :: y :: l) 2 = y := by
  simp [strAt]

theorem readChar_number (pi : List Char → Option Int) (oob y : Char) (rest : List Char)
    (ch : Char) (hy : y ≠ Char.ofNat 39) :
    readChar pi oob (some (y :: rest)) ch =
      match pi (y :: rest) with
      | some n => if 32 ≤ toU8 n then Char.ofNat (toU8 n) else ch
      | none => ch := by
  simp only [readChar, readString, List.isEmpty_cons, Bool.false_eq_true, if_false, strAt_zero,
    if_neg hy]
  cases pi (y :: rest) with
  | none => simp
  | some n => simp

theorem digit_ne_quote (ds : List Char) (hd : ds ≠ []) (hds : ∀ c ∈ ds, c.isDigit = true) :
    ∃ y rest, ds = y :: rest ∧ y ≠ Char.ofNat 39 := by
  cases ds with
  | nil => exact absurd rfl hd
  | cons y rest =>
    refine ⟨y, rest, rfl, ?_⟩
    intro h
    have := hds y (List.mem_cons_self _ _)
    rw [h] at this
    exact absurd this (by decide)

/-! ## Lemmas about the errors of args -/

/-- Passes of the scan that do not end it can be taken off the fuel. -/
theorem scanLoop_steps (b : Build) (env : Env) :
    ∀ n i s j t fuel, scanSteps b env n i s = some (j, t) →
      scanLoop b env (n + fuel) i s = scanLoop b env fuel j t := by
  intro n
  induction n with
  | zero =>
    intro i s j t fuel h
    simp only [scanSteps, Option.some.injEq, Prod.mk.injEq] at h
    rw [Nat.zero_add, h.1, h.2]
  | succ n ih =>
    intro i s j t fuel h
    unfold scanSteps at h
    have e : n + 1 + fuel = (n + fuel) + 1 := by omega
    rw [e, show scanLoop b env (n + fuel + 1) i s =
      (if i < s.argv.length then
        match s.argv[i]? with
        | none => some (.done s)
        | some tok =>
          match scanToken b env i tok s with
          | .inl r => some r
          | .inr s1 => scanLoop b env (n + fuel) ((i + 1) % 256) s1
      else some (.done s)) from rfl]
    by_cases hlt : i < s.argv.length
    · rw [if_pos hlt] at h ⊢
      cases hg : s.argv[i]? with
      | none => rw [hg] at h; cases h
      | some tok =>
        rw [hg] at h
        simp only at h ⊢
        cases hst : scanToken b env i tok s with
        | inl r => rw [hst] at h; cases h
        | inr s1 =>
          rw [hst] at h
          simp only at h ⊢
          exact ih _ s1 j t fuel h
    · rw [if_neg hlt] at h; cases h

/-- Passes that do not wrap the index leave the tokens from the new index on as they were. -/
theorem scanSteps_frame (b : Build) (env : Env) :
    ∀ n i s j t, scanSteps b env n i s = some (j, t) → i + n ≤ 256 →
      j % 256 = (i + n) % 256 ∧ t.argv.length = s.argv.length ∧
        ∀ k, i + n ≤ k → t.argv[k]? = s.argv[k]? := by
  intro n
  induction n with
  | zero =>
    intro i s j t h _
    simp only [scanSteps, Option.some.injEq, Prod.mk.injEq] at h
    rw [h.1, h.2]
    exact ⟨rfl, rfl, fun _ _ => rfl⟩
  | succ n ih =>
    intro i s j t h hn
    unfold scanSteps at h
    by_cases hlt : i < s.argv.length
    · rw [if_pos hlt] at h
      cases hg : s.argv[i]? with
      | none => rw [hg] at h; cases h
      | some tok =>
        rw [hg] at h
        simp only at h
        cases hst : scanToken b env i tok s with
        | inl r => rw [hst] at h; cases h
        | inr s1 =>
          rw [hst] at h
          simp only at h
          obtain ⟨hl1, hne, _⟩ := scanToken_inr b env i tok s s1 hst
          have hmod : (i + 1) % 256 ≤ i + 1 := Nat.mod_le _ _
          obtain ⟨h1, h2, h3⟩ := ih _ s1 j t h (by omega)
          refine ⟨by omega, by omega, fun k hk => ?_⟩
          rw [h3 k (by omega), hne k (by omega)]
    · rw [if_neg hlt] at h; cases h

theorem scanSteps_index_lt (b : Build) (env : Env) :
    ∀ n i s j t, scanSteps b env n i s = some (j, t) → i < 256 → j < 256 := by
  intro n
  induction n with
  | zero =>
    intro i s j t h hi
    simp only [scanSteps, Option.some.injEq, Prod.mk.injEq] at h
    omega
  | succ n ih =>
    intro i s j t h _
    unfold scanSteps at h
    by_cases hlt : i < s.argv.length
    · rw [if_pos hlt] at h
      cases hg : s.argv[i]? with
      | none => rw [hg] at h; cases h
      | some tok =>
        rw [hg] at h
        simp only at h
        cases hst : scanToken b env i tok s with
        | inl r => rw [hst] at h; cases h
        | inr s1 =>
          rw [hst] at h
          simp only at h
          exact ih _ s1 j t h (Nat.mod_lt _ (by decide))
    · rw [if_neg hlt] at h; cases h

/-- What it means that the scan reaches the token at index `i`. -/
theorem stateAt_spec (b : Build) (env : Env) (argv : List (List Char)) (p : Player) (i : Nat)
    (h : (stateAt b env argv p i).isSome = true) :
    ∃ s, stateAt b env argv p i = some s ∧
      scanSteps b env i 0 { p := argDefaults p, argv := argv, infile := 0 } = some (i, s) ∧
      s.argv.length = argv.length ∧ s.argv[i]? = argv[i]? := by
  unfold stateAt at h ⊢
  cases hs : scanSteps b env i 0 { p := argDefaults p, argv := argv, infile := 0 } with
  | none => rw [hs] at h; simp at h
  | some js =>
    obtain ⟨j, s⟩ := js
    rw [hs] at h
    simp only at h ⊢
    by_cases hj : j = i
    · subst hj
      have hi := scanSteps_index_lt b env _ _ _ _ _ hs (by decide)
      obtain ⟨_, h2, h3⟩ := scanSteps_frame b env _ _ _ _ _ hs (by omega)
      refine ⟨s, by rw [if_pos rfl], rfl, h2, ?_⟩
      exact h3 j (by omega)
    · rw [if_neg hj] at h; simp at h

/-- A token at which the option chain sets `err` makes `args` return -1. -/
theorem args_error_token (b : Build) (env : Env) (fuel : Nat) (argv : List (List Char))
    (p : Player) (i : Nat) (s : ScanState) (tok tok1 : List Char) (q : Player)
    (hs : stateAt b env argv p i = some s) (htok : argv[i]? = some tok)
    (hopt : isOption tok = true) (herr : optionToken b env i tok s.p = .cont q tok1 true)
    (hfuel : i < fuel) :
    args b env fuel argv p = some (-1, q) := by
  obtain ⟨s2, hs2, hsteps, hlen, hget⟩ := stateAt_spec b env argv p i (by rw [hs]; rfl)
  rw [hs] at hs2
  cases hs2
  have hne : argv.length ≠ 0 := by
    intro h0
    have : argv = [] := List.length_eq_zero.mp h0
    rw [this] at htok
    simp at htok
  have hil : i < s.argv.length := by
    rw [hlen]
    by_contra hc
    rw [List.getElem?_eq_none (by omega)] at htok
    cases htok
  obtain ⟨m, rfl⟩ : ∃ m, fuel = i + (m + 1) := ⟨fuel - i - 1, by omega⟩
  unfold args
  rw [if_neg hne, scanLoop_steps b env i 0 _ i s (m + 1) hsteps]
  unfold scanLoop
  rw [if_pos hil, hget, htok]
  simp only [scanToken, hopt, if_true, herr]

/-- A token that no condition of the option chain matches takes the last branch. -/
theorem optKind_unknown (b : Build) (c : Char) (rest : List Char)
    (h : IsUnknownOption b ('-' :: c :: rest)) : optKind b c (c :: rest) = .unknown := by
  obtain ⟨_, hp, hn⟩ := h
  simp only [List.drop_succ_cons, List.drop_zero] at hp hn
  have h1 : ¬ (c = 'h' ∨ c :: rest = ['-', 'h', 'e', 'l', 'p']) :=
    (fun hc => hc.elim (fun hc => hp ['h'] (by decide) ⟨rest, by rw [hc]; rfl⟩) (fun hc => hn (by rw [hc]; simp [optionNames])))
  have h2 : ¬ (c :: rest = ['-', 'h', 'e', 'l', 'p', '-', 'd', 'b', 'g']) :=
    (fun hc => hn (by rw [hc]; simp [optionNames]))
  have h3 : ¬ (c = 'b') :=
    (fun hc => hp ['b'] (by decide) ⟨rest, by rw [hc]; rfl⟩)
  have h4 : ¬ (List.take 2 (c :: rest) = ['d', 's']) :=
    (fun hc => hp ['d', 's'] (by decide) (List.prefix_iff_eq_take.mpr hc.symm))
  have h5 : ¬ (b.FEAT_THIRD_SID = true ∧ List.take 2 (c :: rest) = ['t', 's']) :=
    (fun hc => (show ¬ c = 't' from (fun hc => hp ['t'] (by decide) ⟨rest, by rw [hc]; rfl⟩)) (by have h2 := hc.2; simp only [List.take_succ_cons, List.cons.injEq] at h2; exact h2.1))
  have h6 : ¬ (c = 'f') :=
    (fun hc => hp ['f'] (by decide) ⟨rest, by rw [hc]; rfl⟩)
  have h7 : ¬ (List.take 2 (c :: rest) = ['n', 'f']) :=
    (fun hc => hp ['n', 'f'] (by decide) (List.prefix_iff_eq_take.mpr hc.symm))
  have h8 : ¬ (c = 'o') :=
    (fun hc => hp ['o'] (by decide) ⟨rest, by rw [hc]; rfl⟩)
  have h9 : ¬ (c = 'p') :=
    (fun hc => hp ['p'] (by decide) ⟨rest, by rw [hc]; rfl⟩)
  have h10 : ¬ (c = 'q') :=
    (fun hc => hp ['q'] (by decide) ⟨rest, by rw [hc]; rfl⟩)
  have h11 : ¬ (c = 't') :=
    (fun hc => hp ['t'] (by decide) ⟨rest, by rw [hc]; rfl⟩)
  have h12 : ¬ (c = 'r') :=
    (fun hc => hp ['r'] (by decide) ⟨rest, by rw [hc]; rfl⟩)
  have h13 : ¬ (c = 's') :=
    (fun hc => hp ['s'] (by decide) ⟨rest, by rw [hc]; rfl⟩)
  have h14 : ¬ (c = 'm') :=
    (fun hc => hp ['m'] (by decide) ⟨rest, by rw [hc]; rfl⟩)
  have h15 : ¬ (b.FEAT_DIGIBOOST = true ∧ c :: rest = ['-', 'd', 'i', 'g', 'i', 'b', 'o', 'o', 's', 't']) :=
    (fun hc => hn (by rw [hc.2]; simp [optionNames, hc.1]))
  have h16 : ¬ (c = 'v') :=
    (fun hc => hp ['v'] (by decide) ⟨rest, by rw [hc]; rfl⟩)
  have h17 : ¬ (List.take 7 (c :: rest) = ['-', 'd', 'e', 'l', 'a', 'y', '=']) :=
    (fun hc => hp ['-', 'd', 'e', 'l', 'a', 'y', '='] (by decide) (List.prefix_iff_eq_take.mpr hc.symm))
  have h18 : ¬ (c = 'w' ∨ List.take 4 (c :: rest) = ['-', 'w', 'a', 'v']) :=
    (fun hc => hc.elim (fun hc => hp ['w'] (by decide) ⟨rest, by rw [hc]; rfl⟩) (fun hc => hp ['-', 'w', 'a', 'v'] (by decide) (List.prefix_iff_eq_take.mpr hc.symm)))
  have h19 : ¬ (List.take 3 (c :: rest) = ['-', 'a', 'u']) :=
    (fun hc => hp ['-', 'a', 'u'] (by decide) (List.prefix_iff_eq_take.mpr hc.symm))
  have h20 : ¬ (List.take 5 (c :: rest) = ['-', 'i', 'n', 'f', 'o']) :=
    (fun hc => hp ['-', 'i', 'n', 'f', 'o'] (by decide) (List.prefix_iff_eq_take.mpr hc.symm))
  have h21 : ¬ (b.HAVE_RESIDFP = true ∧ c :: rest = ['-', 'r', 'e', 's', 'i', 'd', 'f', 'p']) :=
    (fun hc => hn (by rw [hc.2]; simp [optionNames, hc.1]))
  have h22 : ¬ (b.HAVE_RESID = true ∧ c :: rest = ['-', 'r', 'e', 's', 'i', 'd']) :=
    (fun hc => hn (by rw [hc.2]; simp [optionNames, hc.1]))
  have h23 : ¬ (b.HAVE_HARDSID = true ∧ c :: rest = ['-', 'h', 'a', 'r', 'd', 's', 'i', 'd']) :=
    (fun hc => hn (by rw [hc.2]; simp [optionNames, hc.1]))
  have h24 : ¬ (b.HAVE_EXSID = true ∧ c :: rest = ['-', 'e', 'x', 's', 'i', 'd']) :=
    (fun hc => hn (by rw [hc.2]; simp [optionNames, hc.1]))
  have h25 : ¬ (c :: rest = ['-', 'n', 'o', 'n', 'e']) :=
    (fun hc => hn (by rw [hc]; simp [optionNames]))
  have h26 : ¬ (c :: rest = ['-', 'n', 'o', 's', 'i', 'd']) :=
    (fun hc => hn (by rw [hc]; simp [optionNames]))
  have h27 : ¬ (c :: rest = ['-', 'n', 'o', 'a', 'u', 'd', 'i', 'o']) :=
    (fun hc => hn (by rw [hc]; simp [optionNames]))
  have h28 : ¬ (c :: rest = ['-', 'c', 'p', 'u', '-', 'd', 'e', 'b', 'u', 'g']) :=
    (fun hc => hn (by rw [hc]; simp [optionNames]))
  unfold optKind
  rw [if_neg h1, if_neg h2, if_neg h3, if_neg h4, if_neg h5, if_neg h6, if_neg h7, if_neg h8,
    if_neg h9, if_neg h10, if_neg h11, if_neg h12, if_neg h13, if_neg h14, if_neg h15, if_neg
    h16, if_neg h17, if_neg h18, if_neg h19, if_neg h20, if_neg h21, if_neg h22, if_neg h23,
    if_neg h24, if_neg h25, if_neg h26, if_neg h27, if_neg h28]

/-- The texts that `parseTime` is to refuse are refused. -/
theorem parseTime_rejected (s : List Char) (t : Nat) (h : RejectedTime s) :
    (parseTime s t).ok = false := by
  cases hok : (parseTime s t).ok with
  | false => rfl
  | true =>
    exfalso
    rcases h with rfl | ⟨mm, rest, rfl, hm, h1, h2⟩ | ⟨mm, rest, rfl, hm, h1, h2⟩ |
      ⟨m, ss, tail, rfl, hc, hs, h1, h2, ht⟩ | ⟨m, ss, tail, rfl, hc, hs, h1, h2, ht⟩ |
      ⟨m, sec, frac, rfl, hc, hd, hf, hl⟩
    · simp [parseTime] at hok
    · have hne : mm ≠ [] := by rintro rfl; simp [decVal, digitsVal] at h1
      obtain ⟨hr, _⟩ := parseTime_colon_ok mm rest t (not_mem_of_digits ':' (by decide) mm hm) hok
      rw [atoi_digits_nil mm hne hm h2] at hr
      omega
    · have hne : mm ≠ [] := by rintro rfl; simp [decVal, digitsVal] at h1
      have hc : ':' ∉ '-' :: mm := by
        intro h
        rcases List.mem_cons.mp h with h | h
        · exact absurd h (by decide)
        · exact not_mem_of_digits ':' (by decide) mm hm h
      have e : '-' :: mm ++ ':' :: rest = ('-' :: mm) ++ ':' :: rest := rfl
      rw [e] at hok
      obtain ⟨hr, _⟩ := parseTime_colon_ok ('-' :: mm) rest t hc hok
      have := atoi_neg_digits mm [] hne hm noDigitHead_nil h2
      rw [List.append_nil] at this
      rw [this] at hr
      omega
    · have hne : ss ≠ [] := by rintro rfl; simp [decVal, digitsVal] at h1
      obtain ⟨_, ms, st, hp, hr⟩ := parseTime_colon_ok m _ t hc hok
      have hst := seconds_text ss tail ms st hs ht [] (by simp) (by simpa using hp)
      rw [hst, List.nil_append, atoi_digits_nil ss hne hs h2] at hr
      omega
    · have hne : ss ≠ [] := by rintro rfl; simp [decVal, digitsVal] at h1
      obtain ⟨_, ms, st, hp, hr⟩ := parseTime_colon_ok m _ t hc hok
      have hp2 : parseMillis (['-'] ++ ss ++ tail) = some (ms, st) := by simpa using hp
      have hst := seconds_text ss tail ms st hs ht ['-'] (by decide) hp2
      have := atoi_neg_digits ss [] hne hs noDigitHead_nil h2
      rw [List.append_nil] at this
      rw [hst] at hr
      simp only [List.singleton_append] at hr
      rw [this] at hr
      omega
    · obtain ⟨_, ms, st, hp, _⟩ := parseTime_colon_ok m _ t hc hok
      rw [parseMillis_frac sec frac hd hf, if_neg (by omega)] at hp
      cases hp

theorem optionToken_unknown (b : Build) (env : Env) (i : Nat) (tok : List Char) (p : Player)
    (h : IsUnknownOption b tok) : optionToken b env i tok p = .cont p tok true := by
  obtain ⟨c, rest, rfl⟩ := (isOption_iff tok).mp h.1
  unfold optionToken
  rw [charAt_one]
  simp only [List.drop_succ_cons, List.drop_zero]
  rw [optKind_unknown b c rest h]
  rfl

theorem optKind_r (b : Build) (rest : List Char) : optKind b 'r' ('r' :: rest) = .resample := by
  unfold optKind
  rw [if_neg (by simp), if_neg (by simp), if_neg (by simp), if_neg (by simp), if_neg (by simp),
    if_neg (by simp), if_neg (by simp), if_neg (by simp), if_neg (by simp), if_neg (by simp),
    if_neg (by simp), if_pos rfl]

theorem optionToken_resample_err (b : Build) (env : Env) (i : Nat) (tok : List Char)
    (p : Player) (h : IsResampleWithoutMethod tok) :
    isOption tok = true ∧ ∃ q, optionToken b env i tok p = .cont q tok true := by
  obtain ⟨h1, h2, h3⟩ := h
  have e := eq_append_of_take tok _ 2 h1
  simp only [List.cons_append, List.nil_append] at e
  generalize tok.drop 2 = rest at e
  subst e
  refine ⟨rfl, ?_⟩
  unfold optionToken
  rw [charAt_one]
  simp only [List.drop_succ_cons, List.drop_zero]
  rw [optKind_r]
  have hi : charAt env i ('-' :: 'r' :: rest) 2 ≠ 'i' := by
    cases rest with
    | nil => simp [charAt]
    | cons a l => simpa [charAt] using h2
  have hr : charAt env i ('-' :: 'r' :: rest) 2 ≠ 'r' := by
    cases rest with
    | nil => simp [charAt]
    | cons a l => simpa [charAt] using h3
  simp only [optionBody, hi, hr, if_false, ne_eq, not_false_eq_true, and_self, decide_True]
  exact ⟨_, rfl⟩

theorem optKind_b (b : Build) (rest : List Char) : optKind b 'b' ('b' :: rest) = .start := by
  unfold optKind
  rw [if_neg (by simp), if_neg (by simp), if_pos rfl]

theorem optionToken_refused (b : Build) (env : Env) (i : Nat) (tok : List Char)
    (p : Player) (h : IsRefusedValue b tok) :
    isOption tok = true ∧ ∃ q tok1, optionToken b env i tok p = .cont q tok1 true := by
  rcases h with rfl | rfl | rfl | ⟨hb, rfl⟩ | ⟨h1, h2⟩ | ⟨z, h1, h2⟩
  · refine ⟨rfl, ?_⟩
    have hk : optKind b 'f' ['f'] = .frequency := by
      unfold optKind
      rw [if_neg (by simp), if_neg (by simp), if_neg (by simp), if_neg (by simp),
        if_neg (by simp), if_pos rfl]
    have hc : charAt env i ['-', 'f'] 2 = Char.ofNat 0 := by simp [charAt]
    unfold optionToken
    rw [charAt_one]
    simp only [List.drop_succ_cons, List.drop_zero]
    rw [hk]
    simp only [optionBody, hc, decide_True]
    exact ⟨_, _, rfl⟩
  · refine ⟨rfl, ?_⟩
    have hk : optKind b 'p' ['p'] = .precision := by
      unfold optKind
      rw [if_neg (by simp), if_neg (by simp), if_neg (by simp), if_neg (by simp),
        if_neg (by simp), if_neg (by simp), if_neg (by simp), if_neg (by simp), if_pos rfl]
    have hc : charAt env i ['-', 'p'] 2 = Char.ofNat 0 := by simp [charAt]
    unfold optionToken
    rw [charAt_one]
    simp only [List.drop_succ_cons, List.drop_zero]
    rw [hk]
    simp only [optionBody, hc, decide_True]
    exact ⟨_, _, rfl⟩
  · refine ⟨rfl, ?_⟩
    have hk : optKind b 'd' ['d', 's'] = .secondSid := by
      unfold optKind
      rw [if_neg (by simp), if_neg (by simp), if_neg (by simp), if_pos (by decide)]
    unfold optionToken
    rw [charAt_one]
    simp only [List.drop_succ_cons, List.drop_zero]
    rw [hk]
    exact ⟨_, _, rfl⟩
  · refine ⟨rfl, ?_⟩
    have hk : optKind b 't' ['t', 's'] = .thirdSid := by
      unfold optKind
      rw [if_neg (by simp), if_neg (by simp), if_neg (by simp), if_neg (by simp),
        if_pos ⟨hb, by decide⟩]
    unfold optionToken
    rw [charAt_one]
    simp only [List.drop_succ_cons, List.drop_zero]
    rw [hk]
    exact ⟨_, _, rfl⟩
  · have e := eq_append_of_take tok _ 2 h1
    simp only [List.cons_append, List.nil_append] at e
    refine ⟨by rw [e]; rfl, ?_⟩
    have hr := parseTime_rejected (tok.drop 2) p.m_timer.start h2
    generalize tok.drop 2 = rest at e hr
    subst e
    unfold optionToken
    rw [charAt_one]
    simp only [List.drop_succ_cons, List.drop_zero]
    rw [optKind_b]
    simp only [optionBody, List.drop_succ_cons, List.drop_zero, hr, Bool.not_false]
    exact ⟨_, _, rfl⟩
  · obtain ⟨ho, hz, ht⟩ := lengthArg_some b env i tok z p h1
    refine ⟨ho, ?_⟩
    rw [ht]
    have hr := parseTime_rejected z p.m_timer.length h2
    rw [hz] at hr
    simp only [optionBody, hr, Bool.not_false]
    exact ⟨_, _, rfl⟩

theorem optionBody_frame (env : Env) (i : Nat) (tok : List Char) (p q : Player)
    (k : OptKind) (tok1 : List Char) (err : Bool)
    (h : optionBody env i tok p k = .cont q tok1 err) : sameBehindScan q p := by
  unfold sameBehindScan
  cases k <;> simp only [optionBody] at h <;>
    first
    | (cases h; done)
    | (injection h with h1 h2 h3; subst h1; simp; done)
    | (injection h with h1 h2 h3; subst h1; split_ifs <;> simp)
    | (split_ifs at h <;> injection h with h1 h2 h3 <;> subst h1 <;> simp)

theorem sameBehindScan_trans (p q r : Player) (h1 : sameBehindScan r q)
    (h2 : sameBehindScan q p) : sameBehindScan r p := by
  unfold sameBehindScan at *
  obtain ⟨a1, a2, a3, a4, a5⟩ := h1
  obtain ⟨b1, b2, b3, b4, b5⟩ := h2
  exact ⟨a1.trans b1, a2.trans b2, a3.trans b3, a4.trans b4, a5.trans b5⟩

theorem sameBehindScan_refl (p : Player) : sameBehindScan p p := ⟨rfl, rfl, rfl, rfl, rfl⟩

theorem scanToken_frame (b : Build) (env : Env) (i : Nat) (tok : List Char) (s : ScanState) :
    match scanToken b env i tok s with
    | .inl (.help r) => sameBehindScan r.p s.p
    | .inl (.syntaxError r _) => sameBehindScan r.p s.p
    | .inl (.done r) => sameBehindScan r.p s.p
    | .inr r => sameBehindScan r.p s.p := by
  unfold scanToken
  by_cases ho : isOption tok = true
  · rw [if_pos ho]
    cases hot : optionToken b env i tok s.p with
    | help => exact sameBehindScan_refl _
    | cont q tok1 err =>
      have hf := optionBody_frame env i tok s.p q _ tok1 err hot
      cases err with
      | true => exact hf
      | false => exact hf
  · rw [if_neg ho]
    by_cases hi : s.infile = 0
    · rw [if_pos hi]; exact sameBehindScan_refl _
    · rw [if_neg hi]; exact sameBehindScan_refl _

theorem optKind_s (b : Build) (rest : List Char) : optKind b 's' ('s' :: rest) = .stereo := by
  unfold optKind
  rw [if_neg (by simp), if_neg (by simp), if_neg (by simp), if_neg (by simp), if_neg (by simp),
    if_neg (by simp), if_neg (by simp), if_neg (by simp), if_neg (by simp), if_neg (by simp),
    if_neg (by simp), if_neg (by simp), if_pos rfl]

theorem scanToken_stereo (b : Build) (env : Env) (i : Nat) (s : ScanState) :
    scanToken b env i ['-', 's'] s =
      .inr { p := { s.p with m_channels := 2 }, argv := s.argv.set i ['-', 's'],
             infile := s.infile } := by
  have ho : optionToken b env i ['-', 's'] s.p = .cont { s.p with m_channels := 2 } ['-', 's']
      false := by
    unfold optionToken
    rw [charAt_one]
    simp only [List.drop_succ_cons, List.drop_zero]
    rw [optKind_s]
    rfl
  unfold scanToken
  rw [if_pos (show isOption ['-', 's'] = true from rfl), ho]
  rfl

/-- With 256 tokens `-s` the scan loop does not end, whatever the number of passes. -/
theorem scanLoop_stereo_none (b : Build) (env : Env) :
    ∀ fuel i s, s.argv.length = 256 → (∀ tok ∈ s.argv, tok = ['-', 's']) → i < 256 →
      scanLoop b env fuel i s = none := by
  intro fuel
  induction fuel with
  | zero => intro i s _ _ _; rfl
  | succ fuel ih =>
    intro i s hl hall hi
    unfold scanLoop
    have hlt : i < s.argv.length := by omega
    rw [if_pos hlt]
    have hget : s.argv[i]? = some (s.argv[i]) := List.getElem?_eq_getElem hlt
    have htok : s.argv[i] = ['-', 's'] := hall _ (List.getElem_mem _)
    rw [hget, htok]
    simp only [scanToken_stereo]
    refine ih _ _ (by simp [hl]) ?_ (Nat.mod_lt _ (by decide))
    intro tok hm
    rcases List.mem_or_eq_of_mem_set hm with h | h
    · exact hall tok h
    · exact h

theorem finishEngine_range (b : Build) (env : Env) (p : Player) :
    (finishEngine b env p).1 = -1 ∨ (finishEngine b env p).1 = 1 := by
  unfold finishEngine
  split_ifs <;> simp

theorem finishTimer_range (b : Build) (env : Env) (p : Player) :
    (finishTimer b env p).1 = -1 ∨ (finishTimer b env p).1 = 1 := by
  unfold finishTimer
  split_ifs
  · simp
  · split
    · simp
    · exact finishEngine_range _ _ _
  · exact finishEngine_range _ _ _

theorem finish_range (b : Build) (env : Env) (s : ScanState) :
    (finish b env s).1 = -1 ∨ (finish b env s).1 = 1 := by
  unfold finish
  split_ifs
  · simp
  · unfold finishLoaded
    split_ifs
    · simp
    · exact finishTimer_range _ _ _

/-- A value that `args` returns is -1, 0 or 1. -/
theorem args_range (b : Build) (env : Env) (fuel : Nat) (argv : List (List Char)) (p q : Player)
    (r : Int) (h : args b env fuel argv p = some (r, q)) : r = -1 ∨ r = 0 ∨ r = 1 := by
  unfold args at h
  split_ifs at h with h0
  · simp only [Option.some.injEq, Prod.mk.injEq] at h; omega
  · cases hs : scanLoop b env fuel 0 { p := argDefaults p, argv := argv, infile := 0 } with
    | none => rw [hs] at h; cases h
    | some res =>
      rw [hs] at h
      cases res with
      | help s => simp only [Option.some.injEq, Prod.mk.injEq] at h; omega
      | syntaxError s i => simp only [Option.some.injEq, Prod.mk.injEq] at h; omega
      | done s =>
        simp only [Option.some.injEq] at h
        have := finish_range b env s
        rw [h] at this
        omega

/-- With at most 255 tokens `args` returns. -/
theorem args_returns (b : Build) (env : Env) (fuel : Nat) (argv : List (List Char)) (p : Player)
    (hl : argv.length ≤ 255) (hf : argv.length < fuel) :
    (args b env fuel argv p).isSome = true := by
  unfold args
  split_ifs with h0
  · rfl
  · have := scanLoop_terminates b env fuel 0
      { p := argDefaults p, argv := argv, infile := 0 } hl (Nat.zero_le _) (by simpa using hf)
    cases hs : scanLoop b env fuel 0 { p := argDefaults p, argv := argv, infile := 0 } with
    | none => rw [hs] at this; cases this
    | some res => cases res <;> rfl


/-- The value 0 is returned exactly when the scan ends at a help option. -/
theorem args_zero_iff (b : Build) (env : Env) (fuel : Nat) (argv : List (List Char))
    (p : Player) :
    (args b env fuel argv p).map Prod.fst = some 0 ↔
      ∃ s, scanLoop b env fuel 0 { p := argDefaults p, argv := argv, infile := 0 } =
        some (.help s) := by
  unfold args
  by_cases h0 : argv.length = 0
  · rw [if_pos h0]
    have e : argv = [] := List.length_eq_zero.mp h0
    subst e
    constructor
    · intro h; simp at h
    · rintro ⟨s, hs⟩
      cases fuel <;> simp [scanLoop] at hs
  · rw [if_neg h0]
    cases hs : scanLoop b env fuel 0 { p := argDefaults p, argv := argv, infile := 0 } with
    | none => simp
    | some res =>
      cases res with
      | help s => simp
      | syntaxError s i => simp
      | done s =>
        simp only [Option.map_some', Option.some.injEq, reduceCtorEq, exists_false, iff_false]
        intro h
        have := finish_range b env s
        rw [h] at this
        omega

/-! ## Lemmas about single options and the display -/

theorem atoi_digits_all (ds : List Char) (hds : ∀ c ∈ ds, c.isDigit = true)
    (hv : decVal ds ≤ 2147483647) : atoi ds = (decVal ds : Int) := by
  cases ds with
  | nil => decide
  | cons a l => exact atoi_digits_nil (a :: l) (by simp) hds (by omega)

theorem optKind_o (b : Build) (rest : List Char) : optKind b 'o' ('o' :: rest) = .track := by
  unfold optKind
  rw [if_neg (by simp), if_neg (by simp), if_neg (by simp), if_neg (by simp), if_neg (by simp),
    if_neg (by simp), if_neg (by simp), if_pos rfl]

theorem optionToken_o (b : Build) (env : Env) (i : Nat) (rest : List Char) (p : Player) :
    optionToken b env i ('-' :: 'o' :: rest) p =
      optionBody env i ('-' :: 'o' :: rest) p .track := by
  unfold optionToken
  rw [charAt_one]
  simp only [List.drop_succ_cons, List.drop_zero]
  rw [optKind_o]

/-- The character of a token at the place where a run of digits begins is a digit or the
terminating NUL. -/
theorem charAt_digits (env : Env) (i : Nat) (pre ds : List Char) (x : Char)
    (hds : ∀ c ∈ ds, c.isDigit = true) (hx : x.isDigit = false) (hx0 : x ≠ Char.ofNat 0) :
    charAt env i (pre ++ ds) pre.length ≠ x := by
  cases ds with
  | nil => simp [charAt]; exact fun h => hx0 h.symm
  | cons a l =>
    have ha := hds a (List.mem_cons_self _ _)
    simp only [charAt, List.getElem?_append_right (le_refl _), Nat.sub_self,
      List.getElem?_cons_zero]
    intro h
    rw [h, hx] at ha
    cases ha

theorem optKind_p (b : Build) (rest : List Char) : optKind b 'p' ('p' :: rest) = .precision := by
  unfold optKind
  rw [if_neg (by simp), if_neg (by simp), if_neg (by simp), if_neg (by simp), if_neg (by simp),
    if_neg (by simp), if_neg (by simp), if_neg (by simp), if_pos rfl]

/-- The precision behind a token `-p<N>`: the test is made on the low 8 bits of `N`. -/
theorem optionToken_precision (b : Build) (env : Env) (i : Nat) (ds : List Char) (p : Player)
    (hne : ds ≠ []) (hds : ∀ c ∈ ds, c.isDigit = true) (hv : decVal ds ≤ 2147483647) :
    optionToken b env i ('-' :: 'p' :: ds) p =
      .cont { p with m_precision := if decVal ds % 256 ≤ 16 then 16 else 32 }
        ('-' :: 'p' :: ds) false := by
  have ha := atoi_digits_nil ds hne hds (by omega)
  have e : toU8 ((decVal ds : Nat) : Int) = decVal ds % 256 := by unfold toU8; omega
  have h2 : charAt env i ('-' :: 'p' :: ds) 2 ≠ Char.ofNat 0 := by
    cases ds with
    | nil => exact absurd rfl hne
    | cons a l =>
      have hd := hds a (List.mem_cons_self _ _)
      simp only [charAt, List.getElem?_cons_succ, List.getElem?_cons_zero]
      intro h
      rw [h] at hd
      exact absurd hd (by decide)
  unfold optionToken
  rw [charAt_one]
  simp only [List.drop_succ_cons, List.drop_zero]
  rw [optKind_p]
  simp only [optionBody, List.drop_succ_cons, List.drop_zero, ha, e, h2, decide_False]

theorem scanSteps_stereo (b : Build) (env : Env) :
    ∀ n i s, s.argv.length = 256 → (∀ tok ∈ s.argv, tok = ['-', 's']) → i < 256 →
      (scanSteps b env n i s).map Prod.fst = some ((i + n) % 256) := by
  intro n
  induction n with
  | zero =>
    intro i s _ _ hi
    simp only [scanSteps, Option.map_some', Nat.add_zero]
    rw [Nat.mod_eq_of_lt hi]
  | succ n ih =>
    intro i s hl hall hi
    unfold scanSteps
    have hlt : i < s.argv.length := by omega
    rw [if_pos hlt]
    have hget : s.argv[i]? = some (s.argv[i]) := List.getElem?_eq_getElem hlt
    have htok : s.argv[i] = ['-', 's'] := hall _ (List.getElem_mem _)
    rw [hget, htok]
    simp only [scanToken_stereo]
    rw [ih _ _ (by simp [hl]) ?_ (Nat.mod_lt _ (by decide))]
    · congr 1; omega
    · intro tok hm
      rcases List.mem_or_eq_of_mem_set hm with h | h
      · exact hall tok h
      · exact h

theorem playLengthGiven_none_of_no_arg (b : Build) (l : List (List Char))
    (h : ∀ t ∈ l, lengthArg b t = none) : playLengthGiven b l = none := by
  induction l using List.reverseRecOn with
  | nil => rfl
  | append_singleton l a ih =>
    rw [playLengthGiven_snoc, h a (by simp)]
    exact ih (fun t ht => h t (by simp [ht]))

/-- Without a play length from the tokens scanned so far the timer is not marked valid and no
token so far is a play length flag. -/
theorem scan_nolength_inv (b : Build) (env : Env) (argv : List (List Char)) (i : Nat)
    (tok : List Char) (s s1 : ScanState) (hget : argv[i]? = some tok)
    (hinv : playLengthGiven b (argv.take i) = none →
      s.p.m_timer.valid = false ∧ ∀ t ∈ argv.take i, lengthArg b t = none)
    (hst : scanToken b env i tok s = .inr s1) :
    playLengthGiven b (argv.take (i + 1)) = none →
      s1.p.m_timer.valid = false ∧ ∀ t ∈ argv.take (i + 1), lengthArg b t = none := by
  intro hv
  rw [take_succ_of_get argv i tok hget, playLengthGiven_snoc] at hv
  rw [take_succ_of_get argv i tok hget]
  rcases scanToken_player b env i tok s s1 hst with ⟨ho, hp⟩ | ⟨ho, tok1, hb⟩
  · cases hl : lengthArg b tok with
    | none =>
      rw [hl] at hv
      obtain ⟨h1, h2⟩ := hinv hv
      refine ⟨by rw [hp]; exact h1, fun t ht => ?_⟩
      rw [List.mem_append, List.mem_singleton] at ht
      rcases ht with ht | ht
      · exact h2 t ht
      · rw [ht]; exact hl
    | some z =>
      rw [(lengthArg_some b env i tok z s.p hl).1] at ho
      exact absurd ho (by decide)
  · cases hl : lengthArg b tok with
    | none =>
      rw [hl] at hv
      obtain ⟨h1, h2⟩ := hinv hv
      obtain ⟨_, h4⟩ := optionBody_timer_frame env i tok s.p s1.p _ tok1 false hb
        (lengthArg_none b env i tok hl ho)
      refine ⟨by rw [h4]; exact h1, fun t ht => ?_⟩
      rw [List.mem_append, List.mem_singleton] at ht
      rcases ht with ht | ht
      · exact h2 t ht
      · rw [ht]; exact hl
    | some z =>
      rw [hl] at hv
      simp only at hv
      obtain ⟨_, hz, hk⟩ := lengthArg_some b env i tok z s.p hl
      have hb2 : optionBody env i tok s.p .length = .cont s1.p tok1 false := by
        rw [← hk]; exact hb
      simp only [optionBody] at hb2
      injection hb2 with h1 h2 h3
      simp only [Bool.not_eq_false'] at h3
      rw [parseTime_ok_indep _ _ 0, ← hz] at h3
      rw [if_pos h3] at hv
      cases hv

theorem scan_ini_inv (b : Build) (env : Env) (p0 : Player) (i : Nat)
    (tok : List Char) (s s1 : ScanState) (hinv : sameBehindScan s.p p0)
    (hst : scanToken b env i tok s = .inr s1) : sameBehindScan s1.p p0 := by
  have h := scanToken_frame b env i tok s
  rw [hst] at h
  exact sameBehindScan_trans _ _ _ h hinv

/-- The timer and the settings behind a part behind the scan that returns 1. -/
theorem finish_one_length (b : Build) (env : Env) (r : ScanState) (p1 : Player)
    (h : finish b env r = (1, p1)) :
    p1.m_driver = r.p.m_driver ∧
      p1.m_timer.length =
        if r.p.m_timer.valid = true then r.p.m_timer.length
        else toU32 (if r.p.m_driver.file = true then r.p.m_iniCfg.sidplayfp_s.recordLength
                    else r.p.m_iniCfg.sidplayfp_s.playLength) := by
  unfold finish at h
  split_ifs at h with h1
  · simp at h
  · unfold finishLoaded at h
    split_ifs at h with h2
    · simp at h
    · generalize hq : selectTrack env (loadTune env (r.argv.getD r.infile [])).1
        (dropLoop (forceSingle { r.p with
          m_filename := (loadTune env (r.argv.getD r.infile [])).1 })) = q at h
      have hd : q.m_driver = r.p.m_driver := by
        rw [← hq, (selectTrack_frame _ _ _).1, (dropLoop_frame _).1, (forceSingle_frame _).1]
      have ht : q.m_timer = r.p.m_timer := by
        rw [← hq, (selectTrack_frame _ _ _).2.1, (dropLoop_frame _).2.1,
          (forceSingle_frame _).2.1]
      have hi : q.m_iniCfg = r.p.m_iniCfg := by
        rw [← hq]
        simp only [selectTrack, dropLoop, forceSingle]
        split_ifs <;> rfl
      unfold finishTimer at h
      split_ifs at h with h3 h4
      · simp at h
      · split at h
        · simp at h
        · rw [finishEngine_one b env _ p1 h]
          simp only [defaultLength]
          have hv : r.p.m_timer.valid = false := by rw [← ht]; exact h4
          have hnv : ¬ r.p.m_timer.valid = true := by rw [hv]; decide
          rw [hd, hi, if_neg hnv]
          exact ⟨rfl, rfl⟩
      · rw [finishEngine_one b env _ p1 h, hd, ht]
        have hv : r.p.m_timer.valid = true := by
          rw [← ht]
          cases hq2 : q.m_timer.valid with
          | true => rfl
          | false => exact absurd hq2 h4
        rw [if_pos hv]
        exact ⟨rfl, rfl⟩

theorem getNoteLoop_spec (tbl : List Nat) (f : Nat)
    (hmono : ∀ i j, i < j → j < 96 → tbl.getD i 0 < tbl.getD j 0) :
    ∀ n i, n + i = 96 → 1 ≤ i →
      (∀ k, k < i - 1 → noteDistance tbl f (i - 1) < noteDistance tbl f k) →
      1 ≤ getNoteLoop tbl f n i (noteDistance tbl f (i - 1)) ∧
        getNoteLoop tbl f n i (noteDistance tbl f (i - 1)) ≤ 96 ∧
        (∀ k, k < 96 → noteDistance tbl f
            (getNoteLoop tbl f n i (noteDistance tbl f (i - 1)) - 1) ≤ noteDistance tbl f k) ∧
        (∀ k, k < getNoteLoop tbl f n i (noteDistance tbl f (i - 1)) - 1 →
          noteDistance tbl f (getNoteLoop tbl f n i (noteDistance tbl f (i - 1)) - 1)
            < noteDistance tbl f k) := by
  intro n
  induction n with
  | zero =>
    intro i hi h1 hdec
    have e : i = 96 := by omega
    subst e
    simp only [getNoteLoop]
    refine ⟨by omega, le_refl _, fun k hk => ?_, fun k hk => hdec k hk⟩
    by_cases h : k < 95
    · exact Nat.le_of_lt (hdec k h)
    · have : k = 95 := by omega
      subst this
      exact le_refl _
  | succ n ih =>
    intro i hi h1 hdec
    have hi96 : i < 96 := by omega
    unfold getNoteLoop
    have hd : ((f : Int) - (tbl.getD i 0 : Int)).natAbs = noteDistance tbl f i := rfl
    rw [hd]
    by_cases hlt : noteDistance tbl f i < noteDistance tbl f (i - 1)
    · rw [if_pos hlt]
      have hnext := ih (i + 1) (by omega) (by omega) (by
        intro k hk
        simp only [Nat.add_sub_cancel] at hk ⊢
        by_cases hk2 : k < i - 1
        · exact Nat.lt_trans hlt (hdec k hk2)
        · have : k = i - 1 := by omega
          subst this
          exact hlt)
      simp only [Nat.add_sub_cancel] at hnext
      exact hnext
    · rw [if_neg hlt]
      refine ⟨h1, by omega, fun k hk => ?_, fun k hk => hdec k hk⟩
      by_cases hk2 : k < i - 1
      · exact Nat.le_of_lt (hdec k hk2)
      · by_cases hk3 : k = i - 1
        · subst hk3; exact le_refl _
        · have hik : i ≤ k := by omega
          have hm1 := hmono (i - 1) i (by omega) hi96
          have hm2 : tbl.getD i 0 ≤ tbl.getD k 0 := by
            by_cases hik2 : i = k
            · subst hik2; exact le_refl _
            · exact Nat.le_of_lt (hmono i k (by omega) hk)
          unfold noteDistance at hlt ⊢
          omega

theorem noteName_length : noteName.length = 97 := rfl

set_option maxRecDepth 100000 in
theorem noteName_tail : "---" ∉ noteName.tail := by
  decide

theorem noteName_named (j : Nat) : noteName[j + 1]? ≠ some "---" := by
  intro h
  have e : noteName[j + 1]? = noteName.tail[j]? := by
    rw [List.getElem?_tail]
  rw [e] at h
  exact noteName_tail (List.getElem?_mem h)

theorem getD_of_pairwise (tbl : List Nat) (hlen : tbl.length = 96)
    (hinc : List.Pairwise (fun a b => a < b) tbl) :
    ∀ i j, i < j → j < 96 → tbl.getD i 0 < tbl.getD j 0 := by
  intro i j hij hj
  have hi : i < tbl.length := by omega
  have hj2 : j < tbl.length := by omega
  rw [List.getD_eq_getElem _ _ hi, List.getD_eq_getElem _ _ hj2]
  exact List.pairwise_iff_getElem.mp hinc i j hi hj2 hij

/-! ## The claims -/

/-- C1, at the failing input: for the form `SS.mmm` without minutes, which the usage text
`[min:]sec[.milli]` allows, `parseTime` returns true and drops the fraction: `2.5` gives 2000
and not 2500. -/
theorem parseTime_drops_fraction_without_minutes (t : Nat) :
    parseTime "2.5".toList t = ⟨true, 2000, "2.5".toList⟩ := by
  rfl

/-- C2 as stated fails: minutes outside 0..99 that do not fit an `int` wrap around in `atoi`;
`4294967296:00` is accepted as 0 minutes. -/
theorem parseTime_accepts_wrapped_minutes :
    parseTime "4294967296:00".toList 7 = ⟨true, 0, "4294967296".toList⟩ := by
  decide

/-- C2, amended: `parseTime` returns false for the empty string and for every string `s` with
a colon whose minutes or seconds, decimal numbers that fit an `int`, lie outside 0..99 or
0..59, or whose fraction has no digit or more than three digits; and whenever a call, on any
string `s1`, returns false, the time variable is left unchanged. -/
theorem parseTime_rejects (s : List Char) (t : Nat) (s1 : List Char) (t1 : Nat)
    (h : RejectedTime s) (h1 : (parseTime s1 t1).ok = false) :
    (parseTime s t).ok = false ∧ (parseTime s1 t1).time = t1 :=
  ⟨parseTime_rejected s t h, parseTime_frame s1 t1 h1⟩

theorem parseTime_rejects_witness :
    (parseTime "0:60".toList 7).ok = false ∧ (parseTime "1:02.".toList 7).time = 7 :=
  parseTime_rejects "0:60".toList 7 "1:02.".toList 7
    (Or.inr (Or.inr (Or.inr (Or.inl ⟨"0".toList, "60".toList, [], by decide, by decide,
      by decide, by decide, by decide, Or.inl rfl⟩)))) (by decide)

/-- C3 as stated fails: without a colon the seconds are not held to 0..59 and a fraction is
not read; `90` is accepted as 90000 ms and `2.5` as 2000 ms. -/
theorem readTime_seconds_only_unchecked :
    readTime parseInt "90".toList 7 = (true, 90000) ∧
      readTime parseInt "2.5".toList 7 = (true, 2000) := by
  decide

/-- C3, amended: with `parseInt` reading a leading decimal integer, `readTime` on digit
strings accepts `SS` of at most 2147483 seconds, without a check against 0..59, as
seconds * 1000; it accepts `MM:SS` and `MM:SS.mmm` exactly when the minutes are in 0..99,
the seconds in 0..59 and the fraction has 1 to 3 digits, storing
minutes * 60000 + seconds * 1000 + milliseconds, the fraction read as tenths, hundredths or
thousandths; otherwise it returns false and stores nothing. -/
theorem readTime_digit_grammar (sec mm ss frac : List Char) (v : Int) (hsec0 : sec ≠ [])
    (hsec : ∀ c ∈ sec, c.isDigit = true) (hsecv : decVal sec ≤ 2147483) (hm0 : mm ≠ [])
    (hs0 : ss ≠ []) (hm : ∀ c ∈ mm, c.isDigit = true) (hs : ∀ c ∈ ss, c.isDigit = true)
    (hf : ∀ c ∈ frac, c.isDigit = true) :
    readTime parseInt sec v = (true, ((decVal sec * 1000 : Nat) : Int)) ∧
    readTime parseInt (mm ++ ':' :: ss) v =
      (if decVal mm ≤ 99 ∧ decVal ss ≤ 59 then
        (true, ((decVal mm * 60000 + decVal ss * 1000 : Nat) : Int))
      else (false, v)) ∧
    readTime parseInt (mm ++ ':' :: (ss ++ '.' :: frac)) v =
      (if decVal mm ≤ 99 ∧ decVal ss ≤ 59 ∧ 1 ≤ frac.length ∧ frac.length ≤ 3 then
        (true, ((decVal mm * 60000 + decVal ss * 1000 + fracMillis frac : Nat) : Int))
      else (false, v)) :=
  ⟨readTime_seconds sec v hsec0 hsec hsecv, readTime_min_sec mm ss v hm0 hs0 hm hs,
    readTime_min_sec_frac mm ss frac v hm0 hs0 hm hs hf⟩

theorem readTime_digit_grammar_witness :
    readTime parseInt "90".toList 7 = (true, 90000) ∧
    readTime parseInt "1:02".toList 7 = (true, 62000) ∧
    readTime parseInt "1:02.5".toList 7 = (true, 62500) :=
  readTime_digit_grammar "90".toList "1".toList "02".toList "5".toList 7 (by decide)
    (by decide) (by decide) (by decide) (by decide) (by decide) (by decide) (by decide)

/-- C4 as stated fails: `parseTime` accepts `abc` (as 0) and `readTime` rejects it. -/
theorem time_parsers_differ :
    (parseTime "abc".toList 7).ok = true ∧ (readTime parseInt "abc".toList 7).1 = false := by
  decide

/-- C4, amended: on the texts of the digit grammar (`SS`, `MM:SS`, `MM:SS.f` made of decimal
digits, the numbers fitting an `int`) `parseTime` accepts exactly when `readTime` accepts, and
then both give the same number of milliseconds. -/
theorem time_parsers_agree_on_digits (s : List Char) (t : Nat) (v : Int) (h : TimeText s) :
    (parseTime s t).accepted = acceptedTime (readTime parseInt s v) := by
  unfold TimeResult.accepted acceptedTime
  cases h with
  | seconds _ hne hs hv =>
    rw [parseTime_seconds s t hne hs hv, readTime_seconds s v hne hs hv]
  | minSec mm ss hm0 hs0 hm hs hmv hsv =>
    rw [parseTime_min_sec mm ss t hm0 hs0 hm hs hmv hsv, readTime_min_sec mm ss v hm0 hs0 hm hs]
    by_cases hc : decVal mm ≤ 99 ∧ decVal ss ≤ 59
    · rw [if_pos hc, if_pos hc]
    · rw [if_neg hc, if_neg hc]; rfl
  | minSecFrac mm ss frac hm0 hs0 hm hs hf hmv hsv =>
    rw [parseTime_min_sec_frac mm ss frac t hm0 hs0 hm hs hf hmv hsv,
      readTime_min_sec_frac mm ss frac v hm0 hs0 hm hs hf]
    by_cases hc : decVal mm ≤ 99 ∧ decVal ss ≤ 59 ∧ 1 ≤ frac.length ∧ frac.length ≤ 3
    · rw [if_pos hc, if_pos hc]
    · rw [if_neg hc, if_neg hc]; rfl

theorem time_parsers_agree_on_digits_witness :
    (parseTime "1:02.5".toList 7).accepted = acceptedTime (readTime parseInt "1:02.5".toList 7) :=
  time_parsers_agree_on_digits "1:02.5".toList 7 7
    (TimeText.minSecFrac "1".toList "02".toList "5".toList (by decide) (by decide) (by decide)
      (by decide) (by decide) (by decide) (by decide))

/-- C5, at the failing input: two file names at the indices 0 and 1 are scanned without a
syntax error; `args` drops the first, loads the second and returns 1. -/
theorem args_second_file_after_index_zero :
    (args buildStd envAccept 3 ["a.sid".toList, "b.sid".toList] playerInit).map
      (fun r => (r.1, r.2.m_filename)) = some (1, "b.sid".toList) := by
  decide

/-- C6: when the scan ends without a syntax error and the tune loads, a file output flag
(`-w`, `--wav`, `--au`) together with a play length of 0 given by the last `-t` token makes
`args` return -1, wherever the tokens stand in the array. -/
theorem args_rejects_zero_length_recording (b : Build) (env : Env) (fuel : Nat)
    (argv : List (List Char)) (p : Player)
    (hscan : scansAndLoads b env fuel argv p = true)
    (hfile : ∃ tok ∈ argv, IsFileFlag tok)
    (hzero : playLengthGiven b argv = some 0) :
    (args b env fuel argv p).map Prod.fst = some (-1) := by
  unfold scansAndLoads at hscan
  cases hs : scanLoop b env fuel 0 { p := argDefaults p, argv := argv, infile := 0 } with
  | none => rw [hs] at hscan; simp at hscan
  | some res =>
    rw [hs] at hscan
    cases res with
    | help s => simp at hscan
    | syntaxError s i => simp at hscan
    | done r =>
      simp only at hscan
      have hne : argv ≠ [] := by
        rintro rfl
        obtain ⟨t, ht, _⟩ := hfile
        simp at ht
      rw [args_of_done b env fuel argv p r hne hs]
      simp only [Option.map_some', Option.some.injEq]
      have hinv := (scan_done_inv b env argv (argDefaults p)
        (fun i s => ((∃ t ∈ argv.take i, IsFileFlag t) → s.p.m_driver.file = true) ∧
          (∀ v, playLengthGiven b (argv.take i) = some v →
            s.p.m_timer.valid = true ∧ s.p.m_timer.length = v)) fuel r
        ⟨by simp, by simp [playLengthGiven]⟩
        (fun i tok s s1 hget hi hst =>
          ⟨scan_file_inv b env argv i tok s s1 hget hi.1 hst,
           scan_length_inv b env argv i tok s s1 hget hi.2 hst⟩) hs).1
      simp only [List.take_length] at hinv
      obtain ⟨hv, hl⟩ := hinv.2 0 hzero
      exact finish_zero_record b env r hscan (hinv.1 hfile) hv hl

theorem args_rejects_zero_length_recording_witness :
    (args buildStd envAccept 5 ["-t0".toList, "x.sid".toList, "--wav".toList] playerInit).map
      Prod.fst = some (-1) :=
  args_rejects_zero_length_recording buildStd envAccept 5
    ["-t0".toList, "x.sid".toList, "--wav".toList] playerInit (by decide)
    ⟨"--wav".toList, by decide, by decide⟩ (by decide)

/-- C7: when `args` returns 1 and a file output flag carries an attached non-empty name
(`-w<name>`, `--wav<name>`, `--au<name>`), the player ends in file output mode
(`m_driver.file`) with single track mode forced (`m_track.single`), whatever `-o` tokens stand
in front of it or behind it. -/
theorem args_named_output_forces_single (b : Build) (env : Env) (fuel : Nat)
    (argv : List (List Char)) (p : Player)
    (hret : (args b env fuel argv p).map Prod.fst = some 1)
    (hnamed : ∃ tok ∈ argv, IsNamedFileFlag tok) :
    (args b env fuel argv p).map (fun r => (r.2.m_driver.file, r.2.m_track.single))
      = some (true, true) := by
  obtain ⟨r, p1, hs, hfin, hargs⟩ := args_one b env fuel argv p hret
  have hinv := (scan_done_inv b env argv (argDefaults p)
    (fun i s => ((∃ t ∈ argv.take i, IsFileFlag t) → s.p.m_driver.file = true) ∧
      ((∃ t ∈ argv.take i, IsNamedFileFlag t) → s.p.m_outfile.isSome = true)) fuel r
    ⟨by simp, by simp⟩
    (fun i tok s s1 hget hi hst =>
      ⟨scan_file_inv b env argv i tok s s1 hget hi.1 hst,
       scan_outfile_inv b env argv i tok s s1 hget hi.2 hst⟩) hs).1
  simp only [List.take_length] at hinv
  obtain ⟨hd, hsingle, _⟩ := finish_one b env r p1 hfin
  obtain ⟨t, ht, hn⟩ := hnamed
  rw [hargs]
  simp only [Option.map_some', Option.some.injEq, Prod.mk.injEq]
  exact ⟨by rw [hd]; exact hinv.1 ⟨t, ht, isFileFlag_of_named t hn⟩, hsingle (hinv.2 ⟨t, ht, hn⟩)⟩

theorem args_named_output_forces_single_witness :
    (args buildStd envAccept 5 ["-ol".toList, "-wout.wav".toList, "x.sid".toList,
      "-o2".toList] playerInit).map (fun r => (r.2.m_driver.file, r.2.m_track.single))
      = some (true, true) :=
  args_named_output_forces_single buildStd envAccept 5
    ["-ol".toList, "-wout.wav".toList, "x.sid".toList, "-o2".toList] playerInit (by decide)
    ⟨"-wout.wav".toList, by decide, by decide⟩

/-- C8 as stated fails: with `-ol -w --noaudio` the call returns 1 in file output mode
(`m_driver.file` is true) and looping is still enabled. -/
theorem args_file_mode_keeps_loop :
    (args buildStd envAccept 5 ["-ol".toList, "-w".toList, "--noaudio".toList,
      "x.sid".toList] playerInit).map (fun r => (r.1, r.2.m_driver.file, r.2.m_track.loop))
      = some (1, true, true) := by
  decide

/-- C8, amended: when `args` returns 1 and a file output flag (`-w`, `--wav`, `--au`) is not
followed by a flag that selects the null output (`--none`, `--noaudio`, `--hardsid`,
`--exsid`), looping is disabled in the final state, whatever other flags appear. -/
theorem args_file_output_disables_loop (b : Build) (env : Env) (fuel : Nat)
    (pre post : List (List Char)) (tok : List Char) (p : Player)
    (hret : (args b env fuel (pre ++ tok :: post) p).map Prod.fst = some 1)
    (hfile : IsFileFlag tok) (hpost : ∀ t ∈ post, ¬ IsNullOutputFlag b t) :
    (args b env fuel (pre ++ tok :: post) p).map (fun r => r.2.m_track.loop) = some false := by
  obtain ⟨r, p1, hs, hfin, hargs⟩ := args_one b env fuel _ p hret
  have hinv := (scan_done_inv b env (pre ++ tok :: post) (argDefaults p)
    (fun i s => pre.length < i →
      s.p.m_driver.output = Output.OUT_WAV ∨ s.p.m_driver.output = Output.OUT_AU) fuel r
    (by intro h; exact absurd h (Nat.not_lt_zero _))
    (fun i t s s1 hget hi hst =>
      scan_output_inv b env pre post tok hfile hpost i t s s1 hget hi hst) hs).1
  have hout := hinv (by simp)
  obtain ⟨_, _, hloop⟩ := finish_one b env r p1 hfin
  rw [hargs]
  simp only [Option.map_some', Option.some.injEq]
  apply hloop
  rcases hout with h | h <;> rw [h] <;> decide

theorem args_file_output_disables_loop_witness :
    (args buildStd envAccept 5 (["-ol".toList, "--noaudio".toList] ++ "-w".toList ::
      ["x.sid".toList]) playerInit).map (fun r => r.2.m_track.loop) = some false :=
  args_file_output_disables_loop buildStd envAccept 5 ["-ol".toList, "--noaudio".toList]
    ["x.sid".toList] "-w".toList playerInit (by decide) (by decide) (by decide)

/-- C9: `parseAddress` reads an integer with the base detection of C: for every value `v` in
0..65535 the text `0x` with the hexadecimal digits of `v`, the text `0` with the octal digits
of `v` and the decimal digits of `v` each give true and the address `v`; the empty text gives
false and leaves the address; the token `-ds0xd420` sets the second chip address to 0xD420
without a syntax error. -/
theorem parseAddress_base_detection (v a : Nat) (hv : v ≤ 65535) (b : Build) (env : Env)
    (i : Nat) (p : Player) :
    parseAddress ('0' :: 'x' :: Nat.toDigits 16 v) a = (true, v) ∧
    parseAddress ('0' :: Nat.toDigits 8 v) a = (true, v) ∧
    parseAddress (Nat.toDigits 10 v) a = (true, v) ∧
    parseAddress [] a = (false, a) ∧
    optionToken b env i "-ds0xd420".toList p =
      .cont { p with m_engCfg := { p.m_engCfg with secondSidAddress := 0xD420 } }
        "-ds0xd420".toList false := by
  obtain ⟨h16ne, h16d, h16v, _⟩ := toDigits_spec 16 (by decide) (by decide) v
  obtain ⟨_, h8d, h8v, _⟩ := toDigits_spec 8 (by decide) (by decide) v
  obtain ⟨h10ne, h10d, h10v, h10h⟩ := toDigits_spec 10 (by decide) (by decide) v
  refine ⟨?_, ?_, ?_, rfl, ?_⟩
  · rw [parseAddress_hex _ a h16ne h16d (by rw [h16v]; exact hv), h16v]
  · rw [parseAddress_oct _ a h8d (by rw [h8v]; exact hv), h8v]
  · by_cases h0 : v = 0
    · subst h0; rfl
    · cases hd : Nat.toDigits 10 v with
      | nil => exact absurd hd h10ne
      | cons d ds =>
        rw [hd] at h10d h10v h10h
        rw [parseAddress_dec d ds a h10d (h10h (Nat.pos_of_ne_zero h0) d (by simp))
          (by rw [h10v]; exact hv), h10v]
  · rfl

theorem parseAddress_base_detection_witness :
    parseAddress ('0' :: 'x' :: Nat.toDigits 16 54304) 0 = (true, 54304) ∧
    parseAddress ('0' :: Nat.toDigits 8 54304) 0 = (true, 54304) ∧
    parseAddress (Nat.toDigits 10 54304) 0 = (true, 54304) ∧
    parseAddress [] 0 = (false, 0) ∧
    optionToken buildStd envAccept 0 "-ds0xd420".toList playerInit =
      .cont { playerInit with
              m_engCfg := { playerInit.m_engCfg with secondSidAddress := 0xD420 } }
        "-ds0xd420".toList false :=
  parseAddress_base_detection 54304 0 (by decide) buildStd envAccept 0 playerInit

/-- C10, at the failing input: `clear` does not assign the digiboost flag, which keeps the
value it had before the call; two prior states that differ in it are not made equal. -/
theorem clear_keeps_digiboost (b : Build) (f : Int) (c : IniConfig) :
    (IniConfig.clear b f c).emulation_s.digiboost = c.emulation_s.digiboost ∧
      IniConfig.clear b f
        { iniZero with emulation_s := { iniZero.emulation_s with digiboost := true } }
        ≠ IniConfig.clear b f iniZero := by
  refine ⟨rfl, ?_⟩
  intro h
  have := congrArg (fun x => x.emulation_s.digiboost) h
  simp [IniConfig.clear, iniZero] at this

/-- C11: a known key that is present with an empty value leaves its target field, after the
whole load, at the value `clear ()` gave it; and each typed reader and each enumerated block,
on an empty value, returns its target as it was (`readTime` returns false). -/
theorem read_empty_value_keeps_default (b : Build) (f : Int) (E : IniEnv) (ini : Ini)
    (c : IniConfig) (k : Setting) (r : Int) (x : Rat) (t : Bool) (ch : Char) (m1 : C64Model)
    (m2 : SidModel) (m3 : SamplingMethod) (h : ini k.sect k.key = some []) :
    k.get (IniConfig.read b f E (some ini) c) = k.get (IniConfig.clear b f c) ∧
      readInt E.parseInt (some []) r = r ∧ readDouble E.parseDouble (some []) x = x ∧
      readBool E.parseBool (some []) t = t ∧ readChar E.parseInt E.oob (some []) ch = ch ∧
      readTime E.parseInt (readString (some [])) r = (false, r) ∧
      readC64Model (readString (some [])) m1 = m1 ∧
      readSidModel (readString (some [])) m2 = m2 ∧
      readSampling (readString (some [])) m3 = m3 :=
  ⟨read_empty_field b f E ini c k h, rfl, rfl, rfl, rfl, rfl, rfl, rfl, rfl⟩

theorem read_empty_value_keeps_default_witness :
    iniEmpty "Console" "Top left char" = some [] ∧
      Setting.topLeft.get (IniConfig.read buildStd 48000 iniEnvStd (some iniEmpty) iniZero) =
        FieldVal.glyph '+' ∧
      readInt parseInt (some []) 7 = 7 :=
  ⟨rfl,
    (read_empty_value_keeps_default buildStd 48000 iniEnvStd iniEmpty iniZero Setting.topLeft 7
      0 true '+' C64Model.PAL SidModel.MOS6581 SamplingMethod.INTERPOLATE rfl).1,
    (read_empty_value_keeps_default buildStd 48000 iniEnvStd iniEmpty iniZero Setting.topLeft 7
      0 true '+' C64Model.PAL SidModel.MOS6581 SamplingMethod.INTERPOLATE rfl).2.1⟩

/-- C12: when the value of a key fails to parse with the reader of the key (the parser of
an integer, a double or a boolean raises `parseError`, a character code without a quote does
not parse, `readTime` returns false), the target field after the load is the one `clear ()`
set, and the load goes on: it gives the settings it gives with this value emptied, every
other key read as it stands. -/
theorem read_rejected_value_keeps_field (b : Build) (f : Int) (E : IniEnv) (ini : Ini)
    (c : IniConfig) (k : Setting) (v : List Char) (h : ini k.sect k.key = some v)
    (hr : k.rejects E v) :
    k.get (IniConfig.read b f E (some ini) c) = k.get (IniConfig.clear b f c) ∧
      IniConfig.read b f E (some ini) c =
        IniConfig.read b f E (some (ini.set k.sect k.key (some []))) c := by
  refine ⟨?_, read_rejected b f E ini c k v h hr⟩
  rw [read_rejected b f E ini c k v h hr]
  exact read_empty_field b f E _ c k (Ini.set_same ini _ _ _)

theorem read_rejected_value_keeps_field_witness :
    (iniEmpty.set "Audio" "Sample rate" (some "abc".toList)) "Audio" "Sample rate" =
        some "abc".toList ∧
      Setting.frequency.get (IniConfig.read buildStd 48000 iniEnvStd
          (some (iniEmpty.set "Audio" "Sample rate" (some "abc".toList))) iniZero) =
        FieldVal.int 48000 :=
  ⟨by decide,
    (read_rejected_value_keeps_field buildStd 48000 iniEnvStd
      (iniEmpty.set "Audio" "Sample rate" (some "abc".toList)) iniZero Setting.frequency
      "abc".toList (by decide) (by decide)).1⟩

/-- C16 as stated fails: characters behind the closing quote are not looked at; the value
`'X'abc` sets the glyph to `X`. -/
theorem readChar_accepts_text_behind_quote :
    readChar parseInt (Char.ofNat 0)
      (some (Char.ofNat 39 :: 'X' :: Char.ofNat 39 :: "abc".toList)) '+' = 'X' := by
  decide

/-- C16, amended: `readChar` leaves the glyph as it is for an absent or empty value. Of a
value that begins with a quote it looks at the next two characters only: with a quote in
third place the glyph becomes the second character when its code is at least 32, whatever
follows, and without one (or with a shorter value) the glyph stays. Every other value goes to
`parseInt`: a parse error leaves the glyph, an integer `n` makes it the character of code
`n mod 256` when that code is at least 32; so a decimal number `n` below 2^31 gives the
character of code `n mod 256` or, if that is below 32, leaves the glyph. -/
theorem readChar_forms (pi : List Char → Option Int) (oob x y : Char) (rest ds : List Char)
    (ch : Char) (hy : y ≠ Char.ofNat 39) (hd : ds ≠ []) (hds : ∀ c ∈ ds, c.isDigit = true)
    (hv : decVal ds ≤ 2147483647) :
    readChar pi oob none ch = ch ∧ readChar pi oob (some []) ch = ch ∧
    readChar pi oob (some (Char.ofNat 39 :: x :: Char.ofNat 39 :: rest)) ch =
      (if 32 ≤ x.toNat then x else ch) ∧
    readChar pi oob (some [Char.ofNat 39]) ch = ch ∧
    readChar pi oob (some [Char.ofNat 39, x]) ch = ch ∧
    readChar pi oob (some (Char.ofNat 39 :: x :: y :: rest)) ch = ch ∧
    readChar pi oob (some (y :: rest)) ch =
      (match pi (y :: rest) with
        | some n => if 32 ≤ toU8 n then Char.ofNat (toU8 n) else ch
        | none => ch) ∧
    readChar parseInt oob (some ds) ch =
      (if 32 ≤ decVal ds % 256 then Char.ofNat (decVal ds % 256) else ch) := by
  refine ⟨rfl, rfl, ?_, ?_, ?_, ?_, readChar_number pi oob y rest ch hy, ?_⟩
  · simp [readChar, readString, strAt_zero, strAt_one, strAt_two]
  · simp only [readChar, readString, List.isEmpty_cons, Bool.false_eq_true, if_false,
      strAt_zero, if_true]
    by_cases h : strAt oob [Char.ofNat 39] 2 = Char.ofNat 39
    · have h1 : strAt oob [Char.ofNat 39] 1 = Char.ofNat 0 := by simp [strAt]
      simp [h, h1]
    · simp [h]
  · have h2 : strAt oob [Char.ofNat 39, x] 2 = Char.ofNat 0 := by simp [strAt]
    simp [readChar, readString, strAt_zero, h2]
  · simp [readChar, readString, strAt_zero, strAt_two, hy]
  · obtain ⟨z, r, rfl, hz⟩ := digit_ne_quote ds hd hds
    rw [readChar_number parseInt oob z r ch hz, parseInt_digits_nil _ hd hds, if_pos hv]
    have e : toU8 ((decVal (z :: r) : Nat) : Int) = decVal (z :: r) % 256 := by
      unfold toU8; omega
    simp only [e]

theorem readChar_forms_witness :
    readChar parseInt (Char.ofNat 0) none '+' = '+' ∧
    readChar parseInt (Char.ofNat 0) (some []) '+' = '+' ∧
    readChar parseInt (Char.ofNat 0) (some (Char.ofNat 39 :: 'X' :: Char.ofNat 39 :: "bc".toList))
      '+' = 'X' ∧
    readChar parseInt (Char.ofNat 0) (some [Char.ofNat 39]) '+' = '+' ∧
    readChar parseInt (Char.ofNat 0) (some [Char.ofNat 39, 'X']) '+' = '+' ∧
    readChar parseInt (Char.ofNat 0) (some (Char.ofNat 39 :: 'X' :: 'a' :: "bc".toList)) '+' =
      '+' ∧
    readChar parseInt (Char.ofNat 0) (some "abc".toList) '+' = '+' ∧
    readChar parseInt (Char.ofNat 0) (some "300".toList) '+' = ',' :=
  readChar_forms parseInt (Char.ofNat 0) 'X' 'a' "bc".toList "300".toList '+' (by decide)
    (by decide) (by decide) (by decide)

/-- C17 as stated fails: the option chain looks at the beginning of a token only; `-sx` is
none of the listed forms and is taken as `-s`: stereo is set and `args` returns 1. -/
theorem args_accepts_option_with_trailing_text :
    (args buildStd envAccept 3 ["-sx".toList, "a.sid".toList] playerInit).map
      (fun r => (r.1, r.2.m_channels)) = some (1, 2) := by
  decide

/-- C17, amended: a token `-x...` that matches no condition of the option chain (behind the
`-` it begins with none of h, b, f, o, p, q, t, r, s, m, v, w, ds, nf, -delay=, -wav, -au,
-info and is none of -help, -help-dbg, -none, -nosid, -noaudio, -cpu-debug and the option
names of the build), and a token `-r` not followed by `i` or `r`, is a syntax error: `args`
returns -1 when the scan reaches it. -/
theorem args_unknown_option_rejected (b : Build) (env : Env) (fuel : Nat)
    (argv : List (List Char)) (p : Player) (i : Nat) (tok : List Char)
    (hreach : (stateAt b env argv p i).isSome = true) (htok : argv[i]? = some tok)
    (hbad : IsUnknownOption b tok ∨ IsResampleWithoutMethod tok) (hfuel : i < fuel) :
    (args b env fuel argv p).map Prod.fst = some (-1) := by
  obtain ⟨s, hs, _⟩ := stateAt_spec b env argv p i hreach
  rcases hbad with h | h
  · rw [args_error_token b env fuel argv p i s tok tok s.p hs htok h.1
      (optionToken_unknown b env i tok s.p h) hfuel]
    rfl
  · obtain ⟨ho, q, hq⟩ := optionToken_resample_err b env i tok s.p h
    rw [args_error_token b env fuel argv p i s tok tok q hs htok ho hq hfuel]
    rfl

theorem args_unknown_option_rejected_witness :
    (stateAt buildStd envAccept ["-s".toList, "--bogus".toList, "a.sid".toList] playerInit
        1).isSome = true ∧
      IsUnknownOption buildStd "--bogus".toList ∧
      (args buildStd envAccept 4 ["-s".toList, "--bogus".toList, "a.sid".toList]
        playerInit).map Prod.fst = some (-1) :=
  ⟨by decide, by decide,
    args_unknown_option_rejected buildStd envAccept 4
      ["-s".toList, "--bogus".toList, "a.sid".toList] playerInit 1 "--bogus".toList
      (by decide) (by decide) (Or.inl (by decide)) (by decide)⟩

/-- C18 as stated fails: an attached value that is not a number is read as far as it goes by
`strtol` and `atoi` and is not refused; with `-dsxyz`, `-pabc` and `-babc` in front of the
file name `args` returns 1. -/
theorem args_accepts_non_numeric_values :
    (args buildStd envAccept 5
        ["-dsxyz".toList, "-pabc".toList, "-babc".toList, "a.sid".toList] playerInit).map
      Prod.fst = some 1 := by
  decide

/-- C18, amended: the tokens `-f`, `-p`, `-ds` (and `-ts` in a build with a third SID) with
nothing attached, and the tokens `-b<time>` and `-t<time>` whose time is empty, has minutes
outside 0..99 in front of a colon, seconds outside 0..59 behind it, or a fraction of no or
more than three digits, make `args` return -1 when the scan reaches them. -/
theorem args_refused_value_rejected (b : Build) (env : Env) (fuel : Nat)
    (argv : List (List Char)) (p : Player) (i : Nat) (tok : List Char)
    (hreach : (stateAt b env argv p i).isSome = true) (htok : argv[i]? = some tok)
    (hbad : IsRefusedValue b tok) (hfuel : i < fuel) :
    (args b env fuel argv p).map Prod.fst = some (-1) := by
  obtain ⟨s, hs, _⟩ := stateAt_spec b env argv p i hreach
  obtain ⟨ho, q, tok1, hq⟩ := optionToken_refused b env i tok s.p hbad
  rw [args_error_token b env fuel argv p i s tok tok1 q hs htok ho hq hfuel]
  rfl

theorem args_refused_value_rejected_witness :
    (stateAt buildStd envAccept ["-s".toList, "-t0:60".toList, "a.sid".toList] playerInit
        1).isSome = true ∧
      (args buildStd envAccept 4 ["-s".toList, "-t0:60".toList, "a.sid".toList]
        playerInit).map Prod.fst = some (-1) :=
  ⟨by decide,
    args_refused_value_rejected buildStd envAccept 4
      ["-s".toList, "-t0:60".toList, "a.sid".toList] playerInit 1 "-t0:60".toList
      (by decide) (by decide)
      (Or.inr (Or.inr (Or.inr (Or.inr (Or.inr ⟨"0:60".toList, by decide,
        Or.inr (Or.inr (Or.inr (Or.inl ⟨"0".toList, "60".toList, [], by decide, by decide,
          by decide, by decide, by decide, Or.inl rfl⟩)))⟩)))))
      (by decide)⟩

/-- C20, at the failing input: with 256 tokens `-s` the call of `args` does not return,
whatever the number of passes allowed to the scan loop: the 8 bit index wraps from 255 to 0
and stays below the count. -/
theorem args_never_returns_on_256_tokens (b : Build) (env : Env) (fuel : Nat) (p : Player) :
    args b env fuel (List.replicate 256 ['-', 's']) p = none := by
  have hl : (List.replicate 256 ['-', 's']).length = 256 := List.length_replicate _ _
  unfold args
  rw [if_neg (by rw [hl]; decide),
    scanLoop_stereo_none b env fuel 0 _ hl (fun tok h => List.eq_of_mem_replicate h) (by decide)]

/-- C22 as stated fails in its last sentence: a later `-os` token clears the loop flag that
`-ol` has set. -/
theorem args_later_track_flag_clears_earlier :
    (args buildStd envAccept 4 ["-ol".toList, "-os".toList, "a.sid".toList] playerInit).map
      (fun r => (r.1, r.2.m_track.loop, r.2.m_track.single)) = some (1, false, true) := by
  decide

/-- C22, amended: for a decimal number `N` below 2^31, also an omitted one (read as 0), every
`-ol` or `-os` token assigns both flags: `-ol<N>` sets loop and clears single, `-os<N>` sets
single and clears loop, `-ols<N>` and `-osl<N>` set both, all with start track `N`; a plain
`-o<N>` sets the start track `N` and leaves both flags as they were. -/
theorem optionToken_track_flags (b : Build) (env : Env) (i : Nat) (ds : List Char)
    (p : Player) (hds : ∀ c ∈ ds, c.isDigit = true) (hv : decVal ds ≤ 2147483647) :
    optionToken b env i ('-' :: 'o' :: 'l' :: ds) p =
        .cont { p with m_track := { p.m_track with
                  loop := true, single := false, first := (decVal ds : Int) } }
          ('-' :: 'o' :: 'l' :: ds) false ∧
      optionToken b env i ('-' :: 'o' :: 's' :: ds) p =
        .cont { p with m_track := { p.m_track with
                  loop := false, single := true, first := (decVal ds : Int) } }
          ('-' :: 'o' :: 's' :: ds) false ∧
      optionToken b env i ('-' :: 'o' :: 'l' :: 's' :: ds) p =
        .cont { p with m_track := { p.m_track with
                  loop := true, single := true, first := (decVal ds : Int) } }
          ('-' :: 'o' :: 'l' :: 's' :: ds) false ∧
      optionToken b env i ('-' :: 'o' :: 's' :: 'l' :: ds) p =
        .cont { p with m_track := { p.m_track with
                  loop := true, single := true, first := (decVal ds : Int) } }
          ('-' :: 'o' :: 's' :: 'l' :: ds) false ∧
      optionToken b env i ('-' :: 'o' :: ds) p =
        .cont { p with m_track := { p.m_track with first := (decVal ds : Int) } }
          ('-' :: 'o' :: ds) false := by
  have ha := atoi_digits_all ds hds hv
  have c3s : charAt env i (['-', 'o', 'l'] ++ ds) 3 ≠ 's' :=
    charAt_digits env i ['-', 'o', 'l'] ds 's' hds (by decide) (by decide)
  have c3l : charAt env i (['-', 'o', 's'] ++ ds) 3 ≠ 'l' :=
    charAt_digits env i ['-', 'o', 's'] ds 'l' hds (by decide) (by decide)
  have c2l : charAt env i (['-', 'o'] ++ ds) 2 ≠ 'l' :=
    charAt_digits env i ['-', 'o'] ds 'l' hds (by decide) (by decide)
  have c2s : charAt env i (['-', 'o'] ++ ds) 2 ≠ 's' :=
    charAt_digits env i ['-', 'o'] ds 's' hds (by decide) (by decide)
  simp only [List.cons_append, List.nil_append] at c3s c3l c2l c2s
  refine ⟨?_, ?_, ?_, ?_, ?_⟩
  · have h2 : charAt env i ('-' :: 'o' :: 'l' :: ds) 2 = 'l' := by simp [charAt]
    rw [optionToken_o]
    simp only [optionBody, h2, if_true, c3s, if_false, decide_False, List.drop_succ_cons,
      List.drop_zero, ha]
  · have h2 : charAt env i ('-' :: 'o' :: 's' :: ds) 2 = 's' := by simp [charAt]
    rw [optionToken_o]
    simp only [optionBody, h2, if_true, c3l, if_false, decide_False, List.drop_succ_cons,
      List.drop_zero, ha]
    simp
  · have h2 : charAt env i ('-' :: 'o' :: 'l' :: 's' :: ds) 2 = 'l' := by simp [charAt]
    have h3 : charAt env i ('-' :: 'o' :: 'l' :: 's' :: ds) 3 = 's' := by simp [charAt]
    rw [optionToken_o]
    simp only [optionBody, h2, h3, if_true, decide_True, List.drop_succ_cons,
      List.drop_zero, ha]
  · have h2 : charAt env i ('-' :: 'o' :: 's' :: 'l' :: ds) 2 = 's' := by simp [charAt]
    have h3 : charAt env i ('-' :: 'o' :: 's' :: 'l' :: ds) 3 = 'l' := by simp [charAt]
    rw [optionToken_o]
    simp only [optionBody, h2, h3, if_true, decide_True, List.drop_succ_cons,
      List.drop_zero, ha]
    simp
  · rw [optionToken_o]
    simp only [optionBody, c2l, c2s, if_false, List.drop_succ_cons, List.drop_zero, ha]

theorem optionToken_track_flags_witness :
    optionToken buildStd envAccept 0 "-ol5".toList playerInit =
        .cont { playerInit with m_track := { playerInit.m_track with
                  loop := true, single := false, first := 5 } } "-ol5".toList false ∧
      optionToken buildStd envAccept 0 "-o5".toList playerInit =
        .cont { playerInit with m_track := { playerInit.m_track with first := 5 } }
          "-o5".toList false :=
  ⟨(optionToken_track_flags buildStd envAccept 0 "5".toList playerInit (by decide)
      (by decide)).1,
    (optionToken_track_flags buildStd envAccept 0 "5".toList playerInit (by decide)
      (by decide)).2.2.2.2⟩

/-- C23: when `args` returns 1 for a player whose timer was not marked valid, the tokens give
a play length exactly when one of them is a `-t<time>` token; the timer length then is the
time of the last `-t` token, whatever the settings hold, and otherwise it is the record
length of the settings in file output mode and their play length else, converted to the 32
bit unsigned type of the timer. -/
theorem args_play_length_precedence (b : Build) (env : Env) (fuel : Nat)
    (argv : List (List Char)) (p : Player)
    (hret : (args b env fuel argv p).map Prod.fst = some 1)
    (hvalid : p.m_timer.valid = false) :
    ∃ q, args b env fuel argv p = some (1, q) ∧
      ((playLengthGiven b argv).isSome = true ↔
        ∃ tok ∈ argv, (lengthArg b tok).isSome = true) ∧
      q.m_timer.length =
        match playLengthGiven b argv with
        | some v => v
        | none =>
          toU32 (if q.m_driver.file = true then p.m_iniCfg.sidplayfp_s.recordLength
                 else p.m_iniCfg.sidplayfp_s.playLength) := by
  obtain ⟨r, p1, hs, hfin, hargs⟩ := args_one b env fuel argv p hret
  have hinv := (scan_done_inv b env argv (argDefaults p)
    (fun i s => (∀ v, playLengthGiven b (argv.take i) = some v →
        s.p.m_timer.valid = true ∧ s.p.m_timer.length = v) ∧
      (playLengthGiven b (argv.take i) = none →
        s.p.m_timer.valid = false ∧ ∀ t ∈ argv.take i, lengthArg b t = none) ∧
      sameBehindScan s.p p) fuel r
    ⟨by simp [playLengthGiven], fun _ => ⟨hvalid, by simp⟩, ⟨rfl, rfl, rfl, rfl, rfl⟩⟩
    (fun i tok s s1 hget hi hst =>
      ⟨scan_length_inv b env argv i tok s s1 hget hi.1 hst,
       scan_nolength_inv b env argv i tok s s1 hget hi.2.1 hst,
       scan_ini_inv b env p i tok s s1 hi.2.2 hst⟩) hs).1
  simp only [List.take_length] at hinv
  obtain ⟨hA, hB, hC⟩ := hinv
  obtain ⟨hd, hlen⟩ := finish_one_length b env r p1 hfin
  refine ⟨p1, hargs, ?_, ?_⟩
  · constructor
    · intro hsome
      by_contra hno
      have hall : ∀ t ∈ argv, lengthArg b t = none := by
        intro t ht
        cases hl : lengthArg b t with
        | none => rfl
        | some z => exact absurd ⟨t, ht, by rw [hl]; rfl⟩ hno
      rw [playLengthGiven_none_of_no_arg b argv hall] at hsome
      cases hsome
    · rintro ⟨t, ht, hl⟩
      cases hg : playLengthGiven b argv with
      | some v => rfl
      | none =>
        rw [(hB hg).2 t ht] at hl
        cases hl
  · cases hg : playLengthGiven b argv with
    | some v =>
      obtain ⟨h1, h2⟩ := hA v hg
      rw [hlen, if_pos h1, h2]
    | none =>
      obtain ⟨h1, _⟩ := hB hg
      have hnv : ¬ r.p.m_timer.valid = true := by rw [h1]; decide
      rw [hlen, if_neg hnv, hd, hC.2.1]

theorem args_play_length_precedence_witness :
    ∃ q, args buildStd envAccept 5 ["-t10".toList, "-t1:30".toList, "a.sid".toList]
        playerInit = some (1, q) ∧
      ((playLengthGiven buildStd ["-t10".toList, "-t1:30".toList, "a.sid".toList]).isSome
          = true ↔
        ∃ tok ∈ ["-t10".toList, "-t1:30".toList, "a.sid".toList],
          (lengthArg buildStd tok).isSome = true) ∧
      q.m_timer.length = 90000 :=
  args_play_length_precedence buildStd envAccept 5
    ["-t10".toList, "-t1:30".toList, "a.sid".toList] playerInit
    (by decide) (by decide)

/-- C24, at the failing input: `-mof -m1` ends with the chip model not forced; every `-m`
token assigns the force flag from its own fourth character. With `-mof` alone the model is
forced. -/
theorem args_mute_token_unforces_model :
    (args buildStd envAccept 4 ["-mof".toList, "-m1".toList, "a.sid".toList] playerInit).map
      (fun r => (r.1, r.2.m_engCfg.defaultSidModel, r.2.m_engCfg.forceSidModel)) =
        some (1, SidModel.MOS6581, false) ∧
    (args buildStd envAccept 4 ["-mof".toList, "a.sid".toList] playerInit).map
      (fun r => (r.1, r.2.m_engCfg.defaultSidModel, r.2.m_engCfg.forceSidModel)) =
        some (1, SidModel.MOS6581, true) := by
  decide

/-- C25, at the failing input: `-p256` gives the precision 16; the number is stored in 8 bits
before it is compared with 16. -/
theorem args_precision_wraps_at_256 :
    (args buildStd envAccept 3 ["-p256".toList, "a.sid".toList] playerInit).map
      (fun r => (r.1, r.2.m_precision)) = some (1, 16) := by
  decide

/-- C26, at the failing input: with 256 tokens `-s` the scan has not ended after 256 passes
and the index of the next pass is 0 again: the first token is examined a second time. -/
theorem scan_index_wraps_after_256_tokens (b : Build) (env : Env) (p : Player) :
    (scanSteps b env 256 0
      { p := argDefaults p, argv := List.replicate 256 ['-', 's'], infile := 0 }).map
        Prod.fst = some 0 := by
  have hl : (List.replicate 256 ['-', 's']).length = 256 := List.length_replicate _ _
  rw [scanSteps_stereo b env 256 0 _ hl (fun tok h => List.eq_of_mem_replicate h) (by decide)]

/-- C27, at the failing inputs: for the tokens `-m`, `-v` and `-r` the result depends on the
character at position 3, one behind the terminating NUL at position 2: with `f` in the memory
behind the token the force flag of the chip model, the force flag of the clock and the fast
sampling flag are set, with `x` there they are not. -/
theorem args_reads_behind_short_token :
    (args buildStd (envBehind 'f') 3 ["-m".toList, "a.sid".toList] playerInit).map
        (fun r => r.2.m_engCfg.forceSidModel) = some true ∧
      (args buildStd (envBehind 'x') 3 ["-m".toList, "a.sid".toList] playerInit).map
        (fun r => r.2.m_engCfg.forceSidModel) = some false ∧
      (args buildStd (envBehind 'f') 3 ["-v".toList, "a.sid".toList] playerInit).map
        (fun r => r.2.m_engCfg.forceC64Model) = some true ∧
      (args buildStd (envBehind 'x') 3 ["-v".toList, "a.sid".toList] playerInit).map
        (fun r => r.2.m_engCfg.forceC64Model) = some false ∧
      (args buildStd (envBehind 'f') 3 ["-r".toList, "a.sid".toList] playerInit).map
        (fun r => r.2.m_engCfg.fastSampling) = some true ∧
      (args buildStd (envBehind 'x') 3 ["-r".toList, "a.sid".toList] playerInit).map
        (fun r => r.2.m_engCfg.fastSampling) = some false := by
  decide

/-- C28: for `maxLen` of at least 3 `trimString` returns the string as it is when it has at
most `maxLen` characters and else its first `maxLen - 3` characters followed by `...`; the
result has the smaller of the two lengths, so never more than `maxLen` characters. -/
theorem trimString_bounds (str : List Char) (maxLen : Nat) (h : 3 ≤ maxLen) :
    trimString str maxLen =
        some (if str.length ≤ maxLen then str else str.take (maxLen - 3) ++ ['.', '.', '.']) ∧
      (trimString str maxLen).map List.length = some (min str.length maxLen) := by
  unfold trimString
  by_cases hl : str.length ≤ maxLen
  · rw [if_neg (by omega), if_pos hl]
    simp only [Option.map_some', Option.some.injEq, true_and]
    omega
  · rw [if_pos (by omega), if_neg (by omega), if_neg hl]
    simp only [Option.map_some', Option.some.injEq, true_and, List.length_append,
      List.length_take, List.length_cons, List.length_nil]
    omega

theorem trimString_bounds_witness :
    trimString "abcdefgh".toList 6 = some "abc...".toList ∧
      (trimString "abcdefgh".toList 6).map List.length = some 6 :=
  trimString_bounds "abcdefgh".toList 6 (by decide)

/-- C29: for a table of 96 strictly increasing frequencies in 1..65535, `getNote (0)` is
`---`, and for a frequency `f` in 1..65535 `getNote (f)` is the name at an index within
`noteName`, is not `---`, and is the name of the entry `j` that is as close to `f` as every
entry and closer than every entry in front of it. -/
theorem getNote_nearest (tbl : List Nat) (f : Nat) (hlen : tbl.length = 96)
    (hinc : List.Pairwise (fun a b => a < b) tbl) (hrange : ∀ x ∈ tbl, 1 ≤ x ∧ x ≤ 65535)
    (hf1 : 1 ≤ f) (hf2 : f ≤ 65535) :
    getNote tbl 0 = some "---" ∧ getNote tbl f ≠ some "---" ∧
      (getNote tbl f).isSome = true ∧
      ∃ j, j < 96 ∧ getNote tbl f = noteName[j + 1]? ∧
        (∀ k, k < 96 → noteDistance tbl f j ≤ noteDistance tbl f k) ∧
        (∀ k, k < j → noteDistance tbl f j < noteDistance tbl f k) := by
  have hmono := getD_of_pairwise tbl hlen hinc
  have h0 : noteDistance tbl f 0 < 65535 := by
    have hr := hrange (tbl.getD 0 0) (by
      rw [List.getD_eq_getElem _ _ (by omega : 0 < tbl.length)]
      exact List.getElem_mem _)
    unfold noteDistance
    omega
  have hloop : getNoteLoop tbl f 96 0 65535 = getNoteLoop tbl f 95 1 (noteDistance tbl f 0) := by
    have hd : ((f : Int) - (tbl.getD 0 0 : Int)).natAbs = noteDistance tbl f 0 := rfl
    rw [show getNoteLoop tbl f 96 0 65535 =
      (if ((f : Int) - (tbl.getD 0 0 : Int)).natAbs < 65535 then
        getNoteLoop tbl f 95 (0 + 1) ((f : Int) - (tbl.getD 0 0 : Int)).natAbs
      else 0) from rfl, hd, if_pos h0]
  obtain ⟨r1, r2, r3, r4⟩ := getNoteLoop_spec tbl f hmono 95 1 rfl (le_refl _)
    (fun k hk => absurd hk (Nat.not_lt_zero _))
  simp only [Nat.sub_self] at r1 r2 r3 r4
  have hget : getNote tbl f = noteName[getNoteLoop tbl f 95 1 (noteDistance tbl f 0)]? := by
    unfold getNote
    rw [if_pos (by omega), hloop]
  generalize getNoteLoop tbl f 95 1 (noteDistance tbl f 0) = r at r1 r2 r3 r4 hget
  obtain ⟨j, rfl⟩ : ∃ j, r = j + 1 := ⟨r - 1, by omega⟩
  simp only [Nat.add_sub_cancel] at r3 r4
  refine ⟨rfl, ?_, ?_, j, by omega, hget, r3, r4⟩
  · rw [hget]; exact noteName_named j
  · rw [hget]
    have : j + 1 < noteName.length := by rw [noteName_length]; omega
    rw [List.getElem?_eq_getElem this]
    rfl

set_option maxRecDepth 100000 in
theorem getNote_nearest_witness :
    getNote freqTableStd 0 = some "---" ∧ getNote freqTableStd 418 ≠ some "---" ∧
      (getNote freqTableStd 418).isSome = true ∧
      ∃ j, j < 96 ∧ getNote freqTableStd 418 = noteName[j + 1]? ∧
        (∀ k, k < 96 → noteDistance freqTableStd 418 j ≤ noteDistance freqTableStd 418 k) ∧
        (∀ k, k < j → noteDistance freqTableStd 418 j < noteDistance freqTableStd 418 k) :=
  getNote_nearest freqTableStd 418 (by decide) (by decide) (by decide) (by decide) (by decide)

end Sidplayfp
